import Mathlib

/-! # Asynchronous web server (`async-web-server/src/aws.c`)

A shallow embedding of the connection state machine of `aws.c`.

* Buffers (`char buf[BUFSIZ]`) are lists of characters; a C string is the part of a
  buffer before its first NUL.
* `BUFSIZ` comes from the C library and is a parameter of every function that uses it.
* `size_t` fields are natural numbers, reduced modulo `2 ^ 64` where the C arithmetic wraps.
* System calls are answered by an environment `Env` (one answer per call, indexed by the
  number of earlier calls of the same kind) and are logged in the `trace` of a `World`.
-/

namespace Aws

/-! ## C strings and buffers -/

/-- The NUL character, terminator of C strings. -/
def NUL : Char := Char.ofNat 0

/-- The C string stored at the start of a buffer: the characters before the first NUL. -/
def cstr (buf : List Char) : List Char :=
  buf.takeWhile (fun c => c != NUL)

/-- The libc call `strlen(buf)`. -/
def strlen (buf : List Char) : Nat :=
  (cstr buf).length

/-- The libc call `memset(buf, 0, n)` on a buffer of `n` bytes. -/
def zeroed (n : Nat) : List Char :=
  List.replicate n NUL

/-- The libc call `memcpy(dst, src, n)`: the first `n` bytes of `dst` are replaced by the
first `n` bytes of `src`. -/
def memcpy (dst src : List Char) (n : Nat) : List Char :=
  src.take n ++ dst.drop n

/-- The assignment `buf[i] = c`. -/
def poke (buf : List Char) (i : Nat) (c : Char) : List Char :=
  buf.set i c

/-- The call `strstr(haystack, needle)` of the system C library, against which `aws.c` is
built, on C strings: the index of the first occurrence of `needle` in `haystack`, `none`
for a NULL result. -/
def strstr : List Char → List Char → Option Nat
  | [], n => if n.isPrefixOf [] then some 0 else none
  | c :: h, n =>
    if n.isPrefixOf (c :: h) then some 0
    else (strstr h n).map (fun i => i + 1)

/-- The `size_t` modulus. -/
def SIZE_MOD : Nat := 2 ^ 64

/-! ## Data model (`struct connection`, declared in `aws.h`) -/

/-- The connection states that `aws.c` uses (`enum connection_state`). -/
inductive connection_state where
  | STATE_INITIAL
  | STATE_RECEIVING_DATA
  | STATE_REQUEST_RECEIVED
  | STATE_SENDING_DATA
  | STATE_SENDING_404
  | STATE_DATA_SENT
  | STATE_CONNECTION_CLOSED
  deriving DecidableEq, Repr

/-- The resource kinds (`enum resource_type`). -/
inductive resource_type where
  | RESOURCE_TYPE_NONE
  | RESOURCE_TYPE_STATIC
  | RESOURCE_TYPE_DYNAMIC
  deriving DecidableEq, Repr

open connection_state resource_type

/-- The fields of `struct connection` that `aws.c` reads or writes. The asynchronous
context `ctx` and the parser live in the `World`. -/
structure connection where
  sockfd : Int
  fd : Int
  filename : List Char
  file_size : Nat
  recv_buffer : List Char
  recv_len : Nat
  send_buffer : List Char
  send_len : Nat
  send_pos : Nat
  file_pos : Nat
  async_read_len : Nat
  have_path : Int
  request_path : List Char
  res_type : resource_type
  state : connection_state
  deriving DecidableEq, Repr

/-! ## Response headers -/

/-- The format string of `connection_prepare_send_reply_header`, instantiated:
`snprintf` with `%s` the content type and `%zu` the file size in decimal. -/
def reply_header_text (content_type : List Char) (file_size : Nat) : List Char :=
  "HTTP/1.1 200 OK\r\n".toList
    ++ "Content-Type: ".toList ++ content_type ++ "\r\n".toList
    ++ "Content-Length: ".toList ++ Nat.toDigits 10 file_size ++ "\r\n".toList
    ++ "Connection: close\r\n".toList
    ++ "\r\n".toList

/-- The libc call `snprintf(header, size, ...)` producing `text`: the local buffer holds
the first `size - 1` characters and a NUL; the returned length is that of `text`. -/
def snprintf (size : Nat) (text : List Char) : List Char × Nat :=
  (text.take (size - 1) ++ [NUL], text.length)

/-- The function `connection_prepare_send_reply_header`. -/
def connection_prepare_send_reply_header (BUFSIZ : Nat) (conn : connection) : connection :=
  let content_type := "application/octet-stream".toList
  let (header, header_length) := snprintf BUFSIZ (reply_header_text content_type conn.file_size)
  if header_length ≥ BUFSIZ then
    { conn with state := STATE_CONNECTION_CLOSED }
  else
    { conn with
      send_buffer := memcpy conn.send_buffer header header_length
      send_len := header_length
      send_pos := 0 }

/-- The string literal that initialises `buff` in `connection_prepare_send_404`. -/
def reply_404_text : List Char :=
  "HTTP/1.1 404 Not Found\r\n".toList
    ++ "Content-Type: text/html\r\n".toList
    ++ "Content-Length: 0\r\n".toList
    ++ "Connection: Closed\r\n".toList
    ++ "\r\n".toList

/-- The initialiser `char buff[BUFSIZ] = "..."`: the literal, zero-filled up to `BUFSIZ`. -/
def char_array_init (size : Nat) (text : List Char) : List Char :=
  memcpy (zeroed size) text (min size text.length)

/-- The function `connection_prepare_send_404`. -/
def connection_prepare_send_404 (BUFSIZ : Nat) (conn : connection) : connection :=
  let buff := char_array_init BUFSIZ reply_404_text
  let send_buffer := memcpy conn.send_buffer buff BUFSIZ
  { conn with
    send_buffer := send_buffer
    send_len := strlen send_buffer
    send_pos := 0
    state := STATE_SENDING_404 }

/-- The function `connection_get_resource_type`; the returned value is `res_type` of the
result. -/
def connection_get_resource_type (conn : connection) : connection :=
  if strstr (cstr conn.request_path) "static".toList ≠ none then
    { conn with
      res_type := RESOURCE_TYPE_STATIC
      filename := memcpy conn.filename conn.request_path (strlen conn.request_path) }
  else if strstr (cstr conn.request_path) "dynamic".toList ≠ none then
    { conn with
      res_type := RESOURCE_TYPE_DYNAMIC
      filename := memcpy conn.filename conn.request_path (strlen conn.request_path) }
  else
    { conn with res_type := RESOURCE_TYPE_NONE }

/-- The callback `aws_on_path_cb` with the path `buf[0..len)` found by the parser. -/
def aws_on_path_cb (conn : connection) (buf : List Char) : connection :=
  { conn with
    request_path := poke (memcpy conn.request_path buf buf.length) buf.length NUL
    have_path := 1 }

/-! ## Environment: system calls, their answers and their log -/

/-- Answer of the socket to one `recv`: the bytes that have arrived (none when the peer has
closed, `recv` then returns 0) or an error (`recv` returns -1). -/
inductive RecvReply where
  | data (bytes : List Char)
  | error
  deriving DecidableEq, Repr

/-- Answer of the socket to one `send` or `sendfile`: it takes up to `k` bytes, or the call
fails with `EAGAIN`/`EWOULDBLOCK`, or it fails with another error. -/
inductive SockReply where
  | accept (k : Nat)
  | would_block
  | error
  deriving DecidableEq, Repr

/-- The fields of `struct io_event` that `aws.c` reads. -/
structure io_event where
  res : Int
  res2 : Int
  deriving DecidableEq, Repr

/-- Answer of the kernel to one `io_getevents` with a zero timeout: the call fails, or no
event is ready, or the oldest read in flight has completed in full, or it has completed
with at most `k` bytes, or it is reported with the given `res` and `res2`. -/
inductive PollReply where
  | error
  | not_ready
  | complete
  | partial_read (k : Nat)
  | failed (res res2 : Int)
  deriving DecidableEq, Repr

/-- The environment of one connection. `stack i` is the content of the uninitialised local
`events[0]` at the `i`-th call of `connection_complete_async_io`. -/
structure Env where
  get_peer_address_ok : Nat → Bool
  recv : Nat → RecvReply
  http_parser_execute : List Char → Option (List Char)
  open_file : List Char → Option (Nat × List Char)
  fstat_ok : Bool
  send : Nat → SockReply
  sendfile : Nat → SockReply
  io_submit_ok : Nat → Bool
  io_getevents : Nat → PollReply
  stack : Nat → io_event

/-- One logged system call. `send` and `sendfile` carry what was transferred, `io_submit`
the offset and length of the read. -/
inductive Event where
  | get_peer_address
  | recv (bytes : List Char)
  | recv_failed
  | http_parser_execute (bytes : List Char)
  | open_file (name : List Char)
  | fstat
  | close_file
  | send (bytes : List Char)
  | send_failed
  | sendfile (offset count : Nat)
  | sendfile_failed
  | io_submit (offset len : Nat)
  | io_submit_failed
  | io_getevents
  | epoll_mod_out
  | epoll_remove
  | io_destroy
  | close_socket
  | free
  deriving DecidableEq, Repr

/-- What lies outside the connection structure: the log of system calls, the number of
calls answered so far, `errno` (only whether it is `EAGAIN`), the content of the file behind
`conn->fd` and the reads submitted to the asynchronous context and not yet reaped. -/
structure World where
  trace : List Event
  peer_calls : Nat
  recv_calls : Nat
  send_calls : Nat
  sendfile_calls : Nat
  submit_calls : Nat
  poll_calls : Nat
  errno_again : Bool
  file : List Char
  in_flight : List (Nat × Nat)
  deriving DecidableEq, Repr

/-- A world in which nothing has happened yet. -/
def World.init : World :=
  { trace := [], peer_calls := 0, recv_calls := 0, send_calls := 0, sendfile_calls := 0,
    submit_calls := 0, poll_calls := 0, errno_again := false, file := [], in_flight := [] }

/-- Append events to the log. -/
def World.log (w : World) (es : List Event) : World :=
  { w with trace := w.trace ++ es }

/-- The `size_t` subtraction `a - b`. -/
def size_sub (a b : Nat) : Nat :=
  (a % SIZE_MOD + (SIZE_MOD - b % SIZE_MOD)) % SIZE_MOD

/-- The conversion of a `long` to `size_t`. -/
def size_of_long (x : Int) : Nat :=
  (x % (SIZE_MOD : Int)).toNat

/-- The `size_t` update `a += x` with `x` a `long`. -/
def size_add_long (a : Nat) (x : Int) : Nat :=
  (((a : Int) + x) % (SIZE_MOD : Int)).toNat

/-- The call `get_peer_address` (of `sock_util`): `true` for `rc >= 0`. -/
def get_peer_address (env : Env) (w : World) : Bool × World :=
  (env.get_peer_address_ok w.peer_calls,
    { w with peer_calls := w.peer_calls + 1, trace := w.trace ++ [Event.get_peer_address] })

/-- The system call `recv(sockfd, recv_ptr, room, 0)`: `none` for a negative result,
otherwise the bytes written at `recv_ptr`. -/
def sys_recv (env : Env) (w : World) (room : Nat) : Option (List Char) × World :=
  match env.recv w.recv_calls with
  | RecvReply.error =>
    (none, { w with recv_calls := w.recv_calls + 1, errno_again := false,
                    trace := w.trace ++ [Event.recv_failed] })
  | RecvReply.data bytes =>
    (some (bytes.take room),
      { w with recv_calls := w.recv_calls + 1,
               trace := w.trace ++ [Event.recv (bytes.take room)] })

/-- The system call `send(sockfd, buf + pos, len, 0)`: `none` for a negative result,
otherwise the number of bytes taken. -/
def sys_send (env : Env) (w : World) (buf : List Char) (pos len : Nat) : Option Nat × World :=
  match env.send w.send_calls with
  | SockReply.accept k =>
    (some (min k len),
      { w with send_calls := w.send_calls + 1,
               trace := w.trace ++ [Event.send ((buf.drop pos).take (min k len))] })
  | SockReply.would_block =>
    (none, { w with send_calls := w.send_calls + 1, errno_again := true,
                    trace := w.trace ++ [Event.send_failed] })
  | SockReply.error =>
    (none, { w with send_calls := w.send_calls + 1, errno_again := false,
                    trace := w.trace ++ [Event.send_failed] })

/-- The system call `sendfile(sockfd, fd, &offset, count)`: `none` for a negative result,
otherwise the number of bytes moved, by which the kernel has advanced `offset`. -/
def sys_sendfile (env : Env) (w : World) (offset count : Nat) : Option Nat × World :=
  match env.sendfile w.sendfile_calls with
  | SockReply.accept k =>
    let n := min k (min count (w.file.length - offset))
    (some n, { w with sendfile_calls := w.sendfile_calls + 1,
                      trace := w.trace ++ [Event.sendfile offset n] })
  | SockReply.would_block =>
    (none, { w with sendfile_calls := w.sendfile_calls + 1, errno_again := true,
                    trace := w.trace ++ [Event.sendfile_failed] })
  | SockReply.error =>
    (none, { w with sendfile_calls := w.sendfile_calls + 1, errno_again := false,
                    trace := w.trace ++ [Event.sendfile_failed] })

/-- The call `io_getevents(ctx, 1, 1, events, &timeout)` with a zero timeout, on the buffer
`buf` that the reads in flight fill: the return value, `events[0]` after the call, the
buffer after the call. A completed read has written its bytes at the start of `buf`; they
appear in `buf` here, when the read is reaped, and what the buffer holds while a read is
in flight is not followed. -/
def sys_io_getevents (env : Env) (w : World) (buf : List Char) :
    Int × io_event × List Char × World :=
  let w1 : World :=
    { w with poll_calls := w.poll_calls + 1, trace := w.trace ++ [Event.io_getevents] }
  match env.io_getevents w.poll_calls, w.in_flight with
  | PollReply.error, _ => (-1, env.stack w.poll_calls, buf, w1)
  | PollReply.complete, (off, len) :: rest =>
    let bytes := (w.file.drop off).take len
    (1, { res := bytes.length, res2 := 0 }, memcpy buf bytes bytes.length,
      { w1 with in_flight := rest })
  | PollReply.partial_read k, (off, len) :: rest =>
    let bytes := (w.file.drop off).take (min k len)
    (1, { res := bytes.length, res2 := 0 }, memcpy buf bytes bytes.length,
      { w1 with in_flight := rest })
  | PollReply.failed res res2, _ :: rest =>
    (1, { res := res, res2 := res2 }, buf, { w1 with in_flight := rest })
  | _, _ => (0, env.stack w.poll_calls, buf, w1)

/-! ## Connection handling -/

/-- The function `connection_remove` when `w_epoll_remove_ptr` succeeds: the connection
leaves the epoll set, its asynchronous context is destroyed, its socket is closed and its
memory freed. When the socket has been closed before, `w_epoll_remove_ptr` fails and
`DIE(rc < 0, ...)` ends the process at this call; `process_log` gives the log of the
process, which ends there. -/
def connection_remove (w : World) : World :=
  w.log [Event.epoll_remove, Event.io_destroy, Event.close_socket, Event.free]

/-- The function `connection_create` when `malloc` and `io_setup` succeed: the four buffers
are zeroed and the state is set; every other field keeps what `malloc` returned, here the
fields of `garbage`. -/
def connection_create (BUFSIZ : Nat) (garbage : connection) (sockfd : Int) : connection :=
  { garbage with
    sockfd := sockfd
    filename := zeroed BUFSIZ
    recv_buffer := zeroed BUFSIZ
    send_buffer := zeroed BUFSIZ
    request_path := zeroed BUFSIZ
    state := STATE_INITIAL }

/-- The loop of `receive_data`: the connection, the world and `total_bytes_recv` at loop
exit. `fuel` bounds the iterations; an iteration that continues has received at least
one byte, so `BUFSIZ - total` iterations are never exceeded. -/
def receive_data_loop (BUFSIZ : Nat) (env : Env) :
    Nat → connection → World → Nat → connection × World × Nat
  | 0, conn, w, total => (conn, w, total)
  | fuel + 1, conn, w, total =>
    if total < BUFSIZ then
      match sys_recv env w (BUFSIZ - total) with
      | (none, w1) => (conn, connection_remove w1, total)
      | (some bytes, w1) =>
        if bytes.length = 0 then (conn, connection_remove w1, total)
        else
          let conn1 : connection :=
            { conn with
              recv_buffer := conn.recv_buffer.take total
                ++ memcpy (conn.recv_buffer.drop total) bytes bytes.length }
          if strstr (cstr conn1.recv_buffer) "\r\n\r\n".toList ≠ none then
            (conn1, w1, total + bytes.length)
          else receive_data_loop BUFSIZ env fuel conn1 w1 (total + bytes.length)
    else (conn, w, total)

/-- The function `receive_data`. -/
def receive_data (BUFSIZ : Nat) (env : Env) (conn : connection) (w : World) :
    connection × World :=
  match get_peer_address env w with
  | (false, w1) => (conn, connection_remove w1)
  | (true, w1) =>
    match receive_data_loop BUFSIZ env BUFSIZ conn w1 0 with
    | (conn1, w2, total_bytes_recv) =>
      ({ conn1 with recv_len := total_bytes_recv, state := STATE_REQUEST_RECEIVED }, w2)

/-- The function `connection_open_file`: `0` or `-1`, the connection and the world. The
name given to `open` is the C string at `conn->filename + 1`. -/
def connection_open_file (env : Env) (conn : connection) (w : World) :
    Int × connection × World :=
  let name := cstr (conn.filename.drop 1)
  match env.open_file name with
  | none => (-1, { conn with fd := -1 }, w.log [Event.open_file name])
  | some (fd, content) =>
    let conn1 : connection := { conn with fd := fd }
    let w1 : World := { w with file := content, trace := w.trace ++ [Event.open_file name] }
    if env.fstat_ok then
      (0, { conn1 with file_size := content.length % SIZE_MOD }, w1.log [Event.fstat])
    else
      (-1, conn1, w1.log [Event.fstat, Event.close_file])

/-- The function `parse_header`: the parser runs on `recv_buffer[0..recv_len)` and calls
`aws_on_path_cb` when it finds a path. -/
def parse_header (env : Env) (conn : connection) (w : World) : connection × World :=
  let bytes := conn.recv_buffer.take conn.recv_len
  let w1 := w.log [Event.http_parser_execute bytes]
  match env.http_parser_execute bytes with
  | none => (conn, w1)
  | some path => (aws_on_path_cb conn path, w1)

/-- The loop of `connection_send_static` from the local `offset`: the returned state and the
world. An iteration that continues has moved at least one byte. -/
def connection_send_static_loop (env : Env) (conn : connection) :
    Nat → World → Nat → connection_state × World
  | 0, w, _ => (STATE_DATA_SENT, w)
  | fuel + 1, w, offset =>
    if offset < conn.file_size then
      match sys_sendfile env w offset (conn.file_size - offset) with
      | (none, w1) =>
        if w1.errno_again then (STATE_SENDING_DATA, w1)
        else (STATE_CONNECTION_CLOSED, w1.log [Event.close_file])
      | (some sent, w1) =>
        if sent = 0 then
          if w1.errno_again then (STATE_SENDING_DATA, w1)
          else (STATE_CONNECTION_CLOSED, w1.log [Event.close_file])
        else connection_send_static_loop env conn fuel w1 (offset + sent)
    else (STATE_DATA_SENT, w)

/-- The function `connection_send_static`: `offset` starts at 0. -/
def connection_send_static (env : Env) (conn : connection) (w : World) :
    connection_state × World :=
  connection_send_static_loop env conn conn.file_size w 0

/-- The function `connection_start_async_io`. -/
def connection_start_async_io (BUFSIZ : Nat) (env : Env) (conn : connection) (w : World) :
    connection × World :=
  let to_read := size_sub conn.file_size conn.file_pos
  let to_read := if to_read > BUFSIZ then BUFSIZ else to_read
  let w1 : World := { w with submit_calls := w.submit_calls + 1 }
  if env.io_submit_ok w.submit_calls then
    ({ conn with async_read_len := to_read },
      { w1 with in_flight := w1.in_flight ++ [(conn.file_pos, to_read)],
                trace := w1.trace ++ [Event.io_submit conn.file_pos to_read,
                                      Event.epoll_mod_out] })
  else
    ({ conn with state := STATE_CONNECTION_CLOSED },
      w1.log [Event.io_submit_failed, Event.close_file, Event.epoll_mod_out])

/-- The function `connection_complete_async_io`. -/
def connection_complete_async_io (env : Env) (conn : connection) (w : World) :
    connection × World :=
  match sys_io_getevents env w conn.send_buffer with
  | (ret, ev, buf, w1) =>
    let conn1 : connection := { conn with send_buffer := buf }
    if ret < 0 then ({ conn1 with state := STATE_CONNECTION_CLOSED }, w1)
    else if ev.res2 ≠ 0 then ({ conn1 with state := STATE_CONNECTION_CLOSED }, w1)
    else
      let file_pos := size_add_long conn1.file_pos ev.res
      ({ conn1 with
          file_pos := file_pos
          send_len := size_of_long ev.res
          send_pos := 0
          state := if file_pos < conn1.file_size then STATE_SENDING_DATA
                   else STATE_DATA_SENT }, w1)

/-- The function `connection_send_dynamic`: the return value, the connection and the world.
A `send` that takes no byte makes the loop turn again, so the loop need not end: `none`
when `fuel` iterations were not enough. -/
def connection_send_dynamic (BUFSIZ : Nat) (env : Env) :
    Nat → connection → World → Option (Int × connection × World)
  | 0, _, _ => none
  | fuel + 1, conn, w =>
    if conn.send_pos < conn.send_len then
      match sys_send env w conn.send_buffer conn.send_pos (conn.send_len - conn.send_pos) with
      | (none, w1) =>
        if w1.errno_again then some (0, conn, w1) else some (-1, conn, w1)
      | (some bytes_sent, w1) =>
        connection_send_dynamic BUFSIZ env fuel
          { conn with send_pos := (conn.send_pos + bytes_sent) % SIZE_MOD } w1
    else if conn.send_pos = conn.send_len then
      if conn.file_pos < conn.file_size then
        match connection_start_async_io BUFSIZ env conn w with
        | (conn1, w1) => some (0, conn1, w1)
      else some (0, { conn with state := STATE_DATA_SENT }, w)
    else some (0, conn, w)

/-- The loop of `connection_send_data` from `total_bytes_sent = total`: the return value and
the world. An iteration that continues has sent at least one byte. -/
def connection_send_data_loop (env : Env) (conn : connection) :
    Nat → World → Nat → Int × World
  | 0, w, total => (total, w)
  | fuel + 1, w, total =>
    if total < conn.send_len then
      match sys_send env w conn.send_buffer total (conn.send_len - total) with
      | (none, w1) => (-1, connection_remove w1)
      | (some bytes_sent, w1) =>
        if bytes_sent = 0 then (total, connection_remove w1)
        else connection_send_data_loop env conn fuel w1 (total + bytes_sent)
    else (total, w)

/-- The function `connection_send_data`. -/
def connection_send_data (env : Env) (conn : connection) (w : World) : Int × World :=
  match get_peer_address env w with
  | (false, w1) => (-1, connection_remove w1)
  | (true, w1) => connection_send_data_loop env conn conn.send_len w1 0

/-- The function `send_file`. -/
def send_file (BUFSIZ : Nat) (env : Env) (conn : connection) (w : World) :
    Int × connection × World :=
  match connection_open_file env conn w with
  | (rc, conn1, w1) =>
    if rc = 0 then
      let conn2 := connection_prepare_send_reply_header BUFSIZ conn1
      match connection_send_data env conn2 w1 with
      | (_, w2) =>
        match conn2.res_type with
        | RESOURCE_TYPE_STATIC =>
          match connection_send_static env conn2 w2 with
          | (st, w3) => (1, { conn2 with state := st }, connection_remove w3)
        | RESOURCE_TYPE_DYNAMIC =>
          match connection_start_async_io BUFSIZ env conn2 w2 with
          | (conn3, w3) => (1, conn3, w3)
        | RESOURCE_TYPE_NONE => (1, conn2, connection_remove w2)
    else (0, { conn1 with state := STATE_SENDING_404 }, w1)

/-- One turn of the `while (1)` loop of `handle_input`: `true` when the turn ends with
`break` (the loop goes on), `false` when it ends with `return`. -/
def handle_input_turn (BUFSIZ : Nat) (env : Env) (conn : connection) (w : World) :
    Bool × connection × World :=
  match conn.state with
  | STATE_INITIAL =>
    match receive_data BUFSIZ env { conn with state := STATE_RECEIVING_DATA } w with
    | (conn1, w1) => (true, conn1, w1)
  | STATE_REQUEST_RECEIVED =>
    match parse_header env conn w with
    | (conn1, w1) =>
      if conn1.have_path = 0 then
        (true, { conn1 with state := STATE_SENDING_404 }, w1)
      else
        let conn2 := connection_get_resource_type conn1
        if conn2.res_type = RESOURCE_TYPE_STATIC ∨ conn2.res_type = RESOURCE_TYPE_DYNAMIC then
          match send_file BUFSIZ env conn2 w1 with
          | (rc, conn3, w2) => if rc ≠ 0 then (false, conn3, w2) else (true, conn3, w2)
        else
          (true, { conn2 with state := STATE_SENDING_404 }, w1)
  | STATE_SENDING_404 =>
    let conn1 := connection_prepare_send_404 BUFSIZ conn
    match connection_send_data env conn1 w with
    | (_, w1) => (false, conn1, connection_remove w1)
  | STATE_CONNECTION_CLOSED => (false, conn, connection_remove w)
  | _ => (false, conn, w)

/-- The function `handle_input`: `none` when the loop has not returned within `fuel`
turns. -/
def handle_input (BUFSIZ : Nat) (env : Env) : Nat → connection → World →
    Option (connection × World)
  | 0, _, _ => none
  | fuel + 1, conn, w =>
    match handle_input_turn BUFSIZ env conn w with
    | (true, conn1, w1) => handle_input BUFSIZ env fuel conn1 w1
    | (false, conn1, w1) => some (conn1, w1)

/-- The function `handle_output`; `fuel` bounds the loop of `connection_send_dynamic`. -/
def handle_output (BUFSIZ : Nat) (env : Env) (fuel : Nat) (conn : connection) (w : World) :
    Option (connection × World) :=
  match connection_complete_async_io env conn w with
  | (conn1, w1) =>
    match connection_send_dynamic BUFSIZ env fuel conn1 w1 with
    | none => none
    | some (ret, conn2, w2) =>
      if ret < 0 then some ({ conn2 with state := STATE_CONNECTION_CLOSED }, w2)
      else some (conn2, w2)

/-- The event loop delivers `k` write-ready events in a row to the connection: `k` calls of
`handle_output`. -/
def write_ready_events (BUFSIZ : Nat) (env : Env) (fuel : Nat) :
    Nat → connection → World → Option (connection × World)
  | 0, conn, w => some (conn, w)
  | k + 1, conn, w =>
    match handle_output BUFSIZ env fuel conn w with
    | none => none
    | some (conn1, w1) => write_ready_events BUFSIZ env fuel k conn1 w1

/-! ## Observations on a log -/

/-- The bytes that `send` put on the socket, in order. -/
def sent_bytes : List Event → List Char
  | [] => []
  | Event.send bytes :: es => bytes ++ sent_bytes es
  | _ :: es => sent_bytes es

/-- The number of bytes that `sendfile` moved to the socket. -/
def sendfile_total : List Event → Nat
  | [] => 0
  | Event.sendfile _ count :: es => count + sendfile_total es
  | _ :: es => sendfile_total es

/-- The reads that `io_submit` accepted, in order, as (offset, length). -/
def submitted_reads : List Event → List (Nat × Nat)
  | [] => []
  | Event.io_submit offset len :: es => (offset, len) :: submitted_reads es
  | _ :: es => submitted_reads es

/-- The names given to `open`, in order. -/
def opened_names : List Event → List (List Char)
  | [] => []
  | Event.open_file name :: es => name :: opened_names es
  | _ :: es => opened_names es

/-- The bytes that `handle_input` hands to the parser when it starts in `STATE_INITIAL`:
`recv_buffer[0..recv_len)` after `receive_data`. -/
def received_request (BUFSIZ : Nat) (env : Env) (conn : connection) (w : World) : List Char :=
  (receive_data BUFSIZ env { conn with state := STATE_RECEIVING_DATA } w).1.recv_buffer.take
    (receive_data BUFSIZ env { conn with state := STATE_RECEIVING_DATA } w).1.recv_len

/-- The connection as `handle_input` hands it to `send_file` in state
`STATE_REQUEST_RECEIVED`: after `parse_header` and `connection_get_resource_type`. -/
def classified_request (env : Env) (conn : connection) (w : World) : connection :=
  connection_get_resource_type (parse_header env conn w).1

/-- A connection structure as `malloc` may return it, with non-zero uninitialised fields. -/
def sample_garbage : connection :=
  { sockfd := 9, fd := 9, filename := "junk".toList, file_size := 77,
    recv_buffer := "junk".toList, recv_len := 3, send_buffer := "junk".toList, send_len := 2,
    send_pos := 1, file_pos := 0, async_read_len := 5, have_path := 7,
    request_path := "junk".toList, res_type := RESOURCE_TYPE_DYNAMIC,
    state := STATE_DATA_SENT }

/-- An environment for examples: the peer sends `request`, the parser finds `path`, the
file system answers `files`, the socket answers `send` and `sendfile`, the kernel answers
`poll`; `get_peer_address`, `fstat` and `io_submit` succeed and the stack holds zeros. -/
def sample_env (request : List Char) (path : Option (List Char))
    (files : List Char → Option (Nat × List Char))
    (send sendfile : Nat → SockReply) (poll : Nat → PollReply) : Env :=
  { get_peer_address_ok := fun _ => true
    recv := fun _ => RecvReply.data request
    http_parser_execute := fun _ => path
    open_file := files
    fstat_ok := true
    send := send
    sendfile := sendfile
    io_submit_ok := fun _ => true
    io_getevents := poll
    stack := fun _ => { res := 0, res2 := 0 } }

/-- A fresh connection on which a request has been received (`BUFSIZ` is 256). -/
def sample_received (request : List Char) : connection :=
  { connection_create 256 sample_garbage 5 with
    recv_buffer := memcpy (zeroed 256) request request.length
    recv_len := request.length
    state := STATE_REQUEST_RECEIVED }

/-- The resolved file name in the words of the specification: the request path with its
leading separator stripped, and nothing else removed. -/
def spec_resolved_name (path : List Char) : List Char :=
  match path with
  | '/' :: rest => rest
  | other => other

/-- The name that `connection_open_file` gives to `open` for a fresh connection on which
the parser has found `path`: `aws_on_path_cb`, `connection_get_resource_type` and
`connection_open_file` in a row. -/
def opened_name_for (BUFSIZ : Nat) (env : Env) (garbage : connection) (sockfd : Int)
    (path : List Char) : List (List Char) :=
  opened_names
    (connection_open_file env
      (connection_get_resource_type
        (aws_on_path_cb (connection_create BUFSIZ garbage sockfd) path)) World.init).2.2.trace

/-- The log of successive `sendfile` calls that move `counts` bytes, the first at `offset`,
each starting where the one before stopped. -/
def sendfile_events : Nat → List Nat → List Event
  | _, [] => []
  | offset, c :: cs => Event.sendfile offset c :: sendfile_events (offset + c) cs

/-- A file system for examples: one file, of the given name and content, behind
descriptor 3. -/
def sample_files (name content : List Char) : List Char → Option (Nat × List Char) :=
  fun asked => if asked = name then some (3, content) else none

/-- A socket for examples: the first `sendfile` (or `send`) takes `k` bytes, every later
one would block. -/
def accept_then_block (k : Nat) : Nat → SockReply :=
  fun i => if i = 0 then SockReply.accept k else SockReply.would_block

/-- The example of a static transfer that meets a full socket: the 10-byte file
`static/a.txt` is requested, `sendfile` moves 4 bytes and then would block. -/
def static_would_block_env : Env :=
  sample_env "GET /static/a.txt HTTP/1.1\r\n\r\n".toList (some "/static/a.txt".toList)
    (sample_files "static/a.txt".toList "0123456789".toList)
    (fun _ => SockReply.accept 64) (accept_then_block 4) (fun _ => PollReply.complete)

/-- A connection for examples of the dynamic transfer, as `send_file` leaves it before its
call of `connection_start_async_io`: a file of `n` bytes is open, nothing is staged for
sending, `file_pos` is 0. -/
def sample_dynamic_conn (BUFSIZ n : Nat) : connection :=
  { sample_garbage with
    filename := zeroed BUFSIZ
    recv_buffer := zeroed BUFSIZ
    request_path := zeroed BUFSIZ
    send_buffer := zeroed BUFSIZ
    fd := 3
    file_size := n
    file_pos := 0
    send_len := 0
    send_pos := 0
    res_type := RESOURCE_TYPE_DYNAMIC
    state := STATE_REQUEST_RECEIVED }

/-- A world for examples, in which the open file has the given content. -/
def sample_world (content : List Char) : World :=
  { World.init with file := content }

/-- A socket for examples that always has room. -/
def always_accept : Nat → SockReply :=
  fun _ => SockReply.accept 4096

/-- The example of an interrupted drain: the first `send` takes 2 bytes, the second would
block, every later one has room; `stack` is what the uninitialised `events[0]` holds. -/
def drain_would_block_env (stack : io_event) : Env :=
  { get_peer_address_ok := fun _ => true
    recv := fun _ => RecvReply.data []
    http_parser_execute := fun _ => none
    open_file := fun _ => none
    fstat_ok := true
    send := fun i => if i = 0 then SockReply.accept 2
                     else if i = 1 then SockReply.would_block
                     else SockReply.accept 4096
    sendfile := always_accept
    io_submit_ok := fun _ => true
    io_getevents := fun _ => PollReply.complete
    stack := fun _ => stack }

/-- The dynamic transfer of the 6-byte file "abcdef" with an 8-byte staging buffer, in the
environment `env`: `connection_start_async_io`, then `k` write-ready events. -/
def abcdef_transfer (env : Env) (k : Nat) : Option (connection × World) :=
  write_ready_events 8 env 9 k
    (connection_start_async_io 8 env (sample_dynamic_conn 8 6)
      (sample_world "abcdef".toList)).1
    (connection_start_async_io 8 env (sample_dynamic_conn 8 6)
      (sample_world "abcdef".toList)).2

/-- The bytes sent, `send_pos`, `send_len` and `file_pos` of a transfer result. -/
def transfer_summary (r : Option (connection × World)) :
    Option (List Char × Nat × Nat × Nat) :=
  r.map (fun cw => (sent_bytes cw.2.trace, cw.1.send_pos, cw.1.send_len, cw.1.file_pos))

/-- Whether an event belongs to `connection_remove`: leaving the epoll set, destroying the
asynchronous context, closing the socket, freeing the memory. -/
def is_teardown : Event → Bool
  | Event.epoll_remove => true
  | Event.io_destroy => true
  | Event.close_socket => true
  | Event.free => true
  | _ => false

/-- An environment for examples of the dynamic path: the peer requests `/dynamic/a.dat`,
whose content is `content`; `get_peer_address` and `fstat` succeed; the socket, `io_submit`
and the polls answer as given; `stack` is what the uninitialised `events[0]` holds. -/
def dynamic_env (content : List Char) (send : Nat → SockReply) (submit_ok : Nat → Bool)
    (poll : Nat → PollReply) (stack : io_event) : Env :=
  { get_peer_address_ok := fun _ => true
    recv := fun _ => RecvReply.data "GET /dynamic/a.dat HTTP/1.1\r\n\r\n".toList
    http_parser_execute := fun _ => some "/dynamic/a.dat".toList
    open_file := sample_files "dynamic/a.dat".toList content
    fstat_ok := true
    send := send
    sendfile := always_accept
    io_submit_ok := submit_ok
    io_getevents := poll
    stack := fun _ => stack }

/-- A whole exchange on a fresh connection with `BUFSIZ = 256`: one read-ready event
(`handle_input` from `STATE_INITIAL`), then `k` write-ready events (`handle_output`). -/
def exchange (env : Env) (k : Nat) : Option (connection × World) :=
  match handle_input 256 env 3 (connection_create 256 sample_garbage 5) World.init with
  | none => none
  | some (conn, w) => write_ready_events 256 env 257 k conn w

/-- The polls of an example: the answers listed, then `PollReply.complete`. -/
def polls (answers : List PollReply) : Nat → PollReply :=
  fun i => answers.getD i PollReply.complete

/-- The last `k` events of a log. -/
def last_events (k : Nat) (t : List Event) : List Event :=
  t.drop (t.length - k)

/-- The dynamic request for the 6-byte file "abcdef" on a socket that always has room,
when the first poll finds the read not yet complete; `stack` is what the uninitialised
`events[0]` holds. -/
def early_poll_env (stack : io_event) : Env :=
  dynamic_env "abcdef".toList always_accept (fun _ => true) (polls [PollReply.not_ready]) stack

/-- What an exchange has come to: the state, the events of `connection_remove` in the log,
the number of `close(conn->fd)`, the reads submitted and the number of bytes sent. -/
def exchange_summary (r : Option (connection × World)) :
    Option (connection_state × List Event × Nat × List (Nat × Nat) × Nat) :=
  r.map (fun cw => (cw.1.state, cw.2.trace.filter is_teardown,
    cw.2.trace.count Event.close_file, submitted_reads cw.2.trace,
    (sent_bytes cw.2.trace).length))

/-- An environment for examples of the static path: the peer requests `/static/a.txt`,
whose content is the 10 bytes "0123456789"; the socket answers `send` and `sendfile` as
given. -/
def static_env (send sendfile : Nat → SockReply) : Env :=
  sample_env "GET /static/a.txt HTTP/1.1\r\n\r\n".toList (some "/static/a.txt".toList)
    (sample_files "static/a.txt".toList "0123456789".toList) send sendfile
    (fun _ => PollReply.complete)

/-- An environment for examples of the 404 path: the socket answers `recv` and `send` as
given, the parser finds the path `path`, no file exists. -/
def unknown_env (recv : Nat → RecvReply) (path : Option (List Char))
    (send : Nat → SockReply) : Env :=
  { get_peer_address_ok := fun _ => true
    recv := recv
    http_parser_execute := fun _ => path
    open_file := fun _ => none
    fstat_ok := true
    send := send
    sendfile := always_accept
    io_submit_ok := fun _ => true
    io_getevents := fun _ => PollReply.complete
    stack := fun _ => { res := 0, res2 := 0 } }

/-- The events of `connection_remove`, in order. -/
def remove_events : List Event :=
  [Event.epoll_remove, Event.io_destroy, Event.close_socket, Event.free]

end Aws

/-! # String functions of the mini C library (`mini-libc/src/string/string.c`)

A NUL-terminated string is given by the list of its characters before the terminator;
reading at or past the end yields NUL. Pointers into a string are offsets. The `int`
variables hold lengths and indices of short strings and are natural numbers, except in the
loop bound `s1_length - s2_length`, which is computed in the integers.
-/

namespace MiniLibc

/-- The NUL character, terminator of C strings. -/
def NUL : Char := Char.ofNat 0

/-- The character `s[i]` of a NUL-terminated string. -/
def char_at (s : List Char) (i : Nat) : Char :=
  s.getD i NUL

/-- The value of a plain `char`, which is signed on the x86-64 target of the library. -/
def char_value (c : Char) : Int :=
  if c.toNat % 256 < 128 then ((c.toNat % 256 : Nat) : Int)
  else ((c.toNat % 256 : Nat) : Int) - 256

/-- The function `strlen`: the loop counts the characters before the first NUL. -/
def strlen : List Char → Nat
  | [] => 0
  | c :: s => if c = NUL then 0 else strlen s + 1

/-- The greatest `size_t`, the value of `flag = -1` in `strncmp`. -/
def SIZE_MAX : Nat := 2 ^ 64 - 1

/-- The conversion of a `size_t` to the `int` that a function returns. -/
def int_of_size_t (x : Nat) : Int :=
  if x % 2 ^ 32 < 2 ^ 31 then ((x % 2 ^ 32 : Nat) : Int)
  else ((x % 2 ^ 32 : Nat) : Int) - 2 ^ 32

/-- The loop of `strncmp` from the given `flag` and `count`; both pointers have advanced
by `count`. An iteration that continues increases `count`, so `len` iterations are never
exceeded. -/
def strncmp_loop (str1 str2 : List Char) (len : Nat) : Nat → Nat → Nat → Nat
  | 0, flag, _ => flag
  | fuel + 1, flag, count =>
    if flag = 0 ∧ count < len then
      if char_at str1 count = NUL ∨ char_at str2 count = NUL then flag
      else
        let flag1 :=
          if char_value (char_at str1 count) < char_value (char_at str2 count) then SIZE_MAX
          else flag
        let flag2 :=
          if char_value (char_at str1 count) > char_value (char_at str2 count) then 1
          else flag1
        strncmp_loop str1 str2 len fuel flag2 (count + 1)
    else flag

/-- The function `strncmp`. -/
def strncmp (str1 str2 : List Char) (len : Nat) : Int :=
  int_of_size_t (strncmp_loop str1 str2 len len 0 0)

/-- The inner loop of `strstr`, over `j`: the values of `i` and `count` at loop exit. On a
mismatch `i` is reset to `i_copy`. -/
def strstr_inner (haystack needle : List Char) (s2_length i_copy : Nat) :
    Nat → Nat → Nat → Nat → Nat × Nat
  | 0, i, _, count => (i, count)
  | fuel + 1, i, j, count =>
    if j < s2_length then
      if char_at haystack i = char_at needle j then
        strstr_inner haystack needle s2_length i_copy fuel (i + 1) (j + 1) (count + 1)
      else (i_copy, count)
    else (i, count)

/-- The outer loop of `strstr`, over `i`, with the offset of `haystack_copy`: the offset
returned, `none` for NULL. An iteration that continues leaves `i` one higher than it
found it, so `s1_length` iterations are never exceeded. -/
def strstr_outer (haystack needle : List Char) (s1_length s2_length : Nat) :
    Nat → Nat → Nat → Option Nat
  | 0, _, _ => none
  | fuel + 1, i, haystack_copy =>
    if (i : Int) < (s1_length : Int) - (s2_length : Int) then
      if char_at haystack i = char_at needle 0 then
        match strstr_inner haystack needle s2_length i s2_length i 0 0 with
        | (i1, count) =>
          if count = s2_length then some haystack_copy
          else strstr_outer haystack needle s1_length s2_length fuel (i1 + 1)
                (haystack_copy + 1)
      else strstr_outer haystack needle s1_length s2_length fuel (i + 1) (haystack_copy + 1)
    else none

/-- The function `strstr`. -/
def strstr (haystack needle : List Char) : Option Nat :=
  strstr_outer haystack needle (strlen haystack) (strlen needle) (strlen haystack) 0 0

/-- The loop of `strcmp` from the given `flag`; both pointers have advanced by `count`: the
values of `flag` and `count` at loop exit. An iteration that continues has read a character
of `str1` before its end, so `strlen str1 + 1` iterations are never exceeded. -/
def strcmp_loop (str1 str2 : List Char) : Nat → Int → Nat → Int × Nat
  | 0, flag, count => (flag, count)
  | fuel + 1, flag, count =>
    if flag = 0 then
      if char_at str1 count = NUL ∨ char_at str2 count = NUL then (flag, count)
      else
        let flag1 :=
          if char_value (char_at str1 count) < char_value (char_at str2 count) then -1
          else flag
        let flag2 :=
          if char_value (char_at str1 count) > char_value (char_at str2 count) then 1
          else flag1
        strcmp_loop str1 str2 fuel flag2 (count + 1)
    else (flag, count)

/-- The function `strcmp`: the loop, then the comparison of the lengths. -/
def strcmp (str1 str2 : List Char) : Int :=
  match strcmp_loop str1 str2 (strlen str1 + 1) 0 0 with
  | (flag, count) =>
    let flag1 := if flag = 0 ∧ char_at str1 count ≠ NUL then 1 else flag
    let flag2 := if flag1 = 0 ∧ char_at str2 count ≠ NUL then -1 else flag1
    flag2

/-- The lists that stand for NUL-terminated strings: every character is one byte and none
is NUL. -/
@[reducible] def is_c_string (s : List Char) : Prop :=
  ∀ c ∈ s, c ≠ NUL ∧ c.toNat < 256

/-- The order of the claim on `strcmp`, in its words: `a` is a proper initial segment of
`b`, or after a common initial segment `p` the character `x` of `a` is smaller than the
character `y` of `b`. Characters compare as `char` values, the way the code compares them. -/
def spec_precedes (a b : List Char) : Prop :=
  (∃ r, r ≠ [] ∧ b = a ++ r)
  ∨ (∃ p x y ra rb, a = p ++ x :: ra ∧ b = p ++ y :: rb ∧ char_value x < char_value y)

end MiniLibc

/-! # Memory allocator (`mem-allocator/src/osmem.c`)

The headers of the blocks live in a memory that maps an address to the header stored
there; a pointer to a header is its address, and NULL is `none`. `struct block_meta` and the
status constants are declared in `block_meta.h`; the fields and constants below are those
that `osmem.c` uses, and `META_SIZE` (`sizeof(struct block_meta)`) is a parameter. `size_t`
arithmetic is reduced modulo `2 ^ 64`. Loops over the list take fuel, since a list with a
cycle is walked for ever; `none` stands for a loop that `fuel` iterations did not end.
-/

namespace OsMem

/-- The modulus of `size_t` arithmetic. -/
def SIZE_MOD : Nat := 2 ^ 64

/-- The macro `N_MAX`. -/
def N_MAX : Nat := 2147483647

/-- The function `padding`. -/
def padding (size : Nat) : Nat :=
  if size % 8 = 0 then 0 else 8 - size % 8

/-- The status of a block: the constants of `block_meta.h` that `osmem.c` uses. -/
inductive block_status where
  | STATUS_FREE
  | STATUS_ALLOC
  | STATUS_MAPPED
  deriving DecidableEq, Repr

open block_status

/-- The header of a block (`struct block_meta`). -/
structure block_meta where
  size : Nat
  status : block_status
  prev : Option Nat
  next : Option Nat
  deriving DecidableEq, Repr

/-- The state of the allocator: the headers in memory and the globals `list_head` and
`list_tail`. -/
structure Heap where
  mem : Nat → block_meta
  list_head : Option Nat
  list_tail : Option Nat

/-- The memory after a header has been written at `addr`. -/
def store (mem : Nat → block_meta) (addr : Nat) (b : block_meta) : Nat → block_meta :=
  fun x => if x = addr then b else mem x

/-- The loop of `find_best_block` from `current`, with the values of `best_block` and
`best_size`: the block returned. -/
def find_best_block_loop (mem : Nat → block_meta) (size : Nat) :
    Nat → Option Nat → Option Nat → Nat → Option (Option Nat)
  | _, none, best_block, _ => some best_block
  | 0, some _, _, _ => none
  | fuel + 1, some current, best_block, best_size =>
    if (mem current).status = STATUS_FREE ∧ (mem current).size ≥ size then
      let dif := (mem current).size - size
      if dif < best_size then
        find_best_block_loop mem size fuel (mem current).next (some current) dif
      else find_best_block_loop mem size fuel (mem current).next best_block best_size
    else find_best_block_loop mem size fuel (mem current).next best_block best_size

/-- The function `find_best_block`. -/
def find_best_block (fuel : Nat) (h : Heap) (size : Nat) : Option (Option Nat) :=
  find_best_block_loop h.mem size fuel h.list_head none N_MAX

/-- The body of the inner loop of `coalesce_free_blocks`, with `next` the block
`current->next`: `current->size += current->next->size + header`, then
`current->next = current->next->next`. -/
def merge_next (header : Nat) (mem : Nat → block_meta) (current next : Nat) :
    Nat → block_meta :=
  let mem1 := store mem current
    { size := ((mem current).size + ((mem next).size + header) % SIZE_MOD) % SIZE_MOD
      status := (mem current).status
      prev := (mem current).prev
      next := (mem current).next }
  store mem1 current
    { size := (mem1 current).size
      status := (mem1 current).status
      prev := (mem1 current).prev
      next := (mem1 next).next }

/-- The inner loop of `coalesce_free_blocks`: while the block after `current` is free,
`current` takes its size and its successor; `header` is
`META_SIZE + padding(META_SIZE)`. The memory at loop exit. -/
def coalesce_inner (header : Nat) : Nat → (Nat → block_meta) → Nat → Option (Nat → block_meta)
  | 0, mem, current =>
    match (mem current).next with
    | none => some mem
    | some next => if (mem next).status = STATUS_FREE then none else some mem
  | fuel + 1, mem, current =>
    match (mem current).next with
    | none => some mem
    | some next =>
      if (mem next).status = STATUS_FREE then
        coalesce_inner header fuel (merge_next header mem current next) current
      else some mem

/-- The outer loop of `coalesce_free_blocks` from `current`: the memory and `list_tail` at
loop exit. `fuel0` is the fuel of each inner loop. -/
def coalesce_outer (header fuel0 : Nat) :
    Nat → (Nat → block_meta) → Option Nat → Option Nat →
      Option ((Nat → block_meta) × Option Nat)
  | _, mem, list_tail, none => some (mem, list_tail)
  | 0, _, _, some _ => none
  | fuel + 1, mem, list_tail, some current =>
    match (if (mem current).status = STATUS_FREE then coalesce_inner header fuel0 mem current
           else some mem) with
    | none => none
    | some mem1 =>
      let list_tail1 := if (mem1 current).next = none then some current else list_tail
      coalesce_outer header fuel0 fuel mem1 list_tail1 (mem1 current).next

/-- The function `coalesce_free_blocks`. -/
def coalesce_free_blocks (META_SIZE fuel : Nat) (h : Heap) : Option Heap :=
  match h.list_head with
  | none => some h
  | some current =>
    match coalesce_outer (META_SIZE + padding META_SIZE) fuel fuel h.mem h.list_tail
        (some current) with
    | none => none
    | some (mem, list_tail) => some { mem := mem, list_head := h.list_head, list_tail := list_tail }

/-- The loop of `find_last_brk_free` from `curr`: the block at which the walk along `prev`
stops; `none` also when the walk reaches NULL, which the loop dereferences. -/
def find_last_brk_free_loop (mem : Nat → block_meta) : Nat → Option Nat → Option Nat
  | _, none => none
  | 0, some _ => none
  | fuel + 1, some curr =>
    if (mem curr).status = STATUS_MAPPED then find_last_brk_free_loop mem fuel (mem curr).prev
    else some curr

/-- The function `find_last_brk_free`: NULL is `some none`. -/
def find_last_brk_free (fuel : Nat) (h : Heap) : Option (Option Nat) :=
  match h.list_tail with
  | none => some none
  | some _ =>
    match find_last_brk_free_loop h.mem fuel h.list_tail with
    | none => none
    | some curr => if (h.mem curr).status = STATUS_FREE then some (some curr) else some none

/-- The blocks met from `p` along `next`, at most `fuel` of them. -/
def forward_walk (mem : Nat → block_meta) : Nat → Option Nat → List Nat
  | _, none => []
  | 0, some _ => []
  | fuel + 1, some a => a :: forward_walk mem fuel (mem a).next

/-- The blocks met from `p` along `prev`, at most `fuel` of them. -/
def backward_walk (mem : Nat → block_meta) : Nat → Option Nat → List Nat
  | _, none => []
  | 0, some _ => []
  | fuel + 1, some a => a :: backward_walk mem fuel (mem a).prev

/-- The list that starts at `p` consists of the blocks `blocks`, in this order, and ends
with NULL. -/
def is_list (mem : Nat → block_meta) : Option Nat → List Nat → Prop
  | p, [] => p = none
  | p, a :: blocks => p = some a ∧ is_list mem (mem a).next blocks

/-- The links of the list `blocks` are consistent: each block is the `prev` of its
successor, and the first block has no `prev`. -/
def links_consistent (mem : Nat → block_meta) : Option Nat → List Nat → Prop
  | _, [] => True
  | p, a :: blocks => (mem a).prev = p ∧ links_consistent mem (some a) blocks

/-- The total of `size + header` over the blocks of a list. -/
def total_size (header : Nat) (mem : Nat → block_meta) (blocks : List Nat) : Nat :=
  (blocks.map (fun a => (mem a).size + header)).sum

/-- No two consecutive blocks of the list are both free. -/
def no_adjacent_free (mem : Nat → block_meta) : List Nat → Prop
  | [] => True
  | [_] => True
  | a :: b :: blocks =>
    ¬ ((mem a).status = STATUS_FREE ∧ (mem b).status = STATUS_FREE)
      ∧ no_adjacent_free mem (b :: blocks)

/-- The blocks of the list that are not free, in order, each with its address, size and
status. -/
def busy_blocks (mem : Nat → block_meta) (blocks : List Nat) :
    List (Nat × Nat × block_status) :=
  (blocks.filter (fun a => decide ((mem a).status ≠ STATUS_FREE))).map
    (fun a => (a, (mem a).size, (mem a).status))

/-- The block at `a` can hold `size` bytes: it is free and at least that large. -/
def fits (mem : Nat → block_meta) (size a : Nat) : Prop :=
  (mem a).status = STATUS_FREE ∧ size ≤ (mem a).size

/-- A heap for examples: the blocks given as (address, size, status), linked in this
order with consistent `next` and `prev`; every other address holds an allocated block of
size 0 without links. -/
def sample_mem : Option Nat → List (Nat × Nat × block_status) → Nat → block_meta
  | _, [] => fun _ => { size := 0, status := STATUS_ALLOC, prev := none, next := none }
  | p, (a, size, status) :: rest =>
    store (sample_mem (some a) rest) a
      { size := size, status := status, prev := p, next := (rest.head?).map (fun b => b.1) }

/-- The heap of `sample_mem`, with `list_head` the first block and `list_tail` the last. -/
def sample_heap (blocks : List (Nat × Nat × block_status)) : Heap :=
  { mem := sample_mem none blocks
    list_head := (blocks.head?).map (fun b => b.1)
    list_tail := (blocks.getLast?).map (fun b => b.1) }

/-- A heap for examples, with `META_SIZE = 32`: two free blocks of the heap, one after the
other, and a mapped block at the end of the list. -/
def two_free_then_mapped : Heap :=
  sample_heap [(0, 96, STATUS_FREE), (128, 192, STATUS_FREE), (1000000, 200000, STATUS_MAPPED)]

/-- A heap for examples, with `META_SIZE = 32`: two free blocks, an allocated block and a
free block. -/
def free_free_alloc_free : Heap :=
  sample_heap [(0, 96, STATUS_FREE), (128, 192, STATUS_FREE), (352, 64, STATUS_ALLOC),
    (448, 32, STATUS_FREE)]

/-- The blocks of the list of a heap with their sizes and statuses, at most `fuel` of
them. -/
def block_list (fuel : Nat) (h : Heap) : List (Nat × Nat × block_status) :=
  (forward_walk h.mem fuel h.list_head).map (fun a => (a, (h.mem a).size, (h.mem a).status))

end OsMem

/-! # Mini shell (`mini-shell/src/cmd.c`): the dispatch of `parse_command`

A command is a tree: a simple command, or two commands joined by an operator. The types
`command_t` and `operator_t` and the constant `SHELL_EXIT` are declared in headers that
are not among the sources; the operators below are those that `parse_command` names, and
`SHELL_EXIT` is a parameter. What a simple command or a pipe does is answered by the
environment, from the history of what the shell has executed; a call ends by returning a
status or by ending the shell process (`exit`). The arguments `level` and `father` are
passed along and never read, and are left out.
-/

namespace MiniShell

/-- The operators that join two commands (`operator_t` without `OP_NONE`, which marks a
simple command); `OP_DUMMY` stands for the values without a `case` in `parse_command`. -/
inductive operator_t where
  | OP_SEQUENTIAL
  | OP_PARALLEL
  | OP_CONDITIONAL_NZERO
  | OP_CONDITIONAL_ZERO
  | OP_PIPE
  | OP_DUMMY
  deriving DecidableEq, Repr

open operator_t

/-- A command tree (`command_t`): a simple command (`op == OP_NONE`), given by a number that
identifies `scmd`, or the commands `cmd1` and `cmd2` joined by `op`. -/
inductive command_t where
  | simple (scmd : Nat)
  | compound (op : operator_t) (cmd1 cmd2 : command_t)
  deriving DecidableEq, Repr

/-- How a call ends in the shell process: it returns a status, or the process ends (`exit`
in `shell_exit`, `exit` or `DIE` in `run_on_pipe`). -/
inductive Outcome where
  | returned (status : Int)
  | exited (code : Int)
  deriving DecidableEq, Repr

/-- What the shell process has executed: a simple command (`parse_simple`), two commands in
parallel (`run_in_parallel`), two commands on a pipe (`run_on_pipe`). -/
inductive Event where
  | simple (scmd : Nat)
  | parallel (cmd1 cmd2 : command_t)
  | pipe (cmd1 cmd2 : command_t)
  deriving DecidableEq, Repr

/-- The environment: how `parse_simple` and `run_on_pipe` end, given what has been executed
before. -/
structure Env where
  parse_simple : Nat → List Event → Outcome
  run_on_pipe : command_t → command_t → List Event → Outcome

/-- The function `parse_command`: how the call ends and what has been executed after it,
from the history `t`. The result of `run_in_parallel` is not used; `EXIT_SUCCESS` is 0. -/
def parse_command (env : Env) (SHELL_EXIT : Int) :
    command_t → List Event → Outcome × List Event
  | command_t.simple scmd, t => (env.parse_simple scmd t, t ++ [Event.simple scmd])
  | command_t.compound OP_SEQUENTIAL cmd1 cmd2, t =>
    match parse_command env SHELL_EXIT cmd1 t with
    | (Outcome.exited code, t1) => (Outcome.exited code, t1)
    | (Outcome.returned _, t1) => parse_command env SHELL_EXIT cmd2 t1
  | command_t.compound OP_PARALLEL cmd1 cmd2, t =>
    (Outcome.returned 0, t ++ [Event.parallel cmd1 cmd2])
  | command_t.compound OP_CONDITIONAL_NZERO cmd1 cmd2, t =>
    match parse_command env SHELL_EXIT cmd1 t with
    | (Outcome.exited code, t1) => (Outcome.exited code, t1)
    | (Outcome.returned status, t1) =>
      if status ≠ 0 then parse_command env SHELL_EXIT cmd2 t1
      else (Outcome.returned status, t1)
  | command_t.compound OP_CONDITIONAL_ZERO cmd1 cmd2, t =>
    match parse_command env SHELL_EXIT cmd1 t with
    | (Outcome.exited code, t1) => (Outcome.exited code, t1)
    | (Outcome.returned status, t1) =>
      if status = 0 then parse_command env SHELL_EXIT cmd2 t1
      else (Outcome.returned status, t1)
  | command_t.compound OP_PIPE cmd1 cmd2, t =>
    (env.run_on_pipe cmd1 cmd2 t, t ++ [Event.pipe cmd1 cmd2])
  | command_t.compound OP_DUMMY _ _, t => (Outcome.returned SHELL_EXIT, t)

/-- An environment for examples: the simple command number `n` returns the status `n`,
except number 99, which ends the shell (`exit`); a pipe returns 0. -/
def sample_env : Env :=
  { parse_simple := fun scmd _ => if scmd = 99 then Outcome.exited 0 else Outcome.returned scmd
    run_on_pipe := fun _ _ _ => Outcome.returned 0 }

end MiniShell

namespace Aws

open connection_state resource_type

/-- A socket for examples of a drain cut short: the first `send` (the response header) is
taken in full, the second takes `k` bytes, every later one would block. -/
def header_then_block (k : Nat) : Nat → SockReply :=
  fun i => if i = 0 then SockReply.accept 4096
           else if i = 1 then SockReply.accept k
           else SockReply.would_block

/-- The state and the position fields of a connection: `state`, `file_pos`, `file_size`,
`send_pos`, `send_len`. -/
def positions (conn : connection) : connection_state × Nat × Nat × Nat × Nat :=
  (conn.state, conn.file_pos, conn.file_size, conn.send_pos, conn.send_len)

/-- A connection structure as `malloc` may return it when the memory has held an earlier
connection: `file_pos` is 4 and `have_path` is 1. -/
def stale_garbage : connection :=
  { sockfd := 9, fd := 9, filename := "junk".toList, file_size := 77,
    recv_buffer := "junk".toList, recv_len := 3, send_buffer := "junk".toList, send_len := 2,
    send_pos := 1, file_pos := 4, async_read_len := 5, have_path := 1,
    request_path := "junk".toList, res_type := RESOURCE_TYPE_DYNAMIC,
    state := STATE_DATA_SENT }

/-- The first read-ready event on a connection created over the memory `garbage`
(`BUFSIZ` is 256), then `k` write-ready events. -/
def exchange_over (garbage : connection) (env : Env) (k : Nat) : Option (connection × World) :=
  match handle_input 256 env 3 (connection_create 256 garbage 5) World.init with
  | none => none
  | some (conn, w) => write_ready_events 256 env 257 k conn w

/-- The log of the process when `DIE` ends it. `connection_remove` checks the result of
`w_epoll_remove_ptr` with `DIE(rc < 0, ...)`; the call fails when the socket has been
closed before (a closed descriptor has left the epoll set), and the process ends there,
before `io_destroy`, `close` and `free`. The functions above log the calls of a run in
which every removal from the epoll set succeeds; the log of the process is that log up to
and including the first `w_epoll_remove_ptr` that follows a `close` of the socket.
The same `DIE` follows `epoll_ctl` in `connection_start_async_io`. `closed` tells whether
the socket has been closed. -/
def process_log : Bool → List Event → List Event
  | _, [] => []
  | true, Event.epoll_remove :: _ => [Event.epoll_remove]
  | true, Event.epoll_mod_out :: _ => [Event.epoll_mod_out]
  | _, Event.close_socket :: es => Event.close_socket :: process_log true es
  | closed, e :: es => e :: process_log closed es

/-- The first `k` turns of the loop of `handle_input` on a fresh connection (`BUFSIZ` is
256): whether the loop goes on after them, the connection and the world. -/
def input_turns (env : Env) : Nat → Bool × connection × World
  | 0 => (true, connection_create 256 sample_garbage 5, World.init)
  | k + 1 =>
    match input_turns env k with
    | (true, conn, w) => handle_input_turn 256 env conn w
    | (false, conn, w) => (false, conn, w)

/-- An environment for examples of a failed receive: the first `recv` is answered by
`reply`; `get_peer_address` succeeds at the first call and fails from then on, and every
`send` fails, as they do on a socket that has been closed; the parser finds no path. -/
def failed_recv_env (reply : RecvReply) : Env :=
  { get_peer_address_ok := fun i => decide (i = 0)
    recv := fun _ => reply
    http_parser_execute := fun _ => none
    open_file := fun _ => none
    fstat_ok := true
    send := fun _ => SockReply.error
    sendfile := fun _ => SockReply.error
    io_submit_ok := fun _ => false
    io_getevents := fun _ => PollReply.error
    stack := fun _ => { res := 0, res2 := 0 } }


/-! # Properties -/

/-! ## Substring search -/

theorem strstr_ne_none_iff (h n : List Char) : strstr h n ≠ none ↔ n <:+: h := by
  induction h with
  | nil =>
    cases n with
    | nil => simp [strstr]
    | cons a n => simp [strstr, List.isPrefixOf]
  | cons c h ih =>
    rw [strstr, List.infix_cons_iff]
    by_cases hp : n.isPrefixOf (c :: h) = true
    · rw [if_pos hp]
      simp [List.isPrefixOf_iff_prefix.mp hp]
    · rw [if_neg hp]
      have hp2 : ¬ n <+: c :: h := fun hh => hp (List.isPrefixOf_iff_prefix.mpr hh)
      have : (Option.map (fun i => i + 1) (strstr h n) ≠ none) ↔ strstr h n ≠ none := by
        cases strstr h n <;> simp
      rw [this, ih]
      simp [hp2]

/-- Claim C1. `connection_get_resource_type` returns `RESOURCE_TYPE_STATIC` when the request
path contains "static", otherwise `RESOURCE_TYPE_DYNAMIC` when it contains "dynamic",
otherwise `RESOURCE_TYPE_NONE`; the tests are made in that order, so a path that contains
both substrings is classified static. -/
theorem C1_classification (conn : connection) :
    (connection_get_resource_type conn).res_type =
      (if "static".toList <:+: cstr conn.request_path then RESOURCE_TYPE_STATIC
       else if "dynamic".toList <:+: cstr conn.request_path then RESOURCE_TYPE_DYNAMIC
       else RESOURCE_TYPE_NONE) := by
  unfold connection_get_resource_type
  simp only [strstr_ne_none_iff]
  split_ifs <;> rfl

/-! ## Staging of the response headers -/

theorem cstr_append_nul (t rest : List Char) (h : NUL ∉ t) :
    cstr (t ++ NUL :: rest) = t := by
  unfold cstr
  rw [List.takeWhile_append_of_pos]
  · simp
  · intro a ha
    simp only [bne_iff_ne, ne_eq]
    rintro rfl
    exact h ha

theorem cstr_of_no_nul (t : List Char) (h : NUL ∉ t) : cstr t = t := by
  unfold cstr
  rw [List.takeWhile_eq_self_iff]
  intro a ha
  simp only [bne_iff_ne, ne_eq]
  rintro rfl
  exact h ha

theorem char_array_init_of_lt (size : Nat) (text : List Char) (h : text.length < size) :
    char_array_init size text = text ++ NUL :: zeroed (size - text.length - 1) := by
  unfold char_array_init memcpy zeroed
  rw [Nat.min_eq_right (Nat.le_of_lt h), List.take_length, List.drop_replicate]
  have : size - text.length = (size - text.length - 1) + 1 := by omega
  rw [this, List.replicate_succ]
  simp

theorem char_array_init_length (size : Nat) (text : List Char) :
    (char_array_init size text).length = size := by
  unfold char_array_init memcpy zeroed
  simp

theorem reply_404_text_no_nul : NUL ∉ reply_404_text := by decide

theorem reply_404_text_length : reply_404_text.length = 90 := by decide

/-- What `connection_prepare_send_404` leaves in the staging fields, when the literal fits
in the buffer with its terminator. -/
theorem prepare_send_404_staged (BUFSIZ : Nat) (conn : connection)
    (hB : reply_404_text.length < BUFSIZ) :
    (connection_prepare_send_404 BUFSIZ conn).send_len = reply_404_text.length
    ∧ (connection_prepare_send_404 BUFSIZ conn).send_buffer.take reply_404_text.length
        = reply_404_text := by
  have hbuf : (connection_prepare_send_404 BUFSIZ conn).send_buffer
      = reply_404_text
          ++ NUL :: (zeroed (BUFSIZ - reply_404_text.length - 1)
                      ++ conn.send_buffer.drop BUFSIZ) := by
    show memcpy conn.send_buffer (char_array_init BUFSIZ reply_404_text) BUFSIZ = _
    unfold memcpy
    have hl := char_array_init_length BUFSIZ reply_404_text
    rw [List.take_of_length_le (Nat.le_of_eq hl), char_array_init_of_lt _ _ hB]
    simp
  have hlen : (connection_prepare_send_404 BUFSIZ conn).send_len = reply_404_text.length := by
    show strlen (connection_prepare_send_404 BUFSIZ conn).send_buffer = _
    rw [hbuf, strlen, cstr_append_nul _ _ reply_404_text_no_nul]
  refine ⟨hlen, ?_⟩
  rw [hbuf, List.take_left]

/-- Claim C2, evaluated on the code. For every connection `connection_prepare_send_404`
stages the 90 bytes of its literal, whose last header line is `Connection: Closed`, sets
`send_len` to 90, `send_pos` to 0 and the state to `STATE_SENDING_404`; the staged bytes
differ from the text of the specification, which ends in `Connection: close\r\n\r\n`. -/
theorem C2_prepare_send_404_stages_Closed (BUFSIZ : Nat) (conn : connection)
    (hB : 256 ≤ BUFSIZ) :
    (connection_prepare_send_404 BUFSIZ conn).send_buffer.take
        (connection_prepare_send_404 BUFSIZ conn).send_len
      = ("HTTP/1.1 404 Not Found\r\nContent-Type: text/html\r\nContent-Length: 0\r\n"
          ++ "Connection: Closed\r\n\r\n").toList
    ∧ (connection_prepare_send_404 BUFSIZ conn).send_buffer.take
        (connection_prepare_send_404 BUFSIZ conn).send_len
      ≠ ("HTTP/1.1 404 Not Found\r\nContent-Type: text/html\r\nContent-Length: 0\r\n"
          ++ "Connection: close\r\n\r\n").toList
    ∧ (connection_prepare_send_404 BUFSIZ conn).send_len = 90
    ∧ (connection_prepare_send_404 BUFSIZ conn).send_pos = 0
    ∧ (connection_prepare_send_404 BUFSIZ conn).state = STATE_SENDING_404 := by
  have hfit : reply_404_text.length < BUFSIZ := by
    rw [reply_404_text_length]; omega
  obtain ⟨hlen, htake⟩ := prepare_send_404_staged BUFSIZ conn hfit
  rw [hlen, htake]
  refine ⟨by decide, by decide, reply_404_text_length, rfl, rfl⟩

/-- Claim C2, instance: a fresh connection with `BUFSIZ = 256`. -/
theorem C2_prepare_send_404_stages_Closed_witness :
    (256 ≤ 256)
    ∧ (connection_prepare_send_404 256 (connection_create 256
          { sockfd := 0, fd := 0, filename := [], file_size := 0, recv_buffer := [],
            recv_len := 0, send_buffer := [], send_len := 0, send_pos := 0, file_pos := 0,
            async_read_len := 0, have_path := 0, request_path := [],
            res_type := RESOURCE_TYPE_NONE, state := STATE_INITIAL } 5)).send_len = 90 :=
  ⟨by decide, (C2_prepare_send_404_stages_Closed 256 _ (by decide)).2.2.1⟩

theorem toDigits_length_le (n : Nat) (h : n < 2 ^ 64) : (Nat.toDigits 10 n).length ≤ 20 := by
  unfold Nat.toDigits
  exact Nat.toDigitsCore_length 10 (by decide) (n + 1) n 20 (by omega) (by decide)

theorem reply_header_text_length (n : Nat) (h : n < 2 ^ 64) :
    (reply_header_text "application/octet-stream".toList n).length ≤ 116 := by
  have := toDigits_length_le n h
  simp only [reply_header_text, List.length_append]
  have e1 : "HTTP/1.1 200 OK\r\n".toList.length = 17 := by decide
  have e2 : "Content-Type: ".toList.length = 14 := by decide
  have e3 : "application/octet-stream".toList.length = 24 := by decide
  have e4 : "\r\n".toList.length = 2 := by decide
  have e5 : "Content-Length: ".toList.length = 16 := by decide
  have e6 : "Connection: close\r\n".toList.length = 19 := by decide
  omega

/-- What `connection_prepare_send_reply_header` leaves in the staging fields, when the
header is shorter than the buffer. -/
theorem prepare_send_reply_header_staged (BUFSIZ : Nat) (conn : connection)
    (hB : (reply_header_text "application/octet-stream".toList conn.file_size).length
            < BUFSIZ) :
    connection_prepare_send_reply_header BUFSIZ conn =
      { conn with
        send_buffer := reply_header_text "application/octet-stream".toList conn.file_size
          ++ conn.send_buffer.drop
              (reply_header_text "application/octet-stream".toList conn.file_size).length
        send_len := (reply_header_text "application/octet-stream".toList conn.file_size).length
        send_pos := 0 } := by
  unfold connection_prepare_send_reply_header snprintf
  simp only [ge_iff_le]
  rw [if_neg (by omega)]
  have : memcpy conn.send_buffer
      (List.take (BUFSIZ - 1)
          (reply_header_text "application/octet-stream".toList conn.file_size) ++ [NUL])
      (reply_header_text "application/octet-stream".toList conn.file_size).length
      = reply_header_text "application/octet-stream".toList conn.file_size
          ++ conn.send_buffer.drop
              (reply_header_text "application/octet-stream".toList conn.file_size).length := by
    unfold memcpy
    rw [List.take_of_length_le (l := reply_header_text _ _) (by omega), List.take_left]
  rw [this]

/-- Claim C3. For every file size `n` below `2 ^ 64` (and `BUFSIZ` at least 256, the least
value the C standard allows), `connection_prepare_send_reply_header` stages exactly
`HTTP/1.1 200 OK`, `Content-Type: application/octet-stream`, `Content-Length: n` in
decimal, `Connection: close` and the empty line, sets `send_len` to the length of
that header and `send_pos` to 0, and leaves the state alone. -/
theorem C3_reply_header_staged (BUFSIZ : Nat) (conn : connection)
    (hB : 256 ≤ BUFSIZ) (hn : conn.file_size < 2 ^ 64) :
    (connection_prepare_send_reply_header BUFSIZ conn).send_buffer.take
        (connection_prepare_send_reply_header BUFSIZ conn).send_len
      = ("HTTP/1.1 200 OK\r\nContent-Type: application/octet-stream\r\n"
          ++ "Content-Length: ").toList ++ (Nat.repr conn.file_size).toList
          ++ "\r\nConnection: close\r\n\r\n".toList
    ∧ (connection_prepare_send_reply_header BUFSIZ conn).send_len
      = (("HTTP/1.1 200 OK\r\nContent-Type: application/octet-stream\r\n"
          ++ "Content-Length: ").toList ++ (Nat.repr conn.file_size).toList
          ++ "\r\nConnection: close\r\n\r\n".toList).length
    ∧ (connection_prepare_send_reply_header BUFSIZ conn).send_pos = 0
    ∧ (connection_prepare_send_reply_header BUFSIZ conn).state = conn.state := by
  have hfit : (reply_header_text "application/octet-stream".toList conn.file_size).length
      < BUFSIZ := by
    have := reply_header_text_length conn.file_size hn
    omega
  have htext : ("HTTP/1.1 200 OK\r\nContent-Type: application/octet-stream\r\n"
          ++ "Content-Length: ").toList ++ (Nat.repr conn.file_size).toList
          ++ "\r\nConnection: close\r\n\r\n".toList
      = reply_header_text "application/octet-stream".toList conn.file_size := by
    have hr : (Nat.repr conn.file_size).toList = Nat.toDigits 10 conn.file_size := rfl
    rw [hr]
    simp [reply_header_text]
  rw [prepare_send_reply_header_staged BUFSIZ conn hfit, htext]
  refine ⟨?_, rfl, rfl, rfl⟩
  simp

/-- Claim C3, instance: a file of 10 bytes with `BUFSIZ = 256`. -/
theorem C3_reply_header_staged_witness :
    (256 ≤ 256) ∧ ((10 : Nat) < 2 ^ 64)
    ∧ (connection_prepare_send_reply_header 256 (connection_create 256
          { sockfd := 0, fd := 0, filename := [], file_size := 10, recv_buffer := [],
            recv_len := 0, send_buffer := [], send_len := 0, send_pos := 0, file_pos := 0,
            async_read_len := 0, have_path := 0, request_path := [],
            res_type := RESOURCE_TYPE_NONE, state := STATE_INITIAL } 5)).send_pos = 0 :=
  ⟨by decide, by decide, (C3_reply_header_staged 256 _ (by decide) (by decide)).2.2.1⟩


/-! ## Loops -/

theorem sent_bytes_append (a b : List Event) :
    sent_bytes (a ++ b) = sent_bytes a ++ sent_bytes b := by
  induction a with
  | nil => rfl
  | cons e a ih => cases e <;> simp [sent_bytes, ih]

theorem sent_bytes_map_send (chunks : List (List Char)) :
    sent_bytes (chunks.map Event.send) = chunks.flatten := by
  induction chunks with
  | nil => rfl
  | cons c cs ih => simp [sent_bytes, ih]

/-- The loop of `connection_send_data` on a socket that takes at least one byte at every
`send`: it sends `send_buffer[total..send_len)` in pieces and touches nothing else. -/
theorem connection_send_data_loop_accepting (env : Env) (conn : connection)
    (hs : ∀ i, ∃ k, 0 < k ∧ env.send i = SockReply.accept k) :
    ∀ (fuel : Nat) (w : World) (total : Nat), conn.send_len - total ≤ fuel →
      ∃ chunks : List (List Char),
        (connection_send_data_loop env conn fuel w total).2
            = { w with send_calls := w.send_calls + chunks.length,
                       trace := w.trace ++ chunks.map Event.send }
        ∧ chunks.flatten = (conn.send_buffer.drop total).take (conn.send_len - total) := by
  intro fuel
  induction fuel with
  | zero =>
    intro w total h
    refine ⟨[], ?_, ?_⟩
    · simp [connection_send_data_loop]
    · have : conn.send_len - total = 0 := by omega
      simp [this]
  | succ fuel ih =>
    intro w total h
    by_cases hlt : total < conn.send_len
    · obtain ⟨k, hk, hrep⟩ := hs w.send_calls
      have hmin : min k (conn.send_len - total) ≠ 0 := by omega
      obtain ⟨chunks, hw, hj⟩ := ih
        { w with send_calls := w.send_calls + 1,
                 trace := w.trace ++ [Event.send ((conn.send_buffer.drop total).take
                    (min k (conn.send_len - total)))] }
        (total + min k (conn.send_len - total)) (by omega)
      refine ⟨(conn.send_buffer.drop total).take (min k (conn.send_len - total)) :: chunks,
        ?_, ?_⟩
      · simp only [connection_send_data_loop, if_pos hlt, sys_send, hrep, if_neg hmin]
        rw [hw]
        simp [Nat.add_assoc, Nat.add_comm 1]
      · rw [List.flatten_cons, hj]
        have e : conn.send_len - total
            = min k (conn.send_len - total)
              + (conn.send_len - (total + min k (conn.send_len - total))) := by omega
        conv_rhs => rw [e, List.take_add]
        simp [List.drop_drop, Nat.add_comm]
    · refine ⟨[], ?_, ?_⟩
      · simp [connection_send_data_loop, if_neg hlt]
      · have : conn.send_len - total = 0 := by omega
        simp [this]


theorem opened_names_append (a b : List Event) :
    opened_names (a ++ b) = opened_names a ++ opened_names b := by
  induction a with
  | nil => rfl
  | cons e a ih => cases e <;> simp [opened_names, ih]

theorem sendfile_total_append (a b : List Event) :
    sendfile_total (a ++ b) = sendfile_total a + sendfile_total b := by
  induction a with
  | nil => simp [sendfile_total]
  | cons e a ih => cases e <;> simp [sendfile_total, ih, Nat.add_assoc]

theorem submitted_reads_append (a b : List Event) :
    submitted_reads (a ++ b) = submitted_reads a ++ submitted_reads b := by
  induction a with
  | nil => rfl
  | cons e a ih => cases e <;> simp [submitted_reads, ih]

theorem sent_bytes_map_recv (chunks : List (List Char)) :
    sent_bytes (chunks.map Event.recv) = [] := by
  induction chunks with
  | nil => rfl
  | cons c cs ih => simp [sent_bytes, ih]

theorem opened_names_map_recv (chunks : List (List Char)) :
    opened_names (chunks.map Event.recv) = [] := by
  induction chunks with
  | nil => rfl
  | cons c cs ih => simp [opened_names, ih]

theorem opened_names_map_send (chunks : List (List Char)) :
    opened_names (chunks.map Event.send) = [] := by
  induction chunks with
  | nil => rfl
  | cons c cs ih => simp [opened_names, ih]

theorem sendfile_total_map_recv (chunks : List (List Char)) :
    sendfile_total (chunks.map Event.recv) = 0 := by
  induction chunks with
  | nil => rfl
  | cons c cs ih => simp [sendfile_total, ih]

theorem sendfile_total_map_send (chunks : List (List Char)) :
    sendfile_total (chunks.map Event.send) = 0 := by
  induction chunks with
  | nil => rfl
  | cons c cs ih => simp [sendfile_total, ih]

theorem submitted_reads_map_recv (chunks : List (List Char)) :
    submitted_reads (chunks.map Event.recv) = [] := by
  induction chunks with
  | nil => rfl
  | cons c cs ih => simp [submitted_reads, ih]

theorem submitted_reads_map_send (chunks : List (List Char)) :
    submitted_reads (chunks.map Event.send) = [] := by
  induction chunks with
  | nil => rfl
  | cons c cs ih => simp [submitted_reads, ih]

theorem count_free_map_recv (chunks : List (List Char)) :
    (chunks.map Event.recv).count Event.free = 0 := by
  induction chunks with
  | nil => rfl
  | cons c cs ih => simp [List.count_cons, ih]

theorem count_free_map_send (chunks : List (List Char)) :
    (chunks.map Event.send).count Event.free = 0 := by
  induction chunks with
  | nil => rfl
  | cons c cs ih => simp [List.count_cons, ih]

/-- The loop of `receive_data` on a socket that delivers at least one byte at every `recv`:
only `recv_buffer` changes, and only `recv` is called. -/
theorem receive_data_loop_delivering (BUFSIZ : Nat) (env : Env)
    (hr : ∀ i, ∃ b, b ≠ [] ∧ env.recv i = RecvReply.data b) :
    ∀ (fuel : Nat) (conn : connection) (w : World) (total : Nat),
      ∃ (chunks : List (List Char)) (rb : List Char),
        (receive_data_loop BUFSIZ env fuel conn w total).1 = { conn with recv_buffer := rb }
        ∧ (receive_data_loop BUFSIZ env fuel conn w total).2.1
            = { w with recv_calls := w.recv_calls + chunks.length,
                       trace := w.trace ++ chunks.map Event.recv } := by
  intro fuel
  induction fuel with
  | zero =>
    intro conn w total
    exact ⟨[], conn.recv_buffer, by simp [receive_data_loop], by simp [receive_data_loop]⟩
  | succ fuel ih =>
    intro conn w total
    by_cases hlt : total < BUFSIZ
    · obtain ⟨b, hb, hrep⟩ := hr w.recv_calls
      have hlen : (b.take (BUFSIZ - total)).length ≠ 0 := by
        have : b.length ≠ 0 := fun h => hb (List.length_eq_zero.mp h)
        rw [List.length_take]
        omega
      by_cases hfound : strstr (cstr (conn.recv_buffer.take total
          ++ memcpy (conn.recv_buffer.drop total) (b.take (BUFSIZ - total))
              (b.take (BUFSIZ - total)).length)) "\r\n\r\n".toList ≠ none
      · refine ⟨[b.take (BUFSIZ - total)], conn.recv_buffer.take total
          ++ memcpy (conn.recv_buffer.drop total) (b.take (BUFSIZ - total))
              (b.take (BUFSIZ - total)).length, ?_, ?_⟩
        · simp only [receive_data_loop, if_pos hlt, sys_recv, hrep, if_neg hlen, if_pos hfound]
        · simp only [receive_data_loop, if_pos hlt, sys_recv, hrep, if_neg hlen, if_pos hfound]
          simp
      · obtain ⟨chunks, rb, hc, hw⟩ := ih
          { conn with
            recv_buffer := conn.recv_buffer.take total
              ++ memcpy (conn.recv_buffer.drop total) (b.take (BUFSIZ - total))
                  (b.take (BUFSIZ - total)).length }
          { w with recv_calls := w.recv_calls + 1,
                   trace := w.trace ++ [Event.recv (b.take (BUFSIZ - total))] }
          (total + (b.take (BUFSIZ - total)).length)
        refine ⟨b.take (BUFSIZ - total) :: chunks, rb, ?_, ?_⟩
        · simp only [receive_data_loop, if_pos hlt, sys_recv, hrep, if_neg hlen, if_neg hfound]
          rw [hc]
        · simp only [receive_data_loop, if_pos hlt, sys_recv, hrep, if_neg hlen, if_neg hfound]
          rw [hw]
          simp [Nat.add_assoc, Nat.add_comm 1]
    · exact ⟨[], conn.recv_buffer, by simp [receive_data_loop, if_neg hlt],
        by simp [receive_data_loop, if_neg hlt]⟩

/-- The function `receive_data` when `get_peer_address` succeeds and every `recv` delivers
at least one byte. -/
theorem receive_data_delivering (BUFSIZ : Nat) (env : Env) (conn : connection) (w : World)
    (hp : ∀ i, env.get_peer_address_ok i = true)
    (hr : ∀ i, ∃ b, b ≠ [] ∧ env.recv i = RecvReply.data b) :
    ∃ (chunks : List (List Char)) (rb : List Char) (n : Nat),
      receive_data BUFSIZ env conn w =
        ({ conn with recv_buffer := rb, recv_len := n, state := STATE_REQUEST_RECEIVED },
         { w with peer_calls := w.peer_calls + 1,
                  recv_calls := w.recv_calls + chunks.length,
                  trace := w.trace ++ Event.get_peer_address :: chunks.map Event.recv }) := by
  obtain ⟨chunks, rb, hc, hw⟩ := receive_data_loop_delivering BUFSIZ env hr BUFSIZ conn
    { w with peer_calls := w.peer_calls + 1, trace := w.trace ++ [Event.get_peer_address] } 0
  refine ⟨chunks, rb, (receive_data_loop BUFSIZ env BUFSIZ conn
    { w with peer_calls := w.peer_calls + 1,
             trace := w.trace ++ [Event.get_peer_address] } 0).2.2, ?_⟩
  simp only [receive_data, get_peer_address, hp]
  rw [Prod.mk.injEq]
  refine ⟨?_, ?_⟩
  · rw [hc]
  · rw [hw]
    simp

/-- The function `connection_send_data` when `get_peer_address` succeeds and the socket
takes at least one byte at every `send`. -/
theorem connection_send_data_accepting (env : Env) (conn : connection) (w : World)
    (hp : ∀ i, env.get_peer_address_ok i = true)
    (hs : ∀ i, ∃ k, 0 < k ∧ env.send i = SockReply.accept k) :
    ∃ chunks : List (List Char),
      (connection_send_data env conn w).2
        = { w with peer_calls := w.peer_calls + 1,
                   send_calls := w.send_calls + chunks.length,
                   trace := w.trace ++ Event.get_peer_address :: chunks.map Event.send }
      ∧ chunks.flatten = conn.send_buffer.take conn.send_len := by
  obtain ⟨chunks, hw, hj⟩ := connection_send_data_loop_accepting env conn hs conn.send_len
    { w with peer_calls := w.peer_calls + 1, trace := w.trace ++ [Event.get_peer_address] } 0
    (by omega)
  refine ⟨chunks, ?_, by simpa using hj⟩
  simp only [connection_send_data, get_peer_address, hp]
  rw [hw]
  simp


/-! ## The 404 path of `handle_input` -/

theorem cstr_zeroed (n : Nat) : cstr (zeroed n) = [] := by
  cases n with
  | zero => rfl
  | succ n => simp [cstr, zeroed, List.replicate_succ]

theorem cstr_append_zeroed (p : List Char) (n : Nat) : cstr (p ++ zeroed n) = cstr p := by
  induction p with
  | nil => rw [List.nil_append, cstr_zeroed]; rfl
  | cons c p ih =>
    unfold cstr at ih ⊢
    simp only [List.cons_append, List.takeWhile_cons]
    split
    · rw [ih]
    · rfl

theorem cstr_initial_segment (p : List Char) : cstr p <+: p :=
  List.takeWhile_prefix _

theorem memcpy_zeroed (n : Nat) (p : List Char) :
    memcpy (zeroed n) p p.length = p ++ zeroed (n - p.length) := by
  simp [memcpy, zeroed]

theorem poke_zeroed (p : List Char) (n : Nat) :
    poke (p ++ zeroed n) p.length NUL = p ++ zeroed n := by
  unfold poke
  rw [List.set_append]
  simp only [Nat.lt_irrefl, if_false, Nat.sub_self]
  cases n with
  | zero => simp [zeroed]
  | succ n => simp [zeroed, List.replicate_succ]

/-- On a connection whose `request_path` buffer is still zeroed, the C string that
`aws_on_path_cb` leaves in `request_path` is the C string of the path found. -/
theorem aws_on_path_cb_cstr (BUFSIZ : Nat) (conn : connection) (p : List Char)
    (h : conn.request_path = zeroed BUFSIZ) :
    cstr (aws_on_path_cb conn p).request_path = cstr p := by
  show cstr (poke (memcpy conn.request_path p p.length) p.length NUL) = cstr p
  rw [h, memcpy_zeroed, poke_zeroed, cstr_append_zeroed]

theorem not_infix_cstr (s p : List Char) (h : ¬ s <:+: p) : ¬ s <:+: cstr p :=
  fun hs => h (List.IsInfix.trans hs (cstr_initial_segment p).isInfix)

/-- The turn of `handle_input` in state `STATE_SENDING_404` on a socket that accepts the
bytes: the staged 404 text is sent and the connection is removed. -/
theorem handle_input_turn_404 (BUFSIZ : Nat) (env : Env) (conn : connection) (w : World)
    (hB : reply_404_text.length < BUFSIZ)
    (hst : conn.state = STATE_SENDING_404)
    (hp : ∀ i, env.get_peer_address_ok i = true)
    (hs : ∀ i, ∃ k, 0 < k ∧ env.send i = SockReply.accept k) :
    ∃ (conn1 : connection) (chunks : List (List Char)),
      chunks.flatten = reply_404_text
      ∧ handle_input_turn BUFSIZ env conn w =
        (false, conn1,
          { w with peer_calls := w.peer_calls + 1,
                   send_calls := w.send_calls + chunks.length,
                   trace := w.trace ++ (Event.get_peer_address :: chunks.map Event.send
                      ++ [Event.epoll_remove, Event.io_destroy, Event.close_socket,
                          Event.free]) }) := by
  obtain ⟨chunks, hw, hj⟩ := connection_send_data_accepting env
    (connection_prepare_send_404 BUFSIZ conn) w hp hs
  obtain ⟨hlen, htake⟩ := prepare_send_404_staged BUFSIZ conn hB
  refine ⟨connection_prepare_send_404 BUFSIZ conn, chunks, ?_, ?_⟩
  · rw [hj, hlen, htake]
  · simp only [handle_input_turn, hst]
    rw [hw]
    simp [connection_remove, World.log]

theorem get_resource_type_none (conn : connection)
    (h1 : ¬ "static".toList <:+: cstr conn.request_path)
    (h2 : ¬ "dynamic".toList <:+: cstr conn.request_path) :
    connection_get_resource_type conn = { conn with res_type := RESOURCE_TYPE_NONE } := by
  unfold connection_get_resource_type
  simp only [strstr_ne_none_iff]
  rw [if_neg h1, if_neg h2]

/-- The turn of `handle_input` in state `STATE_REQUEST_RECEIVED`, on a connection whose
`request_path` is still zeroed, when the parser finds no path or a path that contains
neither "static" nor "dynamic": only the parser runs, and the state becomes
`STATE_SENDING_404`. -/
theorem handle_input_turn_unknown (BUFSIZ : Nat) (env : Env) (conn : connection) (w : World)
    (hst : conn.state = STATE_REQUEST_RECEIVED)
    (hz : conn.request_path = zeroed BUFSIZ)
    (hparse : env.http_parser_execute (conn.recv_buffer.take conn.recv_len) = none
      ∨ ∃ p, env.http_parser_execute (conn.recv_buffer.take conn.recv_len) = some p
          ∧ ¬ "static".toList <:+: p ∧ ¬ "dynamic".toList <:+: p) :
    ∃ conn1 : connection, conn1.state = STATE_SENDING_404
      ∧ handle_input_turn BUFSIZ env conn w =
          (true, conn1,
            w.log [Event.http_parser_execute (conn.recv_buffer.take conn.recv_len)]) := by
  rcases hparse with hnone | ⟨p, hsome, hs, hd⟩
  · by_cases hhp : conn.have_path = 0
    · refine ⟨{ conn with state := STATE_SENDING_404 }, rfl, ?_⟩
      simp only [handle_input_turn, hst, parse_header, hnone, hhp, if_true]
    · have hc : cstr conn.request_path = [] := by rw [hz, cstr_zeroed]
      have hnoneT := get_resource_type_none conn
        (by rw [hc]; decide) (by rw [hc]; decide)
      refine ⟨{ conn with res_type := RESOURCE_TYPE_NONE, state := STATE_SENDING_404 },
        rfl, ?_⟩
      simp only [handle_input_turn, hst, parse_header, hnone, if_neg hhp, hnoneT]
      simp
  · have hc : cstr (aws_on_path_cb conn p).request_path = cstr p :=
      aws_on_path_cb_cstr BUFSIZ conn p hz
    have hnoneT := get_resource_type_none (aws_on_path_cb conn p)
      (by rw [hc]; exact not_infix_cstr _ _ hs) (by rw [hc]; exact not_infix_cstr _ _ hd)
    have hhp : (aws_on_path_cb conn p).have_path ≠ 0 := by
      show (1 : Int) ≠ 0
      decide
    refine ⟨{ connection_get_resource_type (aws_on_path_cb conn p) with
              state := STATE_SENDING_404 }, rfl, ?_⟩
    simp only [handle_input_turn, hst, parse_header, hsome, if_neg hhp]
    rw [hnoneT]
    simp

/-- The turn of `handle_input` in state `STATE_INITIAL` when `get_peer_address` succeeds and
every `recv` delivers at least one byte: the request is received and the state becomes
`STATE_REQUEST_RECEIVED`. -/
theorem handle_input_turn_initial (BUFSIZ : Nat) (env : Env) (conn : connection) (w : World)
    (hst : conn.state = STATE_INITIAL)
    (hp : ∀ i, env.get_peer_address_ok i = true)
    (hr : ∀ i, ∃ b, b ≠ [] ∧ env.recv i = RecvReply.data b) :
    ∃ (chunks : List (List Char)) (rb : List Char) (n : Nat),
      received_request BUFSIZ env conn w = rb.take n
      ∧ handle_input_turn BUFSIZ env conn w =
        (true, { conn with recv_buffer := rb, recv_len := n, state := STATE_REQUEST_RECEIVED },
         { w with peer_calls := w.peer_calls + 1,
                  recv_calls := w.recv_calls + chunks.length,
                  trace := w.trace ++ Event.get_peer_address :: chunks.map Event.recv }) := by
  obtain ⟨chunks, rb, n, hrecv⟩ := receive_data_delivering BUFSIZ env
    { conn with state := STATE_RECEIVING_DATA } w hp hr
  refine ⟨chunks, rb, n, ?_, ?_⟩
  · unfold received_request
    rw [hrecv]
  · simp only [handle_input_turn, hst]
    rw [hrecv]

/-- The walk of `handle_input` from `STATE_INITIAL` to the 404 reply, for a connection whose
`request_path` is still zeroed. -/
theorem handle_input_unknown (BUFSIZ : Nat) (env : Env) (conn : connection)
    (w : World) (fuel : Nat)
    (hB : reply_404_text.length < BUFSIZ)
    (hst : conn.state = STATE_INITIAL)
    (hz : conn.request_path = zeroed BUFSIZ)
    (hp : ∀ i, env.get_peer_address_ok i = true)
    (hr : ∀ i, ∃ b, b ≠ [] ∧ env.recv i = RecvReply.data b)
    (hs : ∀ i, ∃ k, 0 < k ∧ env.send i = SockReply.accept k)
    (hparse :
      env.http_parser_execute (received_request BUFSIZ env conn w) = none
      ∨ ∃ p, env.http_parser_execute (received_request BUFSIZ env conn w) = some p
          ∧ ¬ "static".toList <:+: p ∧ ¬ "dynamic".toList <:+: p) :
    ∃ (conn1 : connection) (w1 : World) (rchunks schunks : List (List Char)),
      handle_input BUFSIZ env (fuel + 3) conn w = some (conn1, w1)
      ∧ w1.trace = w.trace ++
          (Event.get_peer_address :: rchunks.map Event.recv
            ++ [Event.http_parser_execute (received_request BUFSIZ env conn w)]
            ++ (Event.get_peer_address :: schunks.map Event.send
            ++ [Event.epoll_remove, Event.io_destroy, Event.close_socket, Event.free]))
      ∧ schunks.flatten = reply_404_text := by
  obtain ⟨rchunks, rb, n, hreq, hturn1⟩ := handle_input_turn_initial BUFSIZ env conn w hst hp hr
  rw [hreq] at hparse ⊢
  obtain ⟨conn2, hst2, hturn2⟩ := handle_input_turn_unknown BUFSIZ env
    { conn with recv_buffer := rb, recv_len := n, state := STATE_REQUEST_RECEIVED }
    { w with peer_calls := w.peer_calls + 1,
             recv_calls := w.recv_calls + rchunks.length,
             trace := w.trace ++ Event.get_peer_address :: rchunks.map Event.recv }
    rfl hz hparse
  obtain ⟨conn3, schunks, hflat, hturn3⟩ := handle_input_turn_404 BUFSIZ env conn2
    (World.log
      { w with
        peer_calls := w.peer_calls + 1,
        recv_calls := w.recv_calls + rchunks.length,
        trace := w.trace ++ Event.get_peer_address :: rchunks.map Event.recv }
      [Event.http_parser_execute (rb.take n)])
    hB hst2 hp hs
  have hrun : ∃ w1 : World, handle_input BUFSIZ env (fuel + 3) conn w = some (conn3, w1)
      ∧ w1.trace = w.trace ++
          (Event.get_peer_address :: rchunks.map Event.recv
            ++ [Event.http_parser_execute (rb.take n)]
            ++ (Event.get_peer_address :: schunks.map Event.send
            ++ [Event.epoll_remove, Event.io_destroy, Event.close_socket, Event.free])) := by
    simp only [handle_input, hturn1, hturn2, hturn3]
    exact ⟨_, rfl, by simp [World.log]⟩
  obtain ⟨w1, h1, h2⟩ := hrun
  exact ⟨conn3, w1, rchunks, schunks, h1, h2, hflat⟩

/-- Claim C4, evaluated on the code. A fresh connection (whatever `malloc` left in its
uninitialised fields) receives a request on a socket that delivers and accepts bytes. If
the parser finds no path in the request, or finds a path that contains neither "static"
nor "dynamic", then `handle_input` returns after three turns, and its system calls are
exactly: the receive, the parse, the send of the staged 404 text and the removal of the
connection. No file is opened, no `sendfile` and no read is issued, no body byte is sent
and the connection is freed once, as claimed. The bytes sent are the 90 bytes of the
literal of `connection_prepare_send_404`, whose last header line is `Connection: Closed`:
they are not the fixed 404 response of the specification, which ends in
`Connection: close\r\n\r\n`. -/
theorem C4_unknown_target_yields_404 (BUFSIZ : Nat) (env : Env) (garbage : connection)
    (sockfd : Int) (w : World) (fuel : Nat)
    (hB : 256 ≤ BUFSIZ)
    (hp : ∀ i, env.get_peer_address_ok i = true)
    (hr : ∀ i, ∃ b, b ≠ [] ∧ env.recv i = RecvReply.data b)
    (hs : ∀ i, ∃ k, 0 < k ∧ env.send i = SockReply.accept k)
    (hparse :
      env.http_parser_execute
          (received_request BUFSIZ env (connection_create BUFSIZ garbage sockfd) w) = none
      ∨ ∃ p, env.http_parser_execute
          (received_request BUFSIZ env (connection_create BUFSIZ garbage sockfd) w) = some p
          ∧ ¬ "static".toList <:+: p ∧ ¬ "dynamic".toList <:+: p) :
    ∃ (conn1 : connection) (w1 : World) (rchunks schunks : List (List Char)),
      handle_input BUFSIZ env (fuel + 3) (connection_create BUFSIZ garbage sockfd) w
        = some (conn1, w1)
      ∧ w1.trace = w.trace ++
          (Event.get_peer_address :: rchunks.map Event.recv
            ++ [Event.http_parser_execute
                  (received_request BUFSIZ env (connection_create BUFSIZ garbage sockfd) w)]
            ++ (Event.get_peer_address :: schunks.map Event.send
            ++ [Event.epoll_remove, Event.io_destroy, Event.close_socket, Event.free]))
      ∧ schunks.flatten
          = ("HTTP/1.1 404 Not Found\r\nContent-Type: text/html\r\nContent-Length: 0\r\n"
            ++ "Connection: Closed\r\n\r\n").toList
      ∧ sent_bytes w1.trace
          = sent_bytes w.trace ++
          ("HTTP/1.1 404 Not Found\r\nContent-Type: text/html\r\nContent-Length: 0\r\n"
            ++ "Connection: Closed\r\n\r\n").toList
      ∧ sent_bytes w1.trace
          ≠ sent_bytes w.trace ++
          ("HTTP/1.1 404 Not Found\r\nContent-Type: text/html\r\nContent-Length: 0\r\n"
            ++ "Connection: close\r\n\r\n").toList
      ∧ opened_names w1.trace = opened_names w.trace
      ∧ sendfile_total w1.trace = sendfile_total w.trace
      ∧ submitted_reads w1.trace = submitted_reads w.trace
      ∧ w1.trace.count Event.free = w.trace.count Event.free + 1 := by
  have hfit : reply_404_text.length < BUFSIZ := by
    rw [reply_404_text_length]; omega
  obtain ⟨conn1, w1, rchunks, schunks, hrun, htrace, hflat⟩ :=
    handle_input_unknown BUFSIZ env (connection_create BUFSIZ garbage sockfd) w fuel
      hfit rfl rfl hp hr hs hparse
  have htext : reply_404_text
      = ("HTTP/1.1 404 Not Found\r\nContent-Type: text/html\r\nContent-Length: 0\r\n"
            ++ "Connection: Closed\r\n\r\n").toList := by
    decide
  have hsent : sent_bytes w1.trace = sent_bytes w.trace ++ reply_404_text := by
    rw [htrace]
    simp [sent_bytes_append, sent_bytes_map_recv, sent_bytes_map_send, sent_bytes, hflat]
  rw [htext] at hflat hsent
  refine ⟨conn1, w1, rchunks, schunks, hrun, htrace, hflat, hsent, ?_, ?_, ?_, ?_, ?_⟩
  · rw [hsent]
    intro h
    exact absurd (List.append_cancel_left h) (by decide)
  all_goals
    rw [htrace]
    simp [sent_bytes_append, opened_names_append, sendfile_total_append,
      submitted_reads_append, sent_bytes_map_recv, sent_bytes_map_send,
      opened_names_map_recv, opened_names_map_send, sendfile_total_map_recv,
      sendfile_total_map_send, submitted_reads_map_recv, submitted_reads_map_send,
      count_free_map_recv, count_free_map_send, sent_bytes, opened_names, sendfile_total,
      submitted_reads, List.count_cons, hflat]

/-- Claim C4, instance: the request target `/other/x` on a fresh connection. The bytes on
the socket are the 90 bytes that end in `Connection: Closed`. -/
theorem C4_unknown_target_yields_404_witness :
    ∃ (conn1 : connection) (w1 : World),
      handle_input 256
          (sample_env "GET /other/x HTTP/1.1\r\n\r\n".toList (some "/other/x".toList)
            (fun _ => none) (fun _ => SockReply.accept 64) (fun _ => SockReply.accept 64)
            (fun _ => PollReply.complete))
          3 (connection_create 256 sample_garbage 5) World.init
        = some (conn1, w1)
      ∧ sent_bytes w1.trace
          = ("HTTP/1.1 404 Not Found\r\nContent-Type: text/html\r\nContent-Length: 0\r\n"
            ++ "Connection: Closed\r\n\r\n").toList
      ∧ sent_bytes w1.trace
          ≠ ("HTTP/1.1 404 Not Found\r\nContent-Type: text/html\r\nContent-Length: 0\r\n"
            ++ "Connection: close\r\n\r\n").toList
      ∧ opened_names w1.trace = []
      ∧ w1.trace.count Event.free = 1 := by
  obtain ⟨conn1, w1, _, _, hrun, _, _, hsent, hne, hopen, _, _, hfree⟩ :=
    C4_unknown_target_yields_404 256
      (sample_env "GET /other/x HTTP/1.1\r\n\r\n".toList (some "/other/x".toList)
        (fun _ => none) (fun _ => SockReply.accept 64) (fun _ => SockReply.accept 64)
        (fun _ => PollReply.complete))
      sample_garbage 5 World.init 0 (by decide) (fun _ => rfl)
      (fun _ => ⟨_, by decide, rfl⟩) (fun _ => ⟨64, by decide, rfl⟩)
      (Or.inr ⟨"/other/x".toList, rfl, by decide, by decide⟩)
  exact ⟨conn1, w1, hrun, hsent, hne, hopen, hfree⟩

/-! ## Resource errors -/

/-- When `open` or `fstat` fails, `send_file` returns 0 with the state set to
`STATE_SENDING_404`, having called nothing but `open` (and `fstat`, `close`). -/
theorem send_file_open_failure (BUFSIZ : Nat) (env : Env) (conn : connection) (w : World)
    (hfail : env.open_file (cstr (conn.filename.drop 1)) = none ∨ env.fstat_ok = false) :
    ∃ (conn1 : connection) (w1 : World) (es : List Event),
      send_file BUFSIZ env conn w = (0, conn1, w1)
      ∧ conn1.state = STATE_SENDING_404
      ∧ w1.trace = w.trace ++ es
      ∧ (es = [Event.open_file (cstr (conn.filename.drop 1))]
          ∨ es = [Event.open_file (cstr (conn.filename.drop 1)), Event.fstat,
                  Event.close_file]) := by
  cases hopen : env.open_file (cstr (conn.filename.drop 1)) with
  | none =>
    simp only [send_file, connection_open_file, hopen]
    exact ⟨_, _, [Event.open_file (cstr (conn.filename.drop 1))], rfl, rfl,
      by simp [World.log], Or.inl rfl⟩
  | some r =>
    obtain ⟨fd, content⟩ := r
    have hstat : env.fstat_ok = false := by
      rcases hfail with h | h
      · rw [hopen] at h; cases h
      · exact h
    simp only [send_file, connection_open_file, hopen, hstat]
    exact ⟨_, _, [Event.open_file (cstr (conn.filename.drop 1)), Event.fstat,
      Event.close_file], rfl, rfl, by simp [World.log], Or.inr rfl⟩

theorem parse_header_world (env : Env) (conn : connection) (w : World) :
    (parse_header env conn w).2
      = w.log [Event.http_parser_execute (conn.recv_buffer.take conn.recv_len)] := by
  simp only [parse_header]
  split <;> rfl

/-- Claim C5, evaluated on the code. A request has been received and its path is
classified static or dynamic. If `open` on the resolved name fails, or `fstat` fails, then
`send_file` returns 0 having sent nothing and started no transfer (its only system calls
are `open`, and `fstat` and `close` in the second case) and sets the state to
`STATE_SENDING_404`; `handle_input` then sends the staged 404 text, and nothing else, on a
socket that accepts the bytes, and removes the connection. So far the claim holds. The
bytes sent are the 90 bytes of the literal of `connection_prepare_send_404`, whose last
header line is `Connection: Closed`: they are not the fixed 404 response of the
specification, which ends in `Connection: close\r\n\r\n`. -/
theorem C5_resource_error_yields_404 (BUFSIZ : Nat) (env : Env) (conn : connection)
    (w : World) (fuel : Nat)
    (hB : 256 ≤ BUFSIZ)
    (hst : conn.state = STATE_REQUEST_RECEIVED)
    (hpath : (parse_header env conn w).1.have_path ≠ 0)
    (hcls : (classified_request env conn w).res_type = RESOURCE_TYPE_STATIC
      ∨ (classified_request env conn w).res_type = RESOURCE_TYPE_DYNAMIC)
    (hfail : env.open_file (cstr ((classified_request env conn w).filename.drop 1)) = none
      ∨ env.fstat_ok = false)
    (hp : ∀ i, env.get_peer_address_ok i = true)
    (hs : ∀ i, ∃ k, 0 < k ∧ env.send i = SockReply.accept k) :
    ∃ (conn1 : connection) (w1 : World) (es : List Event)
      (conn2 : connection) (w2 : World) (schunks : List (List Char)),
      send_file BUFSIZ env (classified_request env conn w) (parse_header env conn w).2
        = (0, conn1, w1)
      ∧ conn1.state = STATE_SENDING_404
      ∧ w1.trace = w.trace
          ++ [Event.http_parser_execute (conn.recv_buffer.take conn.recv_len)] ++ es
      ∧ (es = [Event.open_file (cstr ((classified_request env conn w).filename.drop 1))]
          ∨ es = [Event.open_file (cstr ((classified_request env conn w).filename.drop 1)),
                  Event.fstat, Event.close_file])
      ∧ handle_input BUFSIZ env (fuel + 2) conn w = some (conn2, w2)
      ∧ w2.trace = w1.trace ++
          (Event.get_peer_address :: schunks.map Event.send
            ++ [Event.epoll_remove, Event.io_destroy, Event.close_socket, Event.free])
      ∧ schunks.flatten
          = ("HTTP/1.1 404 Not Found\r\nContent-Type: text/html\r\nContent-Length: 0\r\n"
            ++ "Connection: Closed\r\n\r\n").toList
      ∧ sent_bytes w2.trace
          = sent_bytes w.trace ++
          ("HTTP/1.1 404 Not Found\r\nContent-Type: text/html\r\nContent-Length: 0\r\n"
            ++ "Connection: Closed\r\n\r\n").toList
      ∧ sent_bytes w2.trace
          ≠ sent_bytes w.trace ++
          ("HTTP/1.1 404 Not Found\r\nContent-Type: text/html\r\nContent-Length: 0\r\n"
            ++ "Connection: close\r\n\r\n").toList
      ∧ sendfile_total w2.trace = sendfile_total w.trace
      ∧ submitted_reads w2.trace = submitted_reads w.trace
      ∧ w2.trace.count Event.free = w.trace.count Event.free + 1 := by
  have hfit : reply_404_text.length < BUFSIZ := by
    rw [reply_404_text_length]; omega
  obtain ⟨conn1, w1, es, hsf, hst1, htr1, hes⟩ := send_file_open_failure BUFSIZ env
    (classified_request env conn w) (parse_header env conn w).2 hfail
  obtain ⟨conn2, schunks, hflat, hturn2⟩ := handle_input_turn_404 BUFSIZ env conn1 w1
    hfit hst1 hp hs
  have htr1' : w1.trace = w.trace
      ++ [Event.http_parser_execute (conn.recv_buffer.take conn.recv_len)] ++ es := by
    rw [htr1, parse_header_world]
    rfl
  have hturn1 : handle_input_turn BUFSIZ env conn w = (true, conn1, w1) := by
    unfold classified_request at hsf hcls
    rcases hx : parse_header env conn w with ⟨c1, wp⟩
    rw [hx] at hsf hcls hpath
    simp only [handle_input_turn, hst, hx]
    rw [if_neg hpath, if_pos hcls, hsf]
    simp
  have hrun : ∃ w2 : World, handle_input BUFSIZ env (fuel + 2) conn w = some (conn2, w2)
      ∧ w2.trace = w1.trace ++
          (Event.get_peer_address :: schunks.map Event.send
            ++ [Event.epoll_remove, Event.io_destroy, Event.close_socket, Event.free]) := by
    simp only [handle_input, hturn1, hturn2]
    exact ⟨_, rfl, rfl⟩
  obtain ⟨w2, hrun, htr2⟩ := hrun
  have hes_obs : sent_bytes es = [] ∧ sendfile_total es = 0 ∧ submitted_reads es = []
      ∧ es.count Event.free = 0 := by
    rcases hes with h | h <;> rw [h] <;>
      simp [sent_bytes, sendfile_total, submitted_reads, List.count_cons]
  obtain ⟨o1, o2, o3, o4⟩ := hes_obs
  have htext : reply_404_text
      = ("HTTP/1.1 404 Not Found\r\nContent-Type: text/html\r\nContent-Length: 0\r\n"
            ++ "Connection: Closed\r\n\r\n").toList := by
    decide
  have hsent : sent_bytes w2.trace = sent_bytes w.trace ++ reply_404_text := by
    rw [htr2, htr1']
    simp [sent_bytes_append, sent_bytes_map_send, sent_bytes, hflat, o1]
  rw [htext] at hflat hsent
  refine ⟨conn1, w1, es, conn2, w2, schunks, hsf, hst1, htr1', hes, hrun, htr2, hflat,
    hsent, ?_, ?_, ?_, ?_⟩
  · rw [hsent]
    intro h
    exact absurd (List.append_cancel_left h) (by decide)
  all_goals
    rw [htr2, htr1']
    simp [sent_bytes_append, sendfile_total_append, submitted_reads_append,
      sent_bytes_map_send, sendfile_total_map_send, submitted_reads_map_send,
      count_free_map_send, sent_bytes, sendfile_total, submitted_reads, List.count_cons,
      hflat, o1, o2, o3, o4]

/-- Claim C5, instance: the request target `/static/missing` when no file exists. The bytes
on the socket are the 90 bytes that end in `Connection: Closed`. -/
theorem C5_resource_error_yields_404_witness :
    ∃ (conn2 : connection) (w2 : World),
      handle_input 256
          (sample_env "GET /static/missing HTTP/1.1\r\n\r\n".toList
            (some "/static/missing".toList) (fun _ => none) (fun _ => SockReply.accept 64)
            (fun _ => SockReply.accept 64) (fun _ => PollReply.complete))
          2 (sample_received "GET /static/missing HTTP/1.1\r\n\r\n".toList) World.init
        = some (conn2, w2)
      ∧ sent_bytes w2.trace
          = ("HTTP/1.1 404 Not Found\r\nContent-Type: text/html\r\nContent-Length: 0\r\n"
            ++ "Connection: Closed\r\n\r\n").toList
      ∧ sent_bytes w2.trace
          ≠ ("HTTP/1.1 404 Not Found\r\nContent-Type: text/html\r\nContent-Length: 0\r\n"
            ++ "Connection: close\r\n\r\n").toList
      ∧ sendfile_total w2.trace = 0
      ∧ w2.trace.count Event.free = 1 := by
  obtain ⟨_, _, _, conn2, w2, _, -, -, -, -, hrun, -, -, hsent, hne, hsf, -, hfree⟩ :=
    C5_resource_error_yields_404 256
      (sample_env "GET /static/missing HTTP/1.1\r\n\r\n".toList
        (some "/static/missing".toList) (fun _ => none) (fun _ => SockReply.accept 64)
        (fun _ => SockReply.accept 64) (fun _ => PollReply.complete))
      (sample_received "GET /static/missing HTTP/1.1\r\n\r\n".toList) World.init 0
      (by decide) rfl (by decide) (Or.inl (by decide)) (Or.inl rfl) (fun _ => rfl)
      (fun _ => ⟨64, by decide, rfl⟩)
  exact ⟨conn2, w2, hrun, hsent, hne, hsf, hfree⟩

/-! ## The resolved file name -/

/-- On a fresh connection, after the parser has found the NUL-free path `p` and the path
has been classified static or dynamic, `filename` holds `p` followed by zeros. -/
theorem filename_after_classification (BUFSIZ : Nat) (conn : connection) (p : List Char)
    (hz : conn.request_path = zeroed BUFSIZ) (hf : conn.filename = zeroed BUFSIZ)
    (hnul : NUL ∉ p)
    (hcls : (connection_get_resource_type (aws_on_path_cb conn p)).res_type
              ≠ RESOURCE_TYPE_NONE) :
    (connection_get_resource_type (aws_on_path_cb conn p)).filename
      = p ++ zeroed (BUFSIZ - p.length) := by
  have hrp : (aws_on_path_cb conn p).request_path = p ++ zeroed (BUFSIZ - p.length) := by
    show poke (memcpy conn.request_path p p.length) p.length NUL = _
    rw [hz, memcpy_zeroed, poke_zeroed]
  have hc : cstr (aws_on_path_cb conn p).request_path = p := by
    rw [hrp, cstr_append_zeroed, cstr_of_no_nul p hnul]
  have hfn : (aws_on_path_cb conn p).filename = zeroed BUFSIZ := hf
  have hcopy : memcpy (aws_on_path_cb conn p).filename (aws_on_path_cb conn p).request_path
      (strlen (aws_on_path_cb conn p).request_path) = p ++ zeroed (BUFSIZ - p.length) := by
    rw [strlen, hc, hrp, hfn]
    simp [memcpy, zeroed]
  unfold connection_get_resource_type at hcls ⊢
  split_ifs at hcls ⊢ with h1 h2
  · exact hcopy
  · exact hcopy
  · exact absurd rfl hcls

theorem opened_names_open_file (env : Env) (conn : connection) (w : World) :
    opened_names (connection_open_file env conn w).2.2.trace
      = opened_names w.trace ++ [cstr (conn.filename.drop 1)] := by
  cases h : env.open_file (cstr (conn.filename.drop 1)) with
  | none =>
    simp only [connection_open_file, h]
    simp [World.log, opened_names_append, opened_names]
  | some r =>
    cases h2 : env.fstat_ok <;>
    · simp only [connection_open_file, h, h2]
      simp [World.log, opened_names_append, opened_names]

/-- Claim C6, counterexample. The path "static/a.txt" is classified static, and
the name given to `open` is "tatic/a.txt": the first character is dropped although it is
not the separator, where the specification resolves the path to itself. -/
theorem C6_drops_first_character_whatever_it_is :
    (connection_get_resource_type
        (aws_on_path_cb (connection_create 256 sample_garbage 5)
          "static/a.txt".toList)).res_type = RESOURCE_TYPE_STATIC
    ∧ opened_name_for 256
        (sample_env [] none (fun _ => none) (fun _ => SockReply.accept 64)
          (fun _ => SockReply.accept 64) (fun _ => PollReply.complete))
        sample_garbage 5 "static/a.txt".toList = ["tatic/a.txt".toList]
    ∧ spec_resolved_name "static/a.txt".toList = "static/a.txt".toList
    ∧ opened_name_for 256
        (sample_env [] none (fun _ => none) (fun _ => SockReply.accept 64)
          (fun _ => SockReply.accept 64) (fun _ => PollReply.complete))
        sample_garbage 5 "static/a.txt".toList
      ≠ [spec_resolved_name "static/a.txt".toList] := by
  refine ⟨by decide, ?_, by decide, ?_⟩
  · unfold opened_name_for
    rw [opened_names_open_file]
    decide
  · unfold opened_name_for
    rw [opened_names_open_file]
    decide

/-- Claim C6, amended. For every NUL-free request path `p` that fits in the buffer and is
classified static or dynamic, on a fresh connection, the file name given to `open` by
`connection_open_file` is `p` without its first character, whatever that character is;
so for `p = "/" ++ rest` it is `rest`. -/
theorem C6_open_name_is_path_without_first_char (BUFSIZ : Nat) (env : Env)
    (garbage : connection) (sockfd : Int) (p : List Char)
    (hnul : NUL ∉ p) (_hlen : p.length < BUFSIZ)
    (hcls : (connection_get_resource_type
              (aws_on_path_cb (connection_create BUFSIZ garbage sockfd) p)).res_type
            ≠ RESOURCE_TYPE_NONE) :
    opened_name_for BUFSIZ env garbage sockfd p = [p.drop 1] := by
  unfold opened_name_for
  rw [opened_names_open_file,
    filename_after_classification BUFSIZ _ p rfl rfl hnul hcls]
  have hname : cstr ((p ++ zeroed (BUFSIZ - p.length)).drop 1) = p.drop 1 := by
    rw [List.drop_append_eq_append_drop]
    have hz : (zeroed (BUFSIZ - p.length)).drop (1 - p.length)
        = zeroed (BUFSIZ - p.length - (1 - p.length)) := by
      simp [zeroed]
    rw [hz, cstr_append_zeroed]
    exact cstr_of_no_nul _ (fun h => hnul (List.mem_of_mem_drop h))
  rw [hname]
  rfl

/-- Claim C6, instance: the path `/static/a.txt` resolves to `static/a.txt`. -/
theorem C6_open_name_is_path_without_first_char_witness :
    opened_name_for 256
        (sample_env [] none (fun _ => none) (fun _ => SockReply.accept 64)
          (fun _ => SockReply.accept 64) (fun _ => PollReply.complete))
        sample_garbage 5 "/static/a.txt".toList = ["static/a.txt".toList] :=
  C6_open_name_is_path_without_first_char 256 _ sample_garbage 5 "/static/a.txt".toList
    (by decide) (by decide) (by decide)

/-! ## Static transfer -/

theorem sendfile_total_sendfile_events (offset : Nat) (counts : List Nat) :
    sendfile_total (sendfile_events offset counts) = counts.sum := by
  induction counts generalizing offset with
  | nil => rfl
  | cons c cs ih => simp [sendfile_events, sendfile_total, ih]

theorem sent_bytes_sendfile_events (offset : Nat) (counts : List Nat) :
    sent_bytes (sendfile_events offset counts) = [] := by
  induction counts generalizing offset with
  | nil => rfl
  | cons c cs ih => simp [sendfile_events, sent_bytes, ih]

theorem count_free_sendfile_events (offset : Nat) (counts : List Nat) :
    (sendfile_events offset counts).count Event.free = 0 := by
  induction counts generalizing offset with
  | nil => rfl
  | cons c cs ih => simp [sendfile_events, List.count_cons, ih]

/-- The loop of `connection_send_static` when every `sendfile` finds room for at least one
byte and the file has its `file_size` bytes: the loop ends with `STATE_DATA_SENT` after
moving `file_size - offset` bytes in contiguous pieces. -/
theorem connection_send_static_loop_accepting (env : Env) (conn : connection)
    (hs : ∀ i, ∃ k, 0 < k ∧ env.sendfile i = SockReply.accept k) :
    ∀ (fuel : Nat) (w : World) (offset : Nat),
      conn.file_size - offset ≤ fuel → w.file.length = conn.file_size →
      ∃ counts : List Nat,
        connection_send_static_loop env conn fuel w offset
          = (STATE_DATA_SENT,
              { w with sendfile_calls := w.sendfile_calls + counts.length,
                       trace := w.trace ++ sendfile_events offset counts })
        ∧ counts.sum = conn.file_size - offset
        ∧ ∀ c ∈ counts, 0 < c := by
  intro fuel
  induction fuel with
  | zero =>
    intro w offset h _
    refine ⟨[], ?_, ?_, ?_⟩
    · simp [connection_send_static_loop, sendfile_events]
    · simp; omega
    · simp
  | succ fuel ih =>
    intro w offset h hfile
    by_cases hlt : offset < conn.file_size
    · obtain ⟨k, hk, hrep⟩ := hs w.sendfile_calls
      have hcount : min (conn.file_size - offset) (w.file.length - offset)
          = conn.file_size - offset := by omega
      have hmin : min k (conn.file_size - offset) ≠ 0 := by omega
      obtain ⟨counts, hw, hsum, hpos⟩ := ih
        { w with sendfile_calls := w.sendfile_calls + 1,
                 trace := w.trace ++ [Event.sendfile offset (min k (conn.file_size - offset))] }
        (offset + min k (conn.file_size - offset)) (by omega) hfile
      refine ⟨min k (conn.file_size - offset) :: counts, ?_, ?_, ?_⟩
      · simp only [connection_send_static_loop, if_pos hlt, sys_sendfile, hrep, hcount,
          if_neg hmin]
        rw [hw]
        simp [sendfile_events, Nat.add_assoc, Nat.add_comm 1]
      · rw [List.sum_cons, hsum]
        omega
      · intro c hc
        rcases List.mem_cons.mp hc with rfl | hc
        · omega
        · exact hpos c hc
    · refine ⟨[], ?_, ?_, ?_⟩
      · simp [connection_send_static_loop, if_neg hlt, sendfile_events]
      · simp; omega
      · simp

/-- What `connection_open_file` does when `open` and `fstat` succeed. -/
theorem connection_open_file_success (env : Env) (conn : connection) (w : World)
    (fd : Nat) (content : List Char)
    (hopen : env.open_file (cstr (conn.filename.drop 1)) = some (fd, content))
    (hstat : env.fstat_ok = true) (hsize : content.length < 2 ^ 64) :
    connection_open_file env conn w =
      (0, { conn with fd := fd, file_size := content.length },
        { w with file := content,
                 trace := w.trace ++ [Event.open_file (cstr (conn.filename.drop 1)),
                                      Event.fstat] }) := by
  have hmod : content.length % SIZE_MOD = content.length :=
    Nat.mod_eq_of_lt (by unfold SIZE_MOD; exact hsize)
  simp only [connection_open_file, hopen, hstat, if_true, hmod, World.log]
  simp

/-- Claim C7. When `open` and `fstat` succeed on a file of `n` bytes, the socket accepts the
header, and every `sendfile` call moves at least one byte (none would block or fail; none
moves more than requested, by the meaning of `SockReply.accept`), then `send_file` on a
static resource sends the header with `Content-Length: n`, `connection_send_static`
returns `STATE_DATA_SENT` after `sendfile` calls that cover the file from offset 0 in
contiguous pieces whose sizes add up to `n`, and the connection is removed. The last
part states the same of `connection_send_static` alone, for every connection. -/
theorem C7_static_transfer_complete (BUFSIZ : Nat) (env : Env) (conn : connection)
    (w : World) (fd : Nat) (content : List Char)
    (hB : 256 ≤ BUFSIZ)
    (hres : conn.res_type = RESOURCE_TYPE_STATIC)
    (hopen : env.open_file (cstr (conn.filename.drop 1)) = some (fd, content))
    (hstat : env.fstat_ok = true)
    (hsize : content.length < 2 ^ 64)
    (hp : ∀ i, env.get_peer_address_ok i = true)
    (hs : ∀ i, ∃ k, 0 < k ∧ env.send i = SockReply.accept k)
    (hsf : ∀ i, ∃ k, 0 < k ∧ env.sendfile i = SockReply.accept k) :
    (∃ (conn1 : connection) (w1 : World) (hchunks : List (List Char)) (counts : List Nat),
      send_file BUFSIZ env conn w = (1, conn1, w1)
      ∧ conn1.state = STATE_DATA_SENT
      ∧ w1.trace = w.trace
          ++ [Event.open_file (cstr (conn.filename.drop 1)), Event.fstat]
          ++ (Event.get_peer_address :: hchunks.map Event.send)
          ++ sendfile_events 0 counts
          ++ [Event.epoll_remove, Event.io_destroy, Event.close_socket, Event.free]
      ∧ hchunks.flatten
          = ("HTTP/1.1 200 OK\r\nContent-Type: application/octet-stream\r\n"
              ++ "Content-Length: ").toList ++ (Nat.repr content.length).toList
              ++ "\r\nConnection: close\r\n\r\n".toList
      ∧ counts.sum = content.length
      ∧ (∀ c ∈ counts, 0 < c)
      ∧ sendfile_total w1.trace = sendfile_total w.trace + content.length)
    ∧ (∀ (c : connection) (w0 : World), w0.file.length = c.file_size →
        (connection_send_static env c w0).1 = STATE_DATA_SENT
        ∧ sendfile_total (connection_send_static env c w0).2.trace
            = sendfile_total w0.trace + c.file_size) := by
  constructor
  · have hfit : (reply_header_text "application/octet-stream".toList content.length).length
        < BUFSIZ := by
      have := reply_header_text_length content.length hsize
      omega
    have hof := connection_open_file_success env conn w fd content hopen hstat hsize
    have hhdr := prepare_send_reply_header_staged BUFSIZ
      { conn with fd := fd, file_size := content.length } hfit
    obtain ⟨hchunks, hw2, hj⟩ := connection_send_data_accepting env
      (connection_prepare_send_reply_header BUFSIZ
        { conn with fd := fd, file_size := content.length })
      { w with file := content,
               trace := w.trace ++ [Event.open_file (cstr (conn.filename.drop 1)),
                                    Event.fstat] } hp hs
    rcases hsd : connection_send_data env
      (connection_prepare_send_reply_header BUFSIZ
        { conn with fd := fd, file_size := content.length })
      { w with file := content,
               trace := w.trace ++ [Event.open_file (cstr (conn.filename.drop 1)),
                                    Event.fstat] } with ⟨r, w2⟩
    rw [hsd] at hw2
    simp only at hw2
    have hfs : (connection_prepare_send_reply_header BUFSIZ
        { conn with fd := fd, file_size := content.length }).file_size = content.length := by
      rw [hhdr]
    have hrt : (connection_prepare_send_reply_header BUFSIZ
        { conn with fd := fd, file_size := content.length }).res_type
          = RESOURCE_TYPE_STATIC := by
      rw [hhdr]; exact hres
    obtain ⟨counts, hloop, hsum, hpos⟩ := connection_send_static_loop_accepting env
      (connection_prepare_send_reply_header BUFSIZ
        { conn with fd := fd, file_size := content.length }) hsf
      (connection_prepare_send_reply_header BUFSIZ
        { conn with fd := fd, file_size := content.length }).file_size w2 0 (by omega)
      (by rw [hw2, hfs])
    have htext : hchunks.flatten
        = ("HTTP/1.1 200 OK\r\nContent-Type: application/octet-stream\r\n"
              ++ "Content-Length: ").toList ++ (Nat.repr content.length).toList
              ++ "\r\nConnection: close\r\n\r\n".toList := by
      have hspec : ("HTTP/1.1 200 OK\r\nContent-Type: application/octet-stream\r\n"
              ++ "Content-Length: ").toList ++ (Nat.repr content.length).toList
              ++ "\r\nConnection: close\r\n\r\n".toList
          = reply_header_text "application/octet-stream".toList content.length := by
        have hr : (Nat.repr content.length).toList = Nat.toDigits 10 content.length := rfl
        rw [hr]
        simp [reply_header_text]
      rw [hj, hhdr, hspec]
      simp
    have hrun : ∃ (conn1 : connection) (w1 : World),
        send_file BUFSIZ env conn w = (1, conn1, w1)
        ∧ conn1.state = STATE_DATA_SENT
        ∧ w1.trace = w.trace
          ++ [Event.open_file (cstr (conn.filename.drop 1)), Event.fstat]
          ++ (Event.get_peer_address :: hchunks.map Event.send)
          ++ sendfile_events 0 counts
          ++ [Event.epoll_remove, Event.io_destroy, Event.close_socket, Event.free] := by
      simp only [send_file, hof, if_true, hsd, hrt, connection_send_static, hloop]
      refine ⟨_, _, rfl, rfl, ?_⟩
      rw [hw2]
      simp [connection_remove, World.log]
    obtain ⟨conn1, w1, h1, h2, h3⟩ := hrun
    refine ⟨conn1, w1, hchunks, counts, h1, h2, h3, htext, ?_, hpos, ?_⟩
    · rw [hsum, hfs]; omega
    · rw [h3]
      simp [sendfile_total_append, sendfile_total_map_send, sendfile_total,
        sendfile_total_sendfile_events, hsum, hfs]
  · intro c w0 hfile
    obtain ⟨counts, hloop, hsum, _⟩ := connection_send_static_loop_accepting env c hsf
      c.file_size w0 0 (by omega) hfile
    unfold connection_send_static
    rw [hloop]
    refine ⟨rfl, ?_⟩
    simp [sendfile_total_append, sendfile_total_sendfile_events, hsum]

/-- Claim C7, instance: the 10-byte file `static/a.txt`, moved by `sendfile` in pieces of at
most 4 bytes, after a header with `Content-Length: 10`. -/
theorem C7_static_transfer_complete_witness :
    ∃ (conn1 : connection) (w1 : World),
      send_file 256
          (sample_env "GET /static/a.txt HTTP/1.1\r\n\r\n".toList
            (some "/static/a.txt".toList)
            (sample_files "static/a.txt".toList "0123456789".toList)
            (fun _ => SockReply.accept 64) (fun _ => SockReply.accept 4)
            (fun _ => PollReply.complete))
          (classified_request
            (sample_env "GET /static/a.txt HTTP/1.1\r\n\r\n".toList
              (some "/static/a.txt".toList)
              (sample_files "static/a.txt".toList "0123456789".toList)
              (fun _ => SockReply.accept 64) (fun _ => SockReply.accept 4)
              (fun _ => PollReply.complete))
            (sample_received "GET /static/a.txt HTTP/1.1\r\n\r\n".toList) World.init)
          World.init
        = (1, conn1, w1)
      ∧ conn1.state = STATE_DATA_SENT
      ∧ sendfile_total w1.trace = 10
      ∧ sent_bytes w1.trace
          = ("HTTP/1.1 200 OK\r\nContent-Type: application/octet-stream\r\n"
              ++ "Content-Length: 10\r\nConnection: close\r\n\r\n").toList := by
  obtain ⟨⟨conn1, w1, hchunks, counts, hrun, hstate, htrace, hheader, -, -, htotal⟩, -⟩ :=
    C7_static_transfer_complete 256
      (sample_env "GET /static/a.txt HTTP/1.1\r\n\r\n".toList
        (some "/static/a.txt".toList)
        (sample_files "static/a.txt".toList "0123456789".toList)
        (fun _ => SockReply.accept 64) (fun _ => SockReply.accept 4)
        (fun _ => PollReply.complete))
      (classified_request
        (sample_env "GET /static/a.txt HTTP/1.1\r\n\r\n".toList
          (some "/static/a.txt".toList)
          (sample_files "static/a.txt".toList "0123456789".toList)
          (fun _ => SockReply.accept 64) (fun _ => SockReply.accept 4)
          (fun _ => PollReply.complete))
        (sample_received "GET /static/a.txt HTTP/1.1\r\n\r\n".toList) World.init)
      World.init 3 "0123456789".toList
      (by decide) (by decide) (by decide) rfl (by decide) (fun _ => rfl)
      (fun _ => ⟨64, by decide, rfl⟩) (fun _ => ⟨4, by decide, rfl⟩)
  refine ⟨conn1, w1, hrun, hstate, ?_, ?_⟩
  · rw [htotal]
    rfl
  · rw [htrace]
    have e1 : sent_bytes World.init.trace = [] := rfl
    have e2 : sent_bytes [Event.open_file
        (cstr (List.drop 1 (classified_request
          (sample_env "GET /static/a.txt HTTP/1.1\r\n\r\n".toList
            (some "/static/a.txt".toList)
            (sample_files "static/a.txt".toList "0123456789".toList)
            (fun _ => SockReply.accept 64) (fun _ => SockReply.accept 4)
            (fun _ => PollReply.complete))
          (sample_received "GET /static/a.txt HTTP/1.1\r\n\r\n".toList)
          World.init).filename)), Event.fstat] = [] := rfl
    have e3 : ∀ cs : List (List Char),
        sent_bytes (Event.get_peer_address :: cs.map Event.send) = cs.flatten :=
      fun cs => sent_bytes_map_send cs
    have e4 : sent_bytes [Event.epoll_remove, Event.io_destroy, Event.close_socket,
        Event.free] = [] := rfl
    rw [sent_bytes_append, sent_bytes_append, sent_bytes_append, sent_bytes_append,
      e1, e2, e3, e4, sent_bytes_sendfile_events, hheader]
    decide

/-- Claim C8, evaluated on the code, which abandons the transfer. A 10-byte static file is requested and the
second `sendfile` call would block after 4 bytes. `connection_send_static` returns
`STATE_SENDING_DATA`, and `send_file` then removes the connection: when it returns, the
connection has left the epoll set, its socket is closed and its memory is freed, with 4 of
the 10 bytes sent. The offset reached is a local variable of `connection_send_static`
and is stored nowhere. -/
theorem C8_would_block_static_transfer_is_abandoned :
    (send_file 256 static_would_block_env
        (classified_request static_would_block_env
          (sample_received "GET /static/a.txt HTTP/1.1\r\n\r\n".toList) World.init)
        World.init).2.1.state = STATE_SENDING_DATA
    ∧ sendfile_total (send_file 256 static_would_block_env
        (classified_request static_would_block_env
          (sample_received "GET /static/a.txt HTTP/1.1\r\n\r\n".toList) World.init)
        World.init).2.2.trace = 4
    ∧ (send_file 256 static_would_block_env
        (classified_request static_would_block_env
          (sample_received "GET /static/a.txt HTTP/1.1\r\n\r\n".toList) World.init)
        World.init).2.2.trace.drop 5
      = [Event.sendfile 0 4, Event.sendfile_failed, Event.epoll_remove, Event.io_destroy,
          Event.close_socket, Event.free] := by
  decide

/-! ## Dynamic transfer -/

/-- Claim C10, evaluated on the code, which does not resume the drain. The 6-byte file "abcdef" is read into the
staging buffer in one chunk; the first `send` takes "ab" and the second would block, which
leaves `send_pos = 2`, `send_len = 6`, `file_pos = 6`. At the next write-ready event
`handle_output` first calls `connection_complete_async_io`: no read is in flight, the
poll returns 0 and the function takes `send_len` and the advance of `file_pos` from the
uninitialised `events[0]` and sets `send_pos` to 0. If `events[0]` holds zeros, the four
bytes "cdef" are never sent; if it still holds the completion of the read (`res = 6`), the
chunk is sent again from its start and `file_pos` becomes 12. Without the would-block the
same transfer sends "abcdef". -/
theorem C10_suspended_drain_is_not_resumed :
    transfer_summary (abcdef_transfer (drain_would_block_env { res := 0, res2 := 0 }) 1)
      = some ("ab".toList, 2, 6, 6)
    ∧ transfer_summary (abcdef_transfer (drain_would_block_env { res := 0, res2 := 0 }) 2)
      = some ("ab".toList, 0, 0, 6)
    ∧ transfer_summary (abcdef_transfer (drain_would_block_env { res := 0, res2 := 0 }) 3)
      = some ("ab".toList, 0, 0, 6)
    ∧ transfer_summary (abcdef_transfer (drain_would_block_env { res := 6, res2 := 0 }) 1)
      = some ("ab".toList, 2, 6, 6)
    ∧ transfer_summary (abcdef_transfer (drain_would_block_env { res := 6, res2 := 0 }) 2)
      = some ("ababcdef".toList, 6, 6, 12)
    ∧ transfer_summary
        (abcdef_transfer
          (sample_env [] none (fun _ => none) always_accept always_accept
            (fun _ => PollReply.complete)) 1)
      = some ("abcdef".toList, 6, 6, 6) := by
  refine ⟨?_, ?_, ?_, ?_, ?_, ?_⟩ <;> decide

/-! ## A poll that finds no completed read -/

/-- Claim C11, evaluated on the code, which submits a second read while the first is in
flight. The 6-byte file "abcdef" is requested; `send_file` submits the read of offset 0,
length 6. At the first write-ready event the poll returns 0 events: the read is still in
flight. `connection_complete_async_io` goes on with the uninitialised `events[0]` (zeros
here), which leaves `send_pos = send_len = 0` and `file_pos = 0`, and
`connection_send_dynamic` then calls `connection_start_async_io`: the last three calls
of the event are `io_getevents`, `io_submit` and `epoll_ctl`, and two reads are in flight. -/
theorem C11_second_read_submitted_while_first_in_flight :
    (exchange (early_poll_env { res := 0, res2 := 0 }) 0).map
        (fun cw => (cw.2.in_flight, submitted_reads cw.2.trace))
      = some ([(0, 6)], [(0, 6)])
    ∧ (exchange (early_poll_env { res := 0, res2 := 0 }) 1).map
        (fun cw => (cw.2.in_flight, submitted_reads cw.2.trace))
      = some ([(0, 6), (0, 6)], [(0, 6), (0, 6)])
    ∧ (exchange (early_poll_env { res := 0, res2 := 0 }) 1).map
        (fun cw => last_events 3 cw.2.trace)
      = some [Event.io_getevents, Event.io_submit 0 6, Event.epoll_mod_out]
    ∧ (exchange (early_poll_env { res := 0, res2 := 1 }) 1).map
        (fun cw => cw.2.in_flight)
      = some [(0, 6), (0, 6)] := by
  refine ⟨?_, ?_, ?_, ?_⟩ <;> decide

/-! ## What the output handler never does -/

theorem sys_io_getevents_trace (env : Env) (w : World) (buf : List Char) :
    (sys_io_getevents env w buf).2.2.2.trace = w.trace ++ [Event.io_getevents] := by
  unfold sys_io_getevents
  split <;> rfl

theorem connection_complete_async_io_trace (env : Env) (conn : connection) (w : World) :
    (connection_complete_async_io env conn w).2.trace = w.trace ++ [Event.io_getevents] := by
  have h := sys_io_getevents_trace env w conn.send_buffer
  unfold connection_complete_async_io
  rcases hx : sys_io_getevents env w conn.send_buffer with ⟨ret, ev, buf, w1⟩
  rw [hx] at h
  simp only
  split_ifs <;> exact h

theorem connection_start_async_io_teardown (BUFSIZ : Nat) (env : Env) (conn : connection)
    (w : World) :
    (connection_start_async_io BUFSIZ env conn w).2.trace.filter is_teardown
      = w.trace.filter is_teardown := by
  unfold connection_start_async_io
  simp only
  split_ifs <;> simp [World.log, List.filter_append, is_teardown]

theorem sys_send_teardown (env : Env) (w : World) (buf : List Char) (pos len : Nat) :
    (sys_send env w buf pos len).2.trace.filter is_teardown = w.trace.filter is_teardown := by
  unfold sys_send
  split <;> simp [List.filter_append, is_teardown]

/-- The function `connection_send_dynamic` never calls `connection_remove`. -/
theorem connection_send_dynamic_teardown (BUFSIZ : Nat) (env : Env) :
    ∀ (fuel : Nat) (conn : connection) (w : World) (r : Int × connection × World),
      connection_send_dynamic BUFSIZ env fuel conn w = some r →
      r.2.2.trace.filter is_teardown = w.trace.filter is_teardown := by
  intro fuel
  induction fuel with
  | zero =>
    intro conn w r h
    simp [connection_send_dynamic] at h
  | succ fuel ih =>
    intro conn w r h
    rw [connection_send_dynamic] at h
    have hsend := sys_send_teardown env w conn.send_buffer conn.send_pos
      (conn.send_len - conn.send_pos)
    rcases hx : sys_send env w conn.send_buffer conn.send_pos
      (conn.send_len - conn.send_pos) with ⟨res, w1⟩
    rw [hx] at hsend h
    have hstart := connection_start_async_io_teardown BUFSIZ env conn w
    rcases hy : connection_start_async_io BUFSIZ env conn w with ⟨c2, w2⟩
    rw [hy] at hstart h
    simp only at hsend hstart h
    split_ifs at h with h1 h2 h3
    · cases res with
      | none =>
        simp only at h
        split_ifs at h <;>
        · cases h
          exact hsend
      | some n =>
        simp only at h
        rw [ih _ _ _ h]
        exact hsend
    · cases h
      exact hstart
    · cases h
      rfl
    · cases h
      rfl

/-- The function `handle_output` never calls `connection_remove`. -/
theorem handle_output_teardown (BUFSIZ : Nat) (env : Env) (fuel : Nat) (conn : connection)
    (w : World) (r : connection × World)
    (h : handle_output BUFSIZ env fuel conn w = some r) :
    r.2.trace.filter is_teardown = w.trace.filter is_teardown := by
  unfold handle_output at h
  have hc := connection_complete_async_io_trace env conn w
  rcases hx : connection_complete_async_io env conn w with ⟨c1, w1⟩
  rw [hx] at hc h
  simp only at hc h
  cases hd : connection_send_dynamic BUFSIZ env fuel c1 w1 with
  | none => rw [hd] at h; cases h
  | some q =>
    have ht := connection_send_dynamic_teardown BUFSIZ env fuel c1 w1 q hd
    obtain ⟨ret, c2, w2⟩ := q
    rw [hd] at h
    simp only at h ht
    have hw1 : w1.trace.filter is_teardown = w.trace.filter is_teardown := by
      rw [hc]
      simp [List.filter_append, is_teardown]
    split_ifs at h <;>
    · cases h
      exact ht.trans hw1

/-- Claim C12, evaluated on the code, which never destroys a dynamic connection. For every
environment, every connection and every number `k` of write-ready events, the calls of
`handle_output` add no event of `connection_remove` to the log: the connection stays in
the epoll set, its socket stays open and its asynchronous context is kept, also after the
event that drains the final chunk and sets `STATE_DATA_SENT`. A read-ready event
delivered to a connection in `STATE_DATA_SENT` changes nothing either: `handle_input`
returns at once through its `default` branch. -/
theorem C12_dynamic_connection_is_never_destroyed (BUFSIZ : Nat) (env : Env) (fuel : Nat)
    (k : Nat) (conn : connection) (w : World) (conn1 : connection) (w1 : World)
    (h : write_ready_events BUFSIZ env fuel k conn w = some (conn1, w1)) :
    w1.trace.filter is_teardown = w.trace.filter is_teardown
    ∧ (conn1.state = STATE_DATA_SENT →
        handle_input BUFSIZ env 1 conn1 w1 = some (conn1, w1)) := by
  constructor
  · induction k generalizing conn w with
    | zero =>
      simp only [write_ready_events, Option.some.injEq, Prod.mk.injEq] at h
      rw [h.2]
    | succ k ih =>
      rw [write_ready_events] at h
      cases hx : handle_output BUFSIZ env fuel conn w with
      | none => rw [hx] at h; cases h
      | some r =>
        obtain ⟨c2, w2⟩ := r
        rw [hx] at h
        simp only at h
        rw [ih c2 w2 h]
        exact handle_output_teardown BUFSIZ env fuel conn w (c2, w2) hx
  · intro hst
    simp [handle_input, handle_input_turn, hst]

/-- Claim C12, instance: the 6-byte file "abcdef" with an 8-byte staging buffer. The first
write-ready event drains the only chunk with `file_pos = file_size = 6` and sets
`STATE_DATA_SENT`; no event of `connection_remove` is in the log, after this event and
after two more. -/
theorem C12_dynamic_connection_is_never_destroyed_witness :
    (abcdef_transfer
        (sample_env [] none (fun _ => none) always_accept always_accept
          (fun _ => PollReply.complete)) 1).map
        (fun cw => (cw.1.state, cw.1.file_pos, cw.1.file_size, sent_bytes cw.2.trace))
      = some (STATE_DATA_SENT, 6, 6, "abcdef".toList)
    ∧ ∃ (conn1 : connection) (w1 : World),
        abcdef_transfer
          (sample_env [] none (fun _ => none) always_accept always_accept
            (fun _ => PollReply.complete)) 3 = some (conn1, w1)
        ∧ w1.trace.filter is_teardown = [] := by
  refine ⟨by decide, ?_⟩
  have hsome : (abcdef_transfer
      (sample_env [] none (fun _ => none) always_accept always_accept
        (fun _ => PollReply.complete)) 3).isSome = true := by decide
  obtain ⟨⟨conn1, w1⟩, h1⟩ := Option.isSome_iff_exists.mp hsome
  refine ⟨conn1, w1, h1, ?_⟩
  rw [(C12_dynamic_connection_is_never_destroyed 8 _ 9 3 _ _ conn1 w1 h1).1]
  decide

/-! ## Asynchronous I/O errors -/

/-- Claim C13, evaluated on the code, which only sets the state on an asynchronous I/O
error. The 6-byte file "abcdef" is requested; the header has 97 bytes.

* The poll fails (`io_getevents` returns a negative value) at the first write-ready event:
  the state becomes `STATE_CONNECTION_CLOSED`, but `handle_output` goes on to
  `connection_send_dynamic`, which sends the 97 bytes still staged and submits a new
  read; the file is not closed and nothing of `connection_remove` happens.
* The completed read is reported with `res2 = 5`: the same.
* `io_submit` fails in `connection_start_async_io`, called by `send_file`: the state
  becomes `STATE_CONNECTION_CLOSED` and the file is closed, but the socket stays open and
  the context is kept; the next write-ready event overwrites the state and submits a
  read on the closed file. -/
theorem C13_async_error_is_not_fatal :
    exchange_summary (exchange
        (dynamic_env "abcdef".toList always_accept (fun _ => true)
          (polls [PollReply.error]) { res := 0, res2 := 0 }) 0)
      = some (STATE_REQUEST_RECEIVED, [], 0, [(0, 6)], 97)
    ∧ exchange_summary (exchange
        (dynamic_env "abcdef".toList always_accept (fun _ => true)
          (polls [PollReply.error]) { res := 0, res2 := 0 }) 1)
      = some (STATE_CONNECTION_CLOSED, [], 0, [(0, 6), (0, 6)], 194)
    ∧ exchange_summary (exchange
        (dynamic_env "abcdef".toList always_accept (fun _ => true)
          (polls [PollReply.failed 0 5]) { res := 0, res2 := 0 }) 1)
      = some (STATE_CONNECTION_CLOSED, [], 0, [(0, 6), (0, 6)], 194)
    ∧ exchange_summary (exchange
        (dynamic_env "abcdef".toList always_accept (fun i => decide (i ≠ 0))
          (polls []) { res := 0, res2 := 0 }) 0)
      = some (STATE_CONNECTION_CLOSED, [], 1, [], 97)
    ∧ exchange_summary (exchange
        (dynamic_env "abcdef".toList always_accept (fun i => decide (i ≠ 0))
          (polls []) { res := 0, res2 := 0 }) 1)
      = some (STATE_SENDING_DATA, [], 1, [(0, 6)], 97) := by
  refine ⟨?_, ?_, ?_, ?_, ?_⟩ <;> rfl

/-! ## Release of the file, of the socket and of the context -/

/-- Claim C14, evaluated on the code, which closes the file only on errors. In each line
`open` and `fstat` have succeeded; the summary gives the final state, the events of
`connection_remove`, and the number of `close(conn->fd)`.

* Static transfer completing: the connection is removed and the file was closed 0 times.
* Static transfer suspended by would-block: removed, closed 0 times.
* Static transfer failing in `sendfile`: removed, closed once.
* Dynamic transfer completing: neither removed nor closed.
* Dynamic transfer failing in `io_submit`: closed once, not removed. -/
theorem C14_file_is_not_closed_on_success :
    exchange_summary (exchange (static_env always_accept (fun _ => SockReply.accept 4)) 0)
      = some (STATE_DATA_SENT, remove_events, 0, [], 98)
    ∧ exchange_summary (exchange (static_env always_accept (accept_then_block 4)) 0)
      = some (STATE_SENDING_DATA, remove_events, 0, [], 98)
    ∧ exchange_summary (exchange
        (static_env always_accept
          (fun i => if i = 0 then SockReply.accept 4 else SockReply.error)) 0)
      = some (STATE_CONNECTION_CLOSED, remove_events, 1, [], 98)
    ∧ exchange_summary (exchange
        (dynamic_env "abcdef".toList always_accept (fun _ => true) (polls [])
          { res := 0, res2 := 0 }) 1)
      = some (STATE_DATA_SENT, [], 0, [(0, 6)], 103)
    ∧ exchange_summary (exchange
        (dynamic_env "abcdef".toList always_accept (fun _ => false) (polls [])
          { res := 0, res2 := 0 }) 0)
      = some (STATE_CONNECTION_CLOSED, [], 1, [], 97) := by
  refine ⟨?_, ?_, ?_, ?_, ?_⟩ <;> rfl

/-- Claim C15, evaluated on the code, which enters `connection_remove` a second time when
a call that removes the connection has a caller that removes it too. The second
`w_epoll_remove_ptr` is made on the closed socket and fails, and `DIE` ends the process
there: the log of the process holds two removals from the epoll set and one `free`.

* `send` fails while the 404 reply is sent: `connection_send_data` removes the connection
  and returns -1, and `handle_input` calls `connection_remove` again.
* `send` fails while the header of a static file is sent: `connection_send_data` removes
  the connection; `send_file` goes on to `connection_send_static`, where `sendfile` fails
  on the closed socket and the file is closed, and calls `connection_remove` again.
* `recv` fails: `receive_data` removes the connection; `handle_input` goes on, and in
  `connection_send_data` the call `get_peer_address` fails on the closed socket and
  `connection_remove` is called again.

When no call fails, the connection is removed once and the log of the process is the whole
log. -/
theorem C15_connection_remove_entered_twice :
    (exchange (unknown_env (fun _ => RecvReply.data "GET /other/x HTTP/1.1\r\n\r\n".toList)
        (some "/other/x".toList) (fun _ => SockReply.error)) 0).map
        (fun cw => process_log false cw.2.trace)
      = some ([Event.get_peer_address, Event.recv "GET /other/x HTTP/1.1\r\n\r\n".toList,
          Event.http_parser_execute "GET /other/x HTTP/1.1\r\n\r\n".toList,
          Event.get_peer_address, Event.send_failed] ++ remove_events
            ++ [Event.epoll_remove])
    ∧ (exchange (static_env (fun _ => SockReply.error) (fun _ => SockReply.error)) 0).map
        (fun cw => process_log false cw.2.trace)
      = some ([Event.get_peer_address, Event.recv "GET /static/a.txt HTTP/1.1\r\n\r\n".toList,
          Event.http_parser_execute "GET /static/a.txt HTTP/1.1\r\n\r\n".toList,
          Event.open_file "static/a.txt".toList, Event.fstat,
          Event.get_peer_address, Event.send_failed] ++ remove_events
            ++ [Event.sendfile_failed, Event.close_file, Event.epoll_remove])
    ∧ (exchange (failed_recv_env RecvReply.error) 0).map
        (fun cw => process_log false cw.2.trace)
      = some ([Event.get_peer_address, Event.recv_failed] ++ remove_events
            ++ [Event.http_parser_execute [], Event.get_peer_address, Event.epoll_remove])
    ∧ (exchange (unknown_env (fun _ => RecvReply.data "GET /other/x HTTP/1.1\r\n\r\n".toList)
        (some "/other/x".toList) (fun _ => SockReply.error)) 0).map
        (fun cw => ((process_log false cw.2.trace).count Event.epoll_remove,
          (process_log false cw.2.trace).count Event.free))
      = some (2, 1)
    ∧ (exchange (unknown_env (fun _ => RecvReply.data "GET /other/x HTTP/1.1\r\n\r\n".toList)
        (some "/other/x".toList) always_accept) 0).map
        (fun cw => (decide (process_log false cw.2.trace = cw.2.trace),
          cw.2.trace.count Event.epoll_remove, cw.2.trace.count Event.free))
      = some (true, 1, 1) := by
  refine ⟨?_, ?_, ?_, ?_, ?_⟩ <;> decide

/-- Claim C16, evaluated on the code, which goes on after a failed receive. When the first
`recv` fails, or returns 0, `receive_data` removes the connection, leaves its loop with
`break` and writes `recv_len` and the state `STATE_REQUEST_RECEIVED` to the freed
connection; the first turn of `handle_input` ends with `break`. The second turn runs the
parser on the freed connection, sets the state `STATE_SENDING_404` and ends with `break`
as well. The third turn stages the 404 reply and enters `connection_send_data`, where
`get_peer_address` fails on the closed socket and `connection_remove` is called again:
its `w_epoll_remove_ptr` fails and `DIE` ends the process. No file is opened and nothing
is sent. -/
theorem C16_handle_input_goes_on_after_failed_recv :
    (fun r : Bool × connection × World => (r.1, r.2.1.state, r.2.1.recv_len, r.2.2.trace))
        (input_turns (failed_recv_env RecvReply.error) 1)
      = (true, STATE_REQUEST_RECEIVED, 0,
          [Event.get_peer_address, Event.recv_failed] ++ remove_events)
    ∧ (fun r : Bool × connection × World => (r.1, r.2.1.state, r.2.1.recv_len, r.2.2.trace))
        (input_turns (failed_recv_env RecvReply.error) 2)
      = (true, STATE_SENDING_404, 0,
          [Event.get_peer_address, Event.recv_failed] ++ remove_events
            ++ [Event.http_parser_execute []])
    ∧ (exchange (failed_recv_env RecvReply.error) 0).map
        (fun cw => process_log false cw.2.trace)
      = some ([Event.get_peer_address, Event.recv_failed] ++ remove_events
            ++ [Event.http_parser_execute [], Event.get_peer_address, Event.epoll_remove])
    ∧ (fun r : Bool × connection × World => (r.1, r.2.1.state, r.2.1.recv_len, r.2.2.trace))
        (input_turns (failed_recv_env (RecvReply.data [])) 1)
      = (true, STATE_REQUEST_RECEIVED, 0,
          [Event.get_peer_address, Event.recv []] ++ remove_events)
    ∧ (fun r : Bool × connection × World => (r.1, r.2.1.state, r.2.1.recv_len, r.2.2.trace))
        (input_turns (failed_recv_env (RecvReply.data [])) 2)
      = (true, STATE_SENDING_404, 0,
          [Event.get_peer_address, Event.recv []] ++ remove_events
            ++ [Event.http_parser_execute []])
    ∧ (exchange (failed_recv_env (RecvReply.data [])) 0).map
        (fun cw => process_log false cw.2.trace)
      = some ([Event.get_peer_address, Event.recv []] ++ remove_events
            ++ [Event.http_parser_execute [], Event.get_peer_address, Event.epoll_remove]) := by
  refine ⟨?_, ?_, ?_, ?_, ?_, ?_⟩ <;> rfl

/-! ## Bounds of the position fields -/

/-- Claim C17, evaluated on the code, which lets `file_pos` pass `file_size`. The 6-byte
file "abcdef" is requested and `file_pos` starts at 0. The first poll finds the read not
yet complete, which makes `handle_output` submit the same read again (zeros in the
uninitialised `events[0]`); both reads then complete, each with the 6 bytes requested,
and each completion adds 6 to `file_pos`: after three write-ready events `file_pos` is
12 and `file_size` is 6. With `res2 = 1` in the uninitialised `events[0]` the outcome is
the same; with the stale completion (`res = 6`) there `file_pos` is 12 after two events. -/
theorem C17_file_pos_exceeds_file_size :
    (exchange (early_poll_env { res := 0, res2 := 0 }) 0).map
        (fun cw => (cw.1.file_pos, cw.1.file_size, submitted_reads cw.2.trace))
      = some (0, 6, [(0, 6)])
    ∧ (exchange (early_poll_env { res := 0, res2 := 0 }) 1).map
        (fun cw => (cw.1.file_pos, cw.1.file_size, submitted_reads cw.2.trace))
      = some (0, 6, [(0, 6), (0, 6)])
    ∧ (exchange (early_poll_env { res := 0, res2 := 0 }) 2).map
        (fun cw => (cw.1.file_pos, cw.1.file_size, submitted_reads cw.2.trace))
      = some (6, 6, [(0, 6), (0, 6)])
    ∧ (exchange (early_poll_env { res := 0, res2 := 0 }) 3).map
        (fun cw => (cw.1.file_pos, cw.1.file_size, submitted_reads cw.2.trace))
      = some (12, 6, [(0, 6), (0, 6)])
    ∧ (exchange (early_poll_env { res := 0, res2 := 1 }) 3).map
        (fun cw => (cw.1.file_pos, cw.1.file_size, submitted_reads cw.2.trace))
      = some (12, 6, [(0, 6), (0, 6)])
    ∧ (exchange (early_poll_env { res := 6, res2 := 0 }) 2).map
        (fun cw => (cw.1.file_pos, cw.1.file_size, submitted_reads cw.2.trace))
      = some (12, 6, [(0, 6)]) := by
  refine ⟨?_, ?_, ?_, ?_, ?_, ?_⟩ <;> decide

/-- Claim C18, evaluated on the code, which takes `send_len` from `events[0].res` whatever
the poll returned. With `BUFSIZ = 256`:

* the poll returns 0 events and the uninitialised `events[0]` holds `res = 100000`,
  `res2 = 0`: `connection_complete_async_io` sets `send_len = 100000`, and
  `connection_send_dynamic` then moves `send_pos` up to 100000;
* the read completes with the error code `res = -5`, `res2 = 0`:
  `connection_complete_async_io` sets `send_len = 2 ^ 64 - 5`. -/
theorem C18_send_len_exceeds_BUFSIZ :
    (exchange (early_poll_env { res := 100000, res2 := 0 }) 0).map
        (fun cw => (cw.1.send_pos, cw.1.send_len))
      = some (0, 97)
    ∧ (exchange (early_poll_env { res := 100000, res2 := 0 }) 0).map
        (fun cw => ((connection_complete_async_io
            (early_poll_env { res := 100000, res2 := 0 }) cw.1 cw.2).1.send_pos,
          (connection_complete_async_io
            (early_poll_env { res := 100000, res2 := 0 }) cw.1 cw.2).1.send_len))
      = some (0, 100000)
    ∧ (exchange (early_poll_env { res := 100000, res2 := 0 }) 1).map
        (fun cw => (cw.1.send_pos, cw.1.send_len))
      = some (100000, 100000)
    ∧ (exchange
        (dynamic_env "abcdef".toList always_accept (fun _ => true)
          (polls [PollReply.failed (-5) 0]) { res := 0, res2 := 0 }) 0).map
        (fun cw => ((connection_complete_async_io
            (dynamic_env "abcdef".toList always_accept (fun _ => true)
              (polls [PollReply.failed (-5) 0]) { res := 0, res2 := 0 }) cw.1 cw.2).1.send_pos,
          (connection_complete_async_io
            (dynamic_env "abcdef".toList always_accept (fun _ => true)
              (polls [PollReply.failed (-5) 0]) { res := 0, res2 := 0 }) cw.1 cw.2).1.send_len))
      = some (0, 2 ^ 64 - 5) := by
  refine ⟨?_, ?_, ?_, ?_⟩ <;> decide

/-! ## The state `STATE_DATA_SENT` -/

/-- Claim C22, evaluated on the code, which sets `STATE_DATA_SENT` when the last chunk has
been read, before any byte of it is sent. The 6-byte file "abcdef" is requested and the
header (97 bytes) is sent.

* The poll of the first write-ready event finds the read complete:
  `connection_complete_async_io` sets `file_pos = 6`, `send_pos = 0`, `send_len = 6` and
  the state `STATE_DATA_SENT`, with no byte of the file sent.
* In the same event the socket takes 2 bytes and then would block: `handle_output`
  returns with the state `STATE_DATA_SENT` and `send_pos = 2 < send_len = 6`; 99 bytes
  have been sent, the header and "ab".
* When the first poll finds the read not yet complete (zeros in the uninitialised
  `events[0]`), the state after the third event is `STATE_DATA_SENT` with
  `file_pos = 12` and `file_size = 6`. -/
theorem C22_data_sent_before_drain :
    (exchange (dynamic_env "abcdef".toList (header_then_block 2) (fun _ => true) (polls [])
        { res := 0, res2 := 0 }) 0).map
        (fun cw => (positions (connection_complete_async_io
          (dynamic_env "abcdef".toList (header_then_block 2) (fun _ => true) (polls [])
            { res := 0, res2 := 0 }) cw.1 cw.2).1,
          (sent_bytes (connection_complete_async_io
            (dynamic_env "abcdef".toList (header_then_block 2) (fun _ => true) (polls [])
              { res := 0, res2 := 0 }) cw.1 cw.2).2.trace).length))
      = some ((STATE_DATA_SENT, 6, 6, 0, 6), 97)
    ∧ (exchange (dynamic_env "abcdef".toList (header_then_block 2) (fun _ => true) (polls [])
        { res := 0, res2 := 0 }) 1).map
        (fun cw => (positions cw.1, (sent_bytes cw.2.trace).length,
          (sent_bytes cw.2.trace).drop 97))
      = some ((STATE_DATA_SENT, 6, 6, 2, 6), 99, "ab".toList)
    ∧ (exchange (early_poll_env { res := 0, res2 := 0 }) 3).map (fun cw => positions cw.1)
      = some (STATE_DATA_SENT, 12, 6, 6, 6) := by
  refine ⟨?_, ?_, ?_⟩ <;> rfl

/-! ## The fields that `connection_create` leaves as they are -/

/-- Claim C23, evaluated on the code, which initialises only the socket, the four buffers
and the state. For every content `garbage` of the memory that `malloc` returns, the
connection has the state `STATE_INITIAL` and zeroed buffers, as claimed, but `have_path`,
`recv_len`, `file_pos`, `send_len` and `send_pos` are those of `garbage`. No later
statement sets `file_pos` before the first `io_submit`: over memory with `file_pos = 4`
the first read of the 6-byte file "abcdef" is submitted at offset 4 with length 2, and
the bytes sent after the header are "ef"; over memory with `file_pos = 0` the read is at
offset 0 with length 6 and the bytes are "abcdef". -/
theorem C23_connection_create_keeps_garbage :
    (∀ (BUFSIZ : Nat) (garbage : connection) (sockfd : Int),
      (connection_create BUFSIZ garbage sockfd).state = STATE_INITIAL
      ∧ (connection_create BUFSIZ garbage sockfd).sockfd = sockfd
      ∧ (connection_create BUFSIZ garbage sockfd).recv_buffer = zeroed BUFSIZ
      ∧ (connection_create BUFSIZ garbage sockfd).send_buffer = zeroed BUFSIZ
      ∧ (connection_create BUFSIZ garbage sockfd).request_path = zeroed BUFSIZ
      ∧ (connection_create BUFSIZ garbage sockfd).filename = zeroed BUFSIZ
      ∧ (connection_create BUFSIZ garbage sockfd).have_path = garbage.have_path
      ∧ (connection_create BUFSIZ garbage sockfd).recv_len = garbage.recv_len
      ∧ (connection_create BUFSIZ garbage sockfd).file_pos = garbage.file_pos
      ∧ (connection_create BUFSIZ garbage sockfd).send_len = garbage.send_len
      ∧ (connection_create BUFSIZ garbage sockfd).send_pos = garbage.send_pos)
    ∧ (connection_create 256 stale_garbage 5).file_pos = 4
    ∧ (exchange_over stale_garbage
        (dynamic_env "abcdef".toList always_accept (fun _ => true) (polls [])
          { res := 0, res2 := 0 }) 1).map
        (fun cw => (submitted_reads cw.2.trace, (sent_bytes cw.2.trace).drop 97))
      = some ([(4, 2)], "ef".toList)
    ∧ (exchange_over sample_garbage
        (dynamic_env "abcdef".toList always_accept (fun _ => true) (polls [])
          { res := 0, res2 := 0 }) 1).map
        (fun cw => (submitted_reads cw.2.trace, (sent_bytes cw.2.trace).drop 97))
      = some ([(0, 6)], "abcdef".toList) := by
  refine ⟨fun BUFSIZ garbage sockfd => ?_, ?_, ?_, ?_⟩
  · simp [connection_create]
  · rfl
  · decide
  · decide

/-! ## Termination of the dispatch loop of `handle_input` -/

/-- When `send_file` returns 0 it has set the state `STATE_SENDING_404`. -/
theorem send_file_zero_state (BUFSIZ : Nat) (env : Env) (conn : connection) (w : World)
    (h : (send_file BUFSIZ env conn w).1 = 0) :
    (send_file BUFSIZ env conn w).2.1.state = STATE_SENDING_404 := by
  unfold send_file at h ⊢
  rcases hopen : connection_open_file env conn w with ⟨rc, conn1, w1⟩
  rw [hopen] at h
  simp only at h ⊢
  by_cases hrc : rc = 0
  · simp only [hrc, if_true] at h
    rcases hsend : connection_send_data env (connection_prepare_send_reply_header BUFSIZ conn1) w1
      with ⟨r, w2⟩
    rw [hsend] at h
    simp only at h
    cases hres : (connection_prepare_send_reply_header BUFSIZ conn1).res_type <;>
      rw [hres] at h <;> simp at h
  · simp [hrc]

/-- A turn of the loop of `handle_input` that ends with `break` started in `STATE_INITIAL`
or in `STATE_REQUEST_RECEIVED`; in the second case it has set `STATE_SENDING_404`, in the
first the state is `STATE_REQUEST_RECEIVED` or, when `get_peer_address` failed,
`STATE_RECEIVING_DATA`. -/
theorem handle_input_turn_break (BUFSIZ : Nat) (env : Env) (conn : connection) (w : World)
    (h : (handle_input_turn BUFSIZ env conn w).1 = true) :
    (conn.state = STATE_INITIAL
      ∧ ((handle_input_turn BUFSIZ env conn w).2.1.state = STATE_REQUEST_RECEIVED
        ∨ (handle_input_turn BUFSIZ env conn w).2.1.state = STATE_RECEIVING_DATA))
    ∨ (conn.state = STATE_REQUEST_RECEIVED
      ∧ (handle_input_turn BUFSIZ env conn w).2.1.state = STATE_SENDING_404) := by
  unfold handle_input_turn at h ⊢
  cases hs : conn.state <;> rw [hs] at h <;> simp only at h ⊢
  · left
    refine ⟨trivial, ?_⟩
    unfold receive_data
    rcases get_peer_address env w with ⟨ok, w1⟩
    cases ok <;> simp
  · simp at h
  · right
    refine ⟨trivial, ?_⟩
    rcases hp : parse_header env conn w with ⟨conn1, w1⟩
    rw [hp] at h
    simp only at h ⊢
    by_cases hpath : conn1.have_path = 0
    · simp [hpath]
    · simp only [hpath, if_false] at h ⊢
      by_cases hres : (connection_get_resource_type conn1).res_type = RESOURCE_TYPE_STATIC
          ∨ (connection_get_resource_type conn1).res_type = RESOURCE_TYPE_DYNAMIC
      · simp only [hres, if_true] at h ⊢
        have hz := send_file_zero_state BUFSIZ env (connection_get_resource_type conn1) w1
        rcases hsf : send_file BUFSIZ env (connection_get_resource_type conn1) w1
          with ⟨rc, conn3, w2⟩
        rw [hsf] at h hz
        simp only at h hz ⊢
        by_cases hrc : rc = 0
        · simp only [hrc, ne_eq, not_true_eq_false, if_false]
          exact hz hrc
        · simp [hrc] at h
      · simp [hres]
  · simp at h
  · simp at h
  · simp at h
  · simp at h

/-- A turn of the loop of `handle_input` that starts in `STATE_SENDING_404` or in
`STATE_RECEIVING_DATA` ends with `return`. -/
theorem handle_input_turn_return (BUFSIZ : Nat) (env : Env) (conn : connection) (w : World)
    (h : conn.state = STATE_SENDING_404 ∨ conn.state = STATE_RECEIVING_DATA) :
    (handle_input_turn BUFSIZ env conn w).1 = false := by
  cases hb : (handle_input_turn BUFSIZ env conn w).1 with
  | false => rfl
  | true =>
    rcases handle_input_turn_break BUFSIZ env conn w hb with ⟨h1, _⟩ | ⟨h1, _⟩ <;>
      rcases h with h | h <;> rw [h] at h1 <;> cases h1

/-- One turn of `handle_input` with fuel to spare: the loop returns now or goes on. -/
theorem handle_input_succ (BUFSIZ : Nat) (env : Env) (fuel : Nat) (conn : connection)
    (w : World) :
    handle_input BUFSIZ env (fuel + 1) conn w
      = if (handle_input_turn BUFSIZ env conn w).1 = true then
          handle_input BUFSIZ env fuel (handle_input_turn BUFSIZ env conn w).2.1
            (handle_input_turn BUFSIZ env conn w).2.2
        else some ((handle_input_turn BUFSIZ env conn w).2.1,
          (handle_input_turn BUFSIZ env conn w).2.2) := by
  rw [handle_input]
  rcases handle_input_turn BUFSIZ env conn w with ⟨b, conn1, w1⟩
  cases b <;> simp

/-- From `STATE_SENDING_404` or `STATE_RECEIVING_DATA` one turn is enough. -/
theorem handle_input_one_turn (BUFSIZ : Nat) (env : Env) (fuel : Nat) (conn : connection)
    (w : World) (h : conn.state = STATE_SENDING_404 ∨ conn.state = STATE_RECEIVING_DATA) :
    handle_input BUFSIZ env (fuel + 1) conn w
      = some ((handle_input_turn BUFSIZ env conn w).2.1,
          (handle_input_turn BUFSIZ env conn w).2.2) := by
  rw [handle_input_succ, handle_input_turn_return BUFSIZ env conn w h]
  simp

/-- From every state but `STATE_INITIAL` two turns are enough, and more fuel changes
nothing. -/
theorem handle_input_two_turns (BUFSIZ : Nat) (env : Env) (fuel : Nat) (conn : connection)
    (w : World) (h : conn.state ≠ STATE_INITIAL) :
    (handle_input BUFSIZ env 2 conn w).isSome = true
    ∧ handle_input BUFSIZ env (fuel + 2) conn w = handle_input BUFSIZ env 2 conn w := by
  rw [handle_input_succ BUFSIZ env (fuel + 1), handle_input_succ BUFSIZ env 1]
  cases hb : (handle_input_turn BUFSIZ env conn w).1 with
  | false => simp
  | true =>
    rcases handle_input_turn_break BUFSIZ env conn w hb with ⟨h1, _⟩ | ⟨_, h2⟩
    · exact absurd h1 h
    · simp only [if_true]
      rw [handle_input_one_turn BUFSIZ env fuel _ _ (Or.inl h2),
        handle_input_one_turn BUFSIZ env 0 _ _ (Or.inl h2)]
      simp

/-- From every state three turns are enough, and more fuel changes nothing. -/
theorem handle_input_three_turns (BUFSIZ : Nat) (env : Env) (fuel : Nat) (conn : connection)
    (w : World) :
    (handle_input BUFSIZ env 3 conn w).isSome = true
    ∧ handle_input BUFSIZ env (fuel + 3) conn w = handle_input BUFSIZ env 3 conn w := by
  by_cases hs : conn.state = STATE_INITIAL
  · rw [handle_input_succ BUFSIZ env (fuel + 2), handle_input_succ BUFSIZ env 2]
    cases hb : (handle_input_turn BUFSIZ env conn w).1 with
    | false => simp
    | true =>
      simp only [if_true]
      have hne : (handle_input_turn BUFSIZ env conn w).2.1.state ≠ STATE_INITIAL := by
        rcases handle_input_turn_break BUFSIZ env conn w hb with ⟨_, h2 | h2⟩ | ⟨_, h2⟩ <;>
          rw [h2] <;> simp
      have h2 := handle_input_two_turns BUFSIZ env fuel _
        (handle_input_turn BUFSIZ env conn w).2.2 hne
      exact ⟨h2.1, h2.2⟩
  · have h2 := handle_input_two_turns BUFSIZ env (fuel + 1) conn w hs
    have h3 := handle_input_two_turns BUFSIZ env 1 conn w hs
    refine ⟨?_, ?_⟩
    · rw [h3.2]; exact h3.1
    · rw [h2.2, h3.2]

/-- Claim C24. For every starting state of the connection and every answer of the
environment (receive, parse, open, send), the dispatch loop of `handle_input` returns
within three turns, and turns in reserve change nothing. Three turns are needed only from
`STATE_INITIAL`, through `STATE_REQUEST_RECEIVED` and `STATE_SENDING_404`. The dispatch is
a function of `conn->state`: the states without a `case` of their own
(`STATE_RECEIVING_DATA`, `STATE_SENDING_DATA`, `STATE_DATA_SENT`) are handled by
`default`, which returns at once and leaves the connection as it is. -/
theorem C24_handle_input_terminates (BUFSIZ : Nat) (env : Env) (conn : connection)
    (w : World) :
    (∃ r, handle_input BUFSIZ env 3 conn w = some r)
    ∧ (∀ fuel, 3 ≤ fuel →
        handle_input BUFSIZ env fuel conn w = handle_input BUFSIZ env 3 conn w)
    ∧ (handle_input BUFSIZ env 2 conn w = none →
        conn.state = STATE_INITIAL
        ∧ (handle_input_turn BUFSIZ env conn w).2.1.state = STATE_REQUEST_RECEIVED
        ∧ (handle_input_turn BUFSIZ env (handle_input_turn BUFSIZ env conn w).2.1
            (handle_input_turn BUFSIZ env conn w).2.2).2.1.state = STATE_SENDING_404)
    ∧ (conn.state = STATE_RECEIVING_DATA ∨ conn.state = STATE_SENDING_DATA
        ∨ conn.state = STATE_DATA_SENT →
        handle_input BUFSIZ env 1 conn w = some (conn, w)) := by
  refine ⟨?_, ?_, ?_, ?_⟩
  · exact Option.isSome_iff_exists.mp (handle_input_three_turns BUFSIZ env 0 conn w).1
  · intro fuel hfuel
    obtain ⟨k, rfl⟩ : ∃ k, fuel = k + 3 := ⟨fuel - 3, by omega⟩
    exact (handle_input_three_turns BUFSIZ env k conn w).2
  · intro hnone
    have hs : conn.state = STATE_INITIAL := by
      by_contra hne
      have h2 := (handle_input_two_turns BUFSIZ env 0 conn w hne).1
      rw [hnone] at h2
      simp at h2
    rw [handle_input_succ] at hnone
    cases hb : (handle_input_turn BUFSIZ env conn w).1 with
    | false => rw [hb] at hnone; simp at hnone
    | true =>
      rw [hb] at hnone
      simp only [if_true] at hnone
      rcases handle_input_turn_break BUFSIZ env conn w hb with ⟨_, h2 | h2⟩ | ⟨h1, _⟩
      · refine ⟨hs, h2, ?_⟩
        rw [handle_input_succ] at hnone
        cases hb2 : (handle_input_turn BUFSIZ env (handle_input_turn BUFSIZ env conn w).2.1
            (handle_input_turn BUFSIZ env conn w).2.2).1 with
        | false => rw [hb2] at hnone; simp at hnone
        | true =>
          rcases handle_input_turn_break BUFSIZ env _ _ hb2 with ⟨h3, _⟩ | ⟨_, h4⟩
          · rw [h2] at h3; cases h3
          · exact h4
      · rw [handle_input_one_turn BUFSIZ env 0 _ _ (Or.inr h2)] at hnone
        cases hnone
      · rw [hs] at h1; cases h1
  · intro hs
    rcases hs with hs | hs | hs <;> simp [handle_input, handle_input_turn, hs]

/-- Claim C24, instance: a request for `/other/x` on a fresh connection. Two turns are not
enough, three are; the turns start in `STATE_INITIAL`, `STATE_REQUEST_RECEIVED` and
`STATE_SENDING_404`. -/
theorem C24_handle_input_terminates_witness :
    handle_input 256
        (unknown_env (fun _ => RecvReply.data "GET /other/x HTTP/1.1\r\n\r\n".toList)
          (some "/other/x".toList) always_accept) 2
        (connection_create 256 sample_garbage 5) World.init = none
    ∧ (∃ r, handle_input 256
        (unknown_env (fun _ => RecvReply.data "GET /other/x HTTP/1.1\r\n\r\n".toList)
          (some "/other/x".toList) always_accept) 3
        (connection_create 256 sample_garbage 5) World.init = some r)
    ∧ (connection_create 256 sample_garbage 5).state = STATE_INITIAL := by
  have h := C24_handle_input_terminates 256
    (unknown_env (fun _ => RecvReply.data "GET /other/x HTTP/1.1\r\n\r\n".toList)
      (some "/other/x".toList) always_accept)
    (connection_create 256 sample_garbage 5) World.init
  have hnone : handle_input 256
      (unknown_env (fun _ => RecvReply.data "GET /other/x HTTP/1.1\r\n\r\n".toList)
        (some "/other/x".toList) always_accept) 2
      (connection_create 256 sample_garbage 5) World.init = none := by decide
  exact ⟨hnone, h.1, (h.2.2.1 hnone).1⟩

end Aws

/-! # Properties of the string functions of the mini C library -/

namespace MiniLibc

/-- The outer loop of `strstr` is not entered when the needle is at least as long as the
haystack. -/
theorem strstr_outer_not_entered (haystack needle : List Char) (s1 s2 fuel c : Nat)
    (h : s1 ≤ s2) : strstr_outer haystack needle s1 s2 fuel 0 c = none := by
  cases fuel with
  | zero => rfl
  | succ fuel =>
    have hlt : ¬ (((0 : Nat) : Int) < (s1 : Int) - (s2 : Int)) := by omega
    simp only [strstr_outer, hlt, if_false]

/-- Claim C19, evaluated on the code, which the claim does not describe: the loop of
`strstr` runs for `i < s1_length - s2_length`, so an occurrence that ends where the
haystack ends is never tried. `strstr("abc", "bc")` returns NULL although `"bc"` stands at
offset 1, and `strstr("abc", "abc")` returns NULL although the strings are equal; more
generally NULL is returned whenever the needle is at least as long as the haystack. An
occurrence that ends before the end of the haystack is found: `strstr("abcd", "bc")`
returns offset 1. -/
theorem C19_strstr_misses_occurrence_at_the_end :
    strstr "abc".toList "bc".toList = none
    ∧ ("abc".toList.drop 1).take (strlen "bc".toList) = "bc".toList
    ∧ strstr "abc".toList "abc".toList = none
    ∧ strstr "abcd".toList "bc".toList = some 1
    ∧ strstr "aab".toList "ab".toList = none
    ∧ strstr "aabc".toList "ab".toList = some 1
    ∧ (∀ haystack needle : List Char, strlen haystack ≤ strlen needle →
        strstr haystack needle = none) := by
  refine ⟨by decide, by decide, by decide, by decide, by decide, by decide, ?_⟩
  intro haystack needle h
  exact strstr_outer_not_entered haystack needle _ _ _ 0 h

/-- Claim C20, evaluated on the code, which the claim does not describe: the loop of
`strncmp` stops, with `flag` still 0, as soon as one of the strings ends, and nothing
after the loop compares the lengths. `strncmp("ab", "abc", 3)` and
`strncmp("abc", "ab", 3)` return 0 although the strings differ at index 2, within the
first 3 characters. Where both strings have a character the result is as claimed: the sign
of the first differing pair, and 0 when the first `len` characters agree. -/
theorem C20_strncmp_equates_string_with_its_extension :
    strncmp "ab".toList "abc".toList 3 = 0
    ∧ strncmp "abc".toList "ab".toList 3 = 0
    ∧ char_at "ab".toList 2 ≠ char_at "abc".toList 2
    ∧ strncmp [] "abc".toList 3 = 0
    ∧ strncmp "abc".toList "abd".toList 3 = -1
    ∧ strncmp "abd".toList "abc".toList 3 = 1
    ∧ strncmp "abc".toList "abd".toList 2 = 0
    ∧ strncmp "abc".toList "abc".toList 3 = 0 := by
  refine ⟨?_, ?_, ?_, ?_, ?_, ?_, ?_, ?_⟩ <;> decide

/-! ## The comparison `strcmp` -/

theorem char_at_cons_succ (x : Char) (s : List Char) (i : Nat) :
    char_at (x :: s) (i + 1) = char_at s i := by
  simp [char_at]

theorem char_at_cons_zero (x : Char) (s : List Char) : char_at (x :: s) 0 = x := by
  simp [char_at]

theorem char_at_nil (i : Nat) : char_at [] i = NUL := by
  simp [char_at]

theorem strlen_cons_of_ne (x : Char) (s : List Char) (h : x ≠ NUL) :
    strlen (x :: s) = strlen s + 1 := by
  simp [strlen, h]

theorem strcmp_loop_of_ne_zero (a b : List Char) (fuel : Nat) (flag : Int) (count : Nat)
    (h : flag ≠ 0) : strcmp_loop a b fuel flag count = (flag, count) := by
  cases fuel with
  | zero => rfl
  | succ fuel => simp [strcmp_loop, h]

theorem strcmp_loop_shift (x y : Char) (a b : List Char) (fuel : Nat) (flag : Int)
    (count : Nat) :
    strcmp_loop (x :: a) (y :: b) fuel flag (count + 1)
      = ((strcmp_loop a b fuel flag count).1, (strcmp_loop a b fuel flag count).2 + 1) := by
  induction fuel generalizing flag count with
  | zero => rfl
  | succ fuel ih =>
    simp only [strcmp_loop, char_at_cons_succ]
    split_ifs <;> first | rfl | exact ih _ _

theorem char_value_inj (c d : Char) (hc : c.toNat < 256) (hd : d.toNat < 256)
    (h : char_value c = char_value d) : c = d := by
  have hn : c.toNat = d.toNat := by
    unfold char_value at h
    split_ifs at h <;> omega
  rw [← Char.ofNat_toNat c, ← Char.ofNat_toNat d, hn]

theorem strcmp_nil_left (b : List Char) :
    strcmp [] b = if char_at b 0 = NUL then 0 else -1 := by
  simp [strcmp, strcmp_loop, strlen, char_at_nil]

theorem strcmp_nil_right (x : Char) (a : List Char) (hx : x ≠ NUL) :
    strcmp (x :: a) [] = 1 := by
  simp [strcmp, strcmp_loop, strlen, char_at_nil, char_at_cons_zero, hx]

theorem strcmp_loop_cons_cons (x y : Char) (a b : List Char) (fuel : Nat) (hx : x ≠ NUL)
    (hy : y ≠ NUL) :
    strcmp_loop (x :: a) (y :: b) (fuel + 1) 0 0
      = if char_value x < char_value y then (-1, 1)
        else if char_value x > char_value y then (1, 1)
        else ((strcmp_loop a b fuel 0 0).1, (strcmp_loop a b fuel 0 0).2 + 1) := by
  rw [strcmp_loop]
  simp only [char_at_cons_zero, hx, hy, or_self, if_true, if_false]
  by_cases hlt : char_value x < char_value y
  · have hgt : ¬ char_value x > char_value y := by omega
    simp [hlt, hgt, strcmp_loop_of_ne_zero]
  · by_cases hgt : char_value x > char_value y
    · simp [hlt, hgt, strcmp_loop_of_ne_zero]
    · simp only [hlt, hgt, if_false]
      exact strcmp_loop_shift x y a b fuel 0 0

theorem strcmp_cons_cons (x y : Char) (a b : List Char) (hx : x ≠ NUL) (hy : y ≠ NUL) :
    strcmp (x :: a) (y :: b)
      = if char_value x < char_value y then -1
        else if char_value x > char_value y then 1
        else strcmp a b := by
  unfold strcmp
  rw [strlen_cons_of_ne x a hx, strcmp_loop_cons_cons x y a b _ hx hy]
  by_cases hlt : char_value x < char_value y
  · simp [hlt]
  · by_cases hgt : char_value x > char_value y
    · simp [hlt, hgt]
    · simp only [hlt, hgt, if_false, char_at_cons_succ]

theorem is_c_string_head (x : Char) (a : List Char) (h : is_c_string (x :: a)) :
    x ≠ NUL ∧ x.toNat < 256 :=
  h x (List.mem_cons_self x a)

theorem is_c_string_tail (x : Char) (a : List Char) (h : is_c_string (x :: a)) :
    is_c_string a :=
  fun c hc => h c (List.mem_cons_of_mem x hc)

theorem strcmp_range (a b : List Char) (ha : is_c_string a) (hb : is_c_string b) :
    strcmp a b = -1 ∨ strcmp a b = 0 ∨ strcmp a b = 1 := by
  induction a generalizing b with
  | nil => rw [strcmp_nil_left]; split_ifs <;> simp
  | cons x a ih =>
    have hx := is_c_string_head x a ha
    cases b with
    | nil => rw [strcmp_nil_right x a hx.1]; simp
    | cons y b =>
      have hy := is_c_string_head y b hb
      rw [strcmp_cons_cons x y a b hx.1 hy.1]
      split_ifs
      · simp
      · simp
      · exact ih b (is_c_string_tail x a ha) (is_c_string_tail y b hb)

theorem strcmp_eq_zero_iff (a b : List Char) (ha : is_c_string a) (hb : is_c_string b) :
    strcmp a b = 0 ↔ a = b := by
  induction a generalizing b with
  | nil =>
    rw [strcmp_nil_left]
    cases b with
    | nil => simp [char_at_nil]
    | cons y b => simp [char_at_cons_zero, (is_c_string_head y b hb).1]
  | cons x a ih =>
    have hx := is_c_string_head x a ha
    cases b with
    | nil => rw [strcmp_nil_right x a hx.1]; simp
    | cons y b =>
      have hy := is_c_string_head y b hb
      rw [strcmp_cons_cons x y a b hx.1 hy.1]
      by_cases hlt : char_value x < char_value y
      · have hne : x ≠ y := by
          intro h
          rw [h] at hlt
          omega
        simp [hlt, hne]
      · by_cases hgt : char_value x > char_value y
        · have hne : x ≠ y := by
            intro h
            rw [h] at hgt
            omega
          simp [hlt, hgt, hne]
        · have hxy : x = y := char_value_inj x y hx.2 hy.2 (by omega)
          simp only [hlt, hgt, if_false]
          rw [ih b (is_c_string_tail x a ha) (is_c_string_tail y b hb)]
          simp [hxy]

theorem strcmp_antisymm (a b : List Char) (ha : is_c_string a) (hb : is_c_string b) :
    strcmp a b = - strcmp b a := by
  induction a generalizing b with
  | nil =>
    cases b with
    | nil => simp [strcmp_nil_left, char_at_nil]
    | cons y b =>
      have hy := is_c_string_head y b hb
      rw [strcmp_nil_left, strcmp_nil_right y b hy.1]
      simp [char_at_cons_zero, hy.1]
  | cons x a ih =>
    have hx := is_c_string_head x a ha
    cases b with
    | nil =>
      rw [strcmp_nil_left, strcmp_nil_right x a hx.1]
      simp [char_at_cons_zero, hx.1]
    | cons y b =>
      have hy := is_c_string_head y b hb
      rw [strcmp_cons_cons x y a b hx.1 hy.1, strcmp_cons_cons y x b a hy.1 hx.1]
      by_cases hlt : char_value x < char_value y
      · have h1 : ¬ char_value y < char_value x := by omega
        simp [hlt, h1]
      · by_cases hgt : char_value x > char_value y
        · simp [hlt, hgt]
        · have h1 : ¬ char_value y < char_value x := by omega
          have h2 : ¬ char_value y > char_value x := by omega
          simp only [hlt, hgt, h1, h2, if_false]
          exact ih b (is_c_string_tail x a ha) (is_c_string_tail y b hb)

theorem spec_precedes_nil (b : List Char) : spec_precedes [] b ↔ b ≠ [] := by
  unfold spec_precedes
  constructor
  · rintro (⟨r, hr, h⟩ | ⟨p, x, y, ra, rb, h, _, _⟩)
    · simpa [h] using hr
    · simp at h
  · intro h
    exact Or.inl ⟨b, h, by simp⟩

theorem not_spec_precedes_nil (a : List Char) (x : Char) : ¬ spec_precedes (x :: a) [] := by
  unfold spec_precedes
  rintro (⟨r, _, h⟩ | ⟨p, x, y, ra, rb, _, h, _⟩) <;> simp at h

theorem spec_precedes_cons (x y : Char) (a b : List Char) :
    spec_precedes (x :: a) (y :: b)
      ↔ char_value x < char_value y ∨ (x = y ∧ spec_precedes a b) := by
  unfold spec_precedes
  constructor
  · rintro (⟨r, hr, h⟩ | ⟨p, x1, y1, ra, rb, h1, h2, hlt⟩)
    · simp only [List.cons_append, List.cons.injEq] at h
      exact Or.inr ⟨h.1.symm, Or.inl ⟨r, hr, h.2⟩⟩
    · cases p with
      | nil =>
        simp only [List.nil_append, List.cons.injEq] at h1 h2
        rw [h1.1, h2.1]
        exact Or.inl hlt
      | cons z p =>
        simp only [List.cons_append, List.cons.injEq] at h1 h2
        exact Or.inr ⟨h1.1.trans h2.1.symm, Or.inr ⟨p, x1, y1, ra, rb, h1.2, h2.2, hlt⟩⟩
  · rintro (hlt | ⟨hxy, ⟨r, hr, h⟩ | ⟨p, x1, y1, ra, rb, h1, h2, hlt⟩⟩)
    · exact Or.inr ⟨[], x, y, a, b, rfl, rfl, hlt⟩
    · exact Or.inl ⟨r, hr, by simp [hxy, h]⟩
    · exact Or.inr ⟨x :: p, x1, y1, ra, rb, by simp [h1], by simp [hxy, h2], hlt⟩

theorem strcmp_eq_neg_one_iff (a b : List Char) (ha : is_c_string a) (hb : is_c_string b) :
    strcmp a b = -1 ↔ spec_precedes a b := by
  induction a generalizing b with
  | nil =>
    rw [strcmp_nil_left, spec_precedes_nil]
    cases b with
    | nil => simp [char_at_nil]
    | cons y b => simp [char_at_cons_zero, (is_c_string_head y b hb).1]
  | cons x a ih =>
    have hx := is_c_string_head x a ha
    cases b with
    | nil =>
      rw [strcmp_nil_right x a hx.1]
      simp [not_spec_precedes_nil]
    | cons y b =>
      have hy := is_c_string_head y b hb
      rw [strcmp_cons_cons x y a b hx.1 hy.1, spec_precedes_cons]
      by_cases hlt : char_value x < char_value y
      · simp [hlt]
      · by_cases hgt : char_value x > char_value y
        · have hne : x ≠ y := by
            intro h
            rw [h] at hgt
            omega
          simp [hlt, hgt, hne]
        · have hxy : x = y := char_value_inj x y hx.2 hy.2 (by omega)
          simp only [hlt, hgt, if_false, false_or]
          rw [ih b (is_c_string_tail x a ha) (is_c_string_tail y b hb)]
          simp [hxy]

/-- Claim C21. For all NUL-terminated strings `a` and `b` (lists of non-NUL bytes),
`strcmp a b` is -1, 0 or 1; it is 0 exactly when `a = b`; it is -1 exactly when `a` is a
proper initial segment of `b` or the first differing character of `a` is smaller than that
of `b`; and `strcmp a b = - strcmp b a`. Characters are compared as the code compares
them, as values of the type `char`. -/
theorem C21_strcmp_three_way (a b : List Char) (ha : is_c_string a) (hb : is_c_string b) :
    (strcmp a b = -1 ∨ strcmp a b = 0 ∨ strcmp a b = 1)
    ∧ (strcmp a b = 0 ↔ a = b)
    ∧ (strcmp a b = -1 ↔ spec_precedes a b)
    ∧ strcmp a b = - strcmp b a :=
  ⟨strcmp_range a b ha hb, strcmp_eq_zero_iff a b ha hb, strcmp_eq_neg_one_iff a b ha hb,
    strcmp_antisymm a b ha hb⟩

/-- Claim C21, instance: `"ab"` against `"abc"`, a proper initial segment, where `strcmp`
returns -1 and, with the arguments exchanged, 1. -/
theorem C21_strcmp_three_way_witness :
    is_c_string "ab".toList ∧ is_c_string "abc".toList
    ∧ strcmp "ab".toList "abc".toList = -1
    ∧ strcmp "abc".toList "ab".toList = 1
    ∧ (strcmp "ab".toList "abc".toList = -1 ↔ spec_precedes "ab".toList "abc".toList)
    ∧ strcmp "ab".toList "abc".toList = - strcmp "abc".toList "ab".toList :=
  ⟨by decide, by decide, by decide, by decide,
    (C21_strcmp_three_way "ab".toList "abc".toList (by decide) (by decide)).2.2.1,
    (C21_strcmp_three_way "ab".toList "abc".toList (by decide) (by decide)).2.2.2⟩

end MiniLibc

/-! # Properties of the memory allocator -/

namespace OsMem

open block_status

/-! ## Lists of blocks in memory -/

theorem store_same (mem : Nat → block_meta) (a : Nat) (b : block_meta) :
    store mem a b a = b := by
  simp [store]

theorem store_other (mem : Nat → block_meta) (a : Nat) (b : block_meta) (x : Nat)
    (h : x ≠ a) : store mem a b x = mem x := by
  simp [store, h]

/-- A list of blocks is the same list in a memory that agrees on its blocks. -/
theorem is_list_congr (mem mem2 : Nat → block_meta) (blocks : List Nat) (p : Option Nat)
    (h : ∀ a ∈ blocks, mem2 a = mem a) (hl : is_list mem p blocks) :
    is_list mem2 p blocks := by
  induction blocks generalizing p with
  | nil => exact hl
  | cons a blocks ih =>
    refine ⟨hl.1, ?_⟩
    rw [h a (List.mem_cons_self _ _)]
    exact ih _ (fun x hx => h x (List.mem_cons_of_mem _ hx)) hl.2

/-- The list that starts at a pointer is determined by the memory. -/
theorem is_list_unique (mem : Nat → block_meta) (as bs : List Nat) (p : Option Nat)
    (ha : is_list mem p as) (hb : is_list mem p bs) : as = bs := by
  induction as generalizing p bs with
  | nil =>
    cases bs with
    | nil => rfl
    | cons b bs =>
      have h1 : p = none := ha
      have h2 : p = some b := hb.1
      rw [h1] at h2
      cases h2
  | cons a as ih =>
    cases bs with
    | nil =>
      have h1 : p = some a := ha.1
      have h2 : p = none := hb
      rw [h1] at h2
      cases h2
    | cons b bs =>
      have h1 : p = some a := ha.1
      have h2 : p = some b := hb.1
      rw [h1] at h2
      cases h2
      rw [ih bs _ ha.2 hb.2]

/-- The part of a list after some of its blocks is the list that starts there. -/
theorem is_list_drop (mem : Nat → block_meta) (l1 : List Nat) (a : Nat) (l2 : List Nat)
    (p : Option Nat) (h : is_list mem p (l1 ++ a :: l2)) : is_list mem (some a) (a :: l2) := by
  induction l1 generalizing p with
  | nil => exact ⟨rfl, h.2⟩
  | cons x l1 ih => exact ih _ h.2

/-- No block occurs twice in a list that ends with NULL. -/
theorem is_list_not_mem (mem : Nat → block_meta) (a : Nat) (as : List Nat) (p : Option Nat)
    (h : is_list mem p (a :: as)) : a ∉ as := by
  intro hmem
  obtain ⟨l1, l2, hsplit⟩ := List.append_of_mem hmem
  have h1 : is_list mem (some a) (a :: as) := ⟨rfl, h.2⟩
  have h2 : is_list mem (some a) (a :: l2) := by
    have h3 := h.2
    rw [hsplit] at h3
    exact is_list_drop mem l1 a l2 _ h3
  have h4 := is_list_unique mem _ _ _ h1 h2
  have h5 : as.length = l2.length := by
    simp only [List.cons.injEq, true_and] at h4
    rw [h4]
  rw [hsplit] at h5
  simp at h5
  omega

theorem is_list_nodup (mem : Nat → block_meta) (as : List Nat) (p : Option Nat)
    (h : is_list mem p as) : as.Nodup := by
  induction as generalizing p with
  | nil => exact List.nodup_nil
  | cons a as ih =>
    exact List.nodup_cons.mpr ⟨is_list_not_mem mem a as p h, ih _ h.2⟩

theorem total_size_cons (header : Nat) (mem : Nat → block_meta) (a : Nat) (as : List Nat) :
    total_size header mem (a :: as) = (mem a).size + header + total_size header mem as := by
  simp [total_size]

theorem total_size_congr (header : Nat) (mem mem2 : Nat → block_meta) (as : List Nat)
    (h : ∀ a ∈ as, mem2 a = mem a) : total_size header mem2 as = total_size header mem as := by
  induction as with
  | nil => rfl
  | cons a as ih =>
    rw [total_size_cons, total_size_cons, h a (List.mem_cons_self _ _),
      ih (fun x hx => h x (List.mem_cons_of_mem _ hx))]

theorem total_size_append (header : Nat) (mem : Nat → block_meta) (as bs : List Nat) :
    total_size header mem (as ++ bs) = total_size header mem as + total_size header mem bs := by
  simp [total_size]

theorem takeWhile_free_congr (mem mem2 : Nat → block_meta) (as : List Nat)
    (h : ∀ a ∈ as, mem2 a = mem a) :
    as.takeWhile (fun a => decide ((mem2 a).status = STATUS_FREE))
      = as.takeWhile (fun a => decide ((mem a).status = STATUS_FREE)) := by
  induction as with
  | nil => rfl
  | cons a as ih =>
    simp only [List.takeWhile_cons, h a (List.mem_cons_self _ _),
      ih (fun x hx => h x (List.mem_cons_of_mem _ hx))]

theorem dropWhile_free_congr (mem mem2 : Nat → block_meta) (as : List Nat)
    (h : ∀ a ∈ as, mem2 a = mem a) :
    as.dropWhile (fun a => decide ((mem2 a).status = STATUS_FREE))
      = as.dropWhile (fun a => decide ((mem a).status = STATUS_FREE)) := by
  induction as with
  | nil => rfl
  | cons a as ih =>
    simp only [List.dropWhile_cons, h a (List.mem_cons_self _ _),
      ih (fun x hx => h x (List.mem_cons_of_mem _ hx))]

/-! ## The loops of `coalesce_free_blocks` -/

theorem merge_next_other (header : Nat) (mem : Nat → block_meta) (c n x : Nat) (h : x ≠ c) :
    merge_next header mem c n x = mem x := by
  simp [merge_next, store, h]

theorem merge_next_size (header : Nat) (mem : Nat → block_meta) (c n : Nat) :
    (merge_next header mem c n c).size
      = ((mem c).size + ((mem n).size + header) % SIZE_MOD) % SIZE_MOD := by
  simp [merge_next, store]

theorem merge_next_status (header : Nat) (mem : Nat → block_meta) (c n : Nat) :
    (merge_next header mem c n c).status = (mem c).status := by
  simp [merge_next, store]

theorem merge_next_prev (header : Nat) (mem : Nat → block_meta) (c n : Nat) :
    (merge_next header mem c n c).prev = (mem c).prev := by
  simp [merge_next, store]

theorem merge_next_next (header : Nat) (mem : Nat → block_meta) (c n : Nat) (h : n ≠ c) :
    (merge_next header mem c n c).next = (mem n).next := by
  simp [merge_next, store, h]

/-- The inner loop on a list that ends with NULL: it returns, changes the block `c` alone,
which takes the sizes and headers of the free blocks that follow it and is linked to the
first block that is not free. -/
theorem coalesce_inner_spec (header : Nat) (as : List Nat) :
    ∀ (fuel : Nat) (mem : Nat → block_meta) (c : Nat),
      is_list mem (mem c).next as → c ∉ as → as.length ≤ fuel →
      (mem c).size + total_size header mem as < SIZE_MOD →
      ∃ mem1, coalesce_inner header fuel mem c = some mem1
        ∧ (∀ x, x ≠ c → mem1 x = mem x)
        ∧ (mem1 c).status = (mem c).status
        ∧ (mem1 c).prev = (mem c).prev
        ∧ (mem1 c).size = (mem c).size
            + total_size header mem
                (as.takeWhile (fun a => decide ((mem a).status = STATUS_FREE)))
        ∧ is_list mem1 (mem1 c).next
            (as.dropWhile (fun a => decide ((mem a).status = STATUS_FREE))) := by
  induction as with
  | nil =>
    intro fuel mem c hl _ _ _
    have hn : (mem c).next = none := hl
    refine ⟨mem, ?_, fun _ _ => rfl, rfl, rfl, by simp [total_size], by simpa using hn⟩
    cases fuel <;> simp [coalesce_inner, hn]
  | cons n as ih =>
    intro fuel mem c hl hc hfuel hsize
    have hn : (mem c).next = some n := hl.1
    have hnc : n ≠ c := fun h => hc (by simp [h])
    have hcas : c ∉ as := fun h => hc (List.mem_cons_of_mem _ h)
    by_cases hfree : (mem n).status = STATUS_FREE
    · obtain ⟨f, rfl⟩ : ∃ f, fuel = f + 1 := ⟨fuel - 1, by simp at hfuel; omega⟩
      rw [total_size_cons] at hsize
      have hmod : ((mem c).size + ((mem n).size + header) % SIZE_MOD) % SIZE_MOD
          = (mem c).size + ((mem n).size + header) := by
        rw [Nat.mod_eq_of_lt (a := (mem n).size + header) (by omega), Nat.mod_eq_of_lt (by omega)]
      have hframe : ∀ a ∈ as, merge_next header mem c n a = mem a :=
        fun a ha => merge_next_other header mem c n a (fun h => hcas (h ▸ ha))
      obtain ⟨mem1, h1, h2, h3, h4, h5, h6⟩ := ih f (merge_next header mem c n) c
        (by
          rw [merge_next_next header mem c n hnc]
          exact is_list_congr mem _ as _ hframe hl.2)
        hcas (by simp at hfuel; omega)
        (by
          rw [merge_next_size, hmod, total_size_congr header mem _ as hframe]
          omega)
      refine ⟨mem1, ?_, ?_, ?_, ?_, ?_, ?_⟩
      · rw [coalesce_inner]
        simp only [hn, hfree, if_true]
        exact h1
      · intro x hx
        rw [h2 x hx, merge_next_other header mem c n x hx]
      · rw [h3, merge_next_status]
      · rw [h4, merge_next_prev]
      · rw [h5, merge_next_size, hmod, takeWhile_free_congr mem _ as hframe,
          total_size_congr header mem _ _
            (fun a ha => hframe a (List.takeWhile_subset _ ha))]
        simp only [List.takeWhile_cons, hfree, decide_True, if_true, total_size_cons]
        omega
      · rw [dropWhile_free_congr mem _ as hframe] at h6
        simpa only [List.dropWhile_cons, hfree, decide_True, if_true] using h6
    · refine ⟨mem, ?_, fun _ _ => rfl, rfl, rfl, ?_, ?_⟩
      · cases fuel <;> simp [coalesce_inner, hn, hfree]
      · simp [List.takeWhile_cons, hfree, total_size]
      · simpa [List.dropWhile_cons, hfree] using hl

theorem head_dropWhile_free (mem : Nat → block_meta) (as : List Nat) (d : Nat) (rest : List Nat)
    (h : as.dropWhile (fun a => decide ((mem a).status = STATUS_FREE)) = d :: rest) :
    (mem d).status ≠ STATUS_FREE := by
  induction as with
  | nil => simp at h
  | cons a as ih =>
    by_cases hfree : (mem a).status = STATUS_FREE
    · simp only [List.dropWhile_cons, hfree, decide_True, if_true] at h
      exact ih h
    · simp only [List.dropWhile_cons, hfree, decide_False] at h
      simp only [Bool.false_eq_true, if_false, List.cons.injEq] at h
      rw [← h.1]
      exact hfree

theorem filter_busy_dropWhile_free (mem : Nat → block_meta) (as : List Nat) :
    (as.dropWhile (fun a => decide ((mem a).status = STATUS_FREE))).filter
        (fun a => decide ((mem a).status ≠ STATUS_FREE))
      = as.filter (fun a => decide ((mem a).status ≠ STATUS_FREE)) := by
  induction as with
  | nil => rfl
  | cons a as ih =>
    by_cases hfree : (mem a).status = STATUS_FREE
    · simp only [List.dropWhile_cons, hfree, decide_True, if_true, ih]
      simp [List.filter_cons, hfree]
    · simp [List.dropWhile_cons, hfree]

theorem total_size_takeWhile_dropWhile (header : Nat) (mem : Nat → block_meta)
    (p : Nat → Bool) (as : List Nat) :
    total_size header mem (as.takeWhile p) + total_size header mem (as.dropWhile p)
      = total_size header mem as := by
  rw [← total_size_append, List.takeWhile_append_dropWhile]

/-- One turn of the outer loop before it moves on, at the block `c` of a list that ends
with NULL: the memory changes at `c` alone, and only when `c` is free; `c` is then linked
to `rest`, the list after the free blocks that followed it. -/
theorem coalesce_turn_spec (header fuel0 : Nat) (mem : Nat → block_meta) (c : Nat)
    (as : List Nat) (hl : is_list mem (mem c).next as) (hc : c ∉ as)
    (hfuel : as.length ≤ fuel0) (hsize : total_size header mem (c :: as) < SIZE_MOD) :
    ∃ mem1 rest,
      (if (mem c).status = STATUS_FREE then coalesce_inner header fuel0 mem c else some mem)
        = some mem1
      ∧ (∀ x, x ≠ c → mem1 x = mem x)
      ∧ (mem1 c).status = (mem c).status
      ∧ ((mem c).status ≠ STATUS_FREE → (mem1 c).size = (mem c).size)
      ∧ is_list mem1 (mem1 c).next rest
      ∧ rest <:+ as
      ∧ (mem1 c).size + header + total_size header mem rest = total_size header mem (c :: as)
      ∧ ((mem c).status = STATUS_FREE →
          ∀ d rest1, rest = d :: rest1 → (mem d).status ≠ STATUS_FREE)
      ∧ rest.filter (fun a => decide ((mem a).status ≠ STATUS_FREE))
          = as.filter (fun a => decide ((mem a).status ≠ STATUS_FREE)) := by
  by_cases hfree : (mem c).status = STATUS_FREE
  · rw [total_size_cons] at hsize
    obtain ⟨mem1, h1, h2, h3, _, h5, h6⟩ :=
      coalesce_inner_spec header as fuel0 mem c hl hc hfuel (by omega)
    refine ⟨mem1, as.dropWhile (fun a => decide ((mem a).status = STATUS_FREE)), ?_, h2, h3,
      fun h => absurd hfree h, h6, List.dropWhile_suffix _, ?_, ?_, ?_⟩
    · simp only [hfree, if_true]
      exact h1
    · rw [h5, total_size_cons,
        ← total_size_takeWhile_dropWhile header mem
          (fun a => decide ((mem a).status = STATUS_FREE)) as]
      omega
    · intro _ d rest1 hd
      exact head_dropWhile_free mem as d rest1 hd
    · exact filter_busy_dropWhile_free mem as
  · refine ⟨mem, as, ?_, fun _ _ => rfl, rfl, fun _ => rfl, hl, List.suffix_refl _, ?_,
      fun h => absurd h hfree, rfl⟩
    · simp only [hfree, if_false]
    · rw [total_size_cons]

theorem busy_filter_congr (mem mem2 : Nat → block_meta)
    (h : ∀ x, (mem2 x).status = (mem x).status) :
    (fun a => decide ((mem2 a).status ≠ STATUS_FREE))
      = (fun a => decide ((mem a).status ≠ STATUS_FREE)) := by
  funext a
  rw [h a]

theorem filter_cons_congr (p : Nat → Bool) (c : Nat) (l1 l2 : List Nat)
    (h : l1.filter p = l2.filter p) : (c :: l1).filter p = (c :: l2).filter p := by
  rw [List.filter_cons, List.filter_cons, h]

/-- The outer loop from the block `c` of a list that ends with NULL: it returns with the
list `c :: bs`, a part of the list it found, in which no two consecutive blocks are free;
the blocks that are not free are the same, the total size is the same, and `list_tail` is
the last block. Statuses never change, and blocks outside the list are left alone. -/
theorem coalesce_outer_spec (header fuel0 : Nat) (n : Nat) :
    ∀ (as : List Nat) (c fuel : Nat) (mem : Nat → block_meta) (tail : Option Nat),
      as.length < n → is_list mem (mem c).next as → c ∉ as → as.length ≤ fuel0 →
      as.length < fuel → total_size header mem (c :: as) < SIZE_MOD →
      ∃ mem1 tail1 bs,
        coalesce_outer header fuel0 fuel mem tail (some c) = some (mem1, tail1)
        ∧ is_list mem1 (mem1 c).next bs
        ∧ (∀ x, x ∉ c :: as → mem1 x = mem x)
        ∧ (∀ x, (mem1 x).status = (mem x).status)
        ∧ (∀ x, (mem x).status ≠ STATUS_FREE → (mem1 x).size = (mem x).size)
        ∧ (∀ x ∈ bs, x ∈ as)
        ∧ no_adjacent_free mem1 (c :: bs)
        ∧ (c :: bs).filter (fun a => decide ((mem a).status ≠ STATUS_FREE))
            = (c :: as).filter (fun a => decide ((mem a).status ≠ STATUS_FREE))
        ∧ total_size header mem1 (c :: bs) = total_size header mem (c :: as)
        ∧ tail1 = (c :: bs).getLast? := by
  induction n with
  | zero => intro as c fuel mem tail hlen; omega
  | succ n ih =>
    intro as c fuel mem tail hlen hl hc hfuel0 hfuel hsize
    obtain ⟨f, rfl⟩ : ∃ f, fuel = f + 1 := ⟨fuel - 1, by omega⟩
    obtain ⟨mem1, rest, ht1, ht2, ht3, ht4, ht5, ht6, ht7, ht8, ht9⟩ :=
      coalesce_turn_spec header fuel0 mem c as hl hc hfuel0 hsize
    have hstatus : ∀ x, (mem1 x).status = (mem x).status := by
      intro x
      by_cases hx : x = c
      · rw [hx, ht3]
      · rw [ht2 x hx]
    have hbusy : ∀ x, (mem x).status ≠ STATUS_FREE → (mem1 x).size = (mem x).size := by
      intro x hfree
      by_cases hx : x = c
      · rw [hx] at hfree ⊢
        exact ht4 hfree
      · rw [ht2 x hx]
    rw [coalesce_outer]
    simp only [ht1]
    cases rest with
    | nil =>
      have hnext : (mem1 c).next = none := ht5
      refine ⟨mem1, some c, [], ?_, hnext, ?_, hstatus, hbusy, ?_, trivial, ?_, ?_, rfl⟩
      · simp only [hnext, if_true]
        cases f <;> rfl
      · intro x hx
        exact ht2 x (fun h => hx (by simp [h]))
      · intro x hx
        simp at hx
      · exact filter_cons_congr _ c [] as (by rw [ht9])
      · rw [← ht7]
        simp [total_size]
    | cons d rest1 =>
      have hnext : (mem1 c).next = some d := ht5.1
      have hsub : ∀ x ∈ d :: rest1, x ∈ as := fun x hx => ht6.subset hx
      have hcrest : c ∉ d :: rest1 := fun h => hc (hsub c h)
      have hframe : ∀ x ∈ d :: rest1, mem1 x = mem x :=
        fun x hx => ht2 x (fun h => hcrest (h ▸ hx))
      have hlen1 : (d :: rest1).length ≤ as.length := ht6.length_le
      simp only [List.length_cons] at hlen1
      have htot1 : total_size header mem1 (d :: rest1) = total_size header mem (d :: rest1) :=
        total_size_congr header mem mem1 _ hframe
      obtain ⟨mem2, tail2, bs1, g1, g2, g3, g4, g5, g6, g7, g8, g9, g10⟩ :=
        ih rest1 d f mem1 tail (by omega) ht5.2 (is_list_not_mem mem1 d rest1 _ ht5)
          (by omega) (by omega) (by rw [htot1]; omega)
      have hc2 : mem2 c = mem1 c := g3 c hcrest
      refine ⟨mem2, tail2, d :: bs1, ?_, ?_, ?_, ?_, ?_, ?_, ?_, ?_, ?_, ?_⟩
      · simp only [hnext, if_false]
        exact g1
      · rw [hc2]
        exact ⟨hnext, g2⟩
      · intro x hx
        rw [g3 x (fun h => hx (List.mem_cons_of_mem _ (hsub x h))),
          ht2 x (fun h => hx (by simp [h]))]
      · intro x
        rw [g4 x, hstatus x]
      · intro x hfree
        rw [g5 x (by rw [hstatus x]; exact hfree), hbusy x hfree]
      · intro x hx
        rcases List.mem_cons.mp hx with h | h
        · exact hsub x (by simp [h])
        · exact hsub x (List.mem_cons_of_mem _ (g6 x h))
      · refine ⟨?_, g7⟩
        rw [g4 c, g4 d, hstatus c, hstatus d]
        intro hboth
        exact ht8 hboth.1 d rest1 rfl hboth.2
      · rw [busy_filter_congr mem mem1 hstatus] at g8
        exact filter_cons_congr _ c (d :: bs1) as (g8.trans ht9)
      · rw [total_size_cons, hc2, g9, htot1, ht7]
      · rw [g10, List.getLast?_cons_cons]
/-! ## The block list after `coalesce_free_blocks` -/

/-- Claim C27. For every block list that ends with NULL and whose blocks, headers
included, fit the address space (their total is below `2 ^ 64`), `coalesce_free_blocks`
returns, and in the list it leaves no two consecutive blocks are both free, the blocks
that are not free are the same, in the same order and with the same sizes and statuses,
and the total of `size + header` over the list is what it was. `fuel` need only be the
number of blocks. -/
theorem C27_coalesce_merges_free_runs (META_SIZE fuel : Nat) (h : Heap) (blocks : List Nat)
    (hlist : is_list h.mem h.list_head blocks) (hfuel : blocks.length ≤ fuel)
    (htotal : total_size (META_SIZE + padding META_SIZE) h.mem blocks < SIZE_MOD) :
    ∃ h1 blocks1, coalesce_free_blocks META_SIZE fuel h = some h1
      ∧ is_list h1.mem h1.list_head blocks1
      ∧ no_adjacent_free h1.mem blocks1
      ∧ busy_blocks h1.mem blocks1 = busy_blocks h.mem blocks
      ∧ total_size (META_SIZE + padding META_SIZE) h1.mem blocks1
          = total_size (META_SIZE + padding META_SIZE) h.mem blocks := by
  cases blocks with
  | nil =>
    have hhead : h.list_head = none := hlist
    refine ⟨h, [], ?_, hlist, trivial, rfl, rfl⟩
    simp [coalesce_free_blocks, hhead]
  | cons c as =>
    have hhead : h.list_head = some c := hlist.1
    simp only [List.length_cons] at hfuel
    obtain ⟨mem1, tail1, bs, g1, g2, _, g4, g5, _, g7, g8, g9, _⟩ :=
      coalesce_outer_spec (META_SIZE + padding META_SIZE) fuel (as.length + 1) as c fuel h.mem
        h.list_tail (by omega) hlist.2 (is_list_not_mem h.mem c as _ hlist) (by omega)
        (by omega) htotal
    refine ⟨{ mem := mem1, list_head := h.list_head, list_tail := tail1 }, c :: bs, ?_,
      ⟨hhead, g2⟩, g7, ?_, g9⟩
    · simp only [coalesce_free_blocks, hhead, g1]
    · unfold busy_blocks
      simp only
      rw [busy_filter_congr h.mem mem1 g4, g8]
      apply List.map_congr_left
      intro a ha
      have hbusy : (h.mem a).status ≠ STATUS_FREE := by
        simpa using (List.mem_filter.mp ha).2
      rw [g4 a, g5 a hbusy]

/-- Claim C27, instance: the list of a free block of 96 bytes, a free block of 192 bytes,
an allocated block and a free block, with a header of 32 bytes. The two free blocks
become one of 96 + 192 + 32 = 320 bytes; the total stays 512. -/
theorem C27_coalesce_merges_free_runs_witness :
    is_list free_free_alloc_free.mem free_free_alloc_free.list_head [0, 128, 352, 448]
    ∧ total_size (32 + padding 32) free_free_alloc_free.mem [0, 128, 352, 448] = 512
    ∧ (coalesce_free_blocks 32 4 free_free_alloc_free).map (block_list 4)
        = some [(0, 320, STATUS_FREE), (352, 64, STATUS_ALLOC), (448, 32, STATUS_FREE)]
    ∧ ∃ h1 blocks1, coalesce_free_blocks 32 4 free_free_alloc_free = some h1
        ∧ is_list h1.mem h1.list_head blocks1
        ∧ no_adjacent_free h1.mem blocks1
        ∧ busy_blocks h1.mem blocks1 = busy_blocks free_free_alloc_free.mem [0, 128, 352, 448]
        ∧ total_size (32 + padding 32) h1.mem blocks1
            = total_size (32 + padding 32) free_free_alloc_free.mem [0, 128, 352, 448] :=
  ⟨⟨rfl, rfl, rfl, rfl, rfl⟩, by decide, by decide,
    C27_coalesce_merges_free_runs 32 4 free_free_alloc_free [0, 128, 352, 448]
      ⟨rfl, rfl, rfl, rfl, rfl⟩ (by decide) (by decide)⟩

/-- Claim C26, evaluated on the code, which never writes a `prev` field. In the list of two
free blocks (at 0 and 128) and a mapped block (at 1000000), all links consistent,
`coalesce_free_blocks` merges the block at 128 into the block at 0. Afterwards `list_tail`
is the last block, as claimed, and the list is 0, 1000000; but the `prev` of the block at
1000000 is still 128: the walk back from `list_tail` visits 1000000, 128, 0, and
`find_last_brk_free`, which walks back over the mapped blocks, returns the block at 128,
which is no longer in the list. -/
theorem C26_coalesce_leaves_prev_stale :
    is_list two_free_then_mapped.mem two_free_then_mapped.list_head [0, 128, 1000000]
    ∧ links_consistent two_free_then_mapped.mem none [0, 128, 1000000]
    ∧ two_free_then_mapped.list_tail = some 1000000
    ∧ (coalesce_free_blocks 32 3 two_free_then_mapped).map
        (fun h => (forward_walk h.mem 4 h.list_head, h.list_tail))
      = some ([0, 1000000], some 1000000)
    ∧ (coalesce_free_blocks 32 3 two_free_then_mapped).map
        (fun h => ((h.mem 0).next, (h.mem 1000000).prev))
      = some (some 1000000, some 128)
    ∧ (coalesce_free_blocks 32 3 two_free_then_mapped).map
        (fun h => backward_walk h.mem 4 h.list_tail)
      = some [1000000, 128, 0]
    ∧ (coalesce_free_blocks 32 3 two_free_then_mapped).map (fun h => find_last_brk_free 4 h)
      = some (some (some 128)) := by
  refine ⟨⟨rfl, rfl, rfl, rfl⟩, ⟨rfl, rfl, rfl, trivial⟩, ?_, ?_, ?_, ?_, ?_⟩ <;> decide

/-! ## The search for the best block -/

/-- The loop of `find_best_block` on a list that ends with NULL: it returns; when no block
of the list fits with `size - s` below `best_size`, the result is the `best_block` it
started with; otherwise it is the first of the smallest blocks that fit. -/
theorem find_best_block_loop_spec (mem : Nat → block_meta) (s : Nat) (blocks : List Nat) :
    ∀ (fuel : Nat) (p best : Option Nat) (bsize : Nat),
      is_list mem p blocks → blocks.length ≤ fuel →
      ∃ r, find_best_block_loop mem s fuel p best bsize = some r
        ∧ ((∀ a ∈ blocks, fits mem s a → bsize ≤ (mem a).size - s) → r = best)
        ∧ ((∃ a ∈ blocks, fits mem s a ∧ (mem a).size - s < bsize) →
            ∃ l1 b l2, blocks = l1 ++ b :: l2 ∧ r = some b ∧ fits mem s b
              ∧ (mem b).size - s < bsize
              ∧ (∀ a ∈ l1, fits mem s a → (mem b).size < (mem a).size)
              ∧ (∀ a ∈ l2, fits mem s a → (mem b).size ≤ (mem a).size)) := by
  induction blocks with
  | nil =>
    intro fuel p best bsize hl _
    have hp : p = none := hl
    subst hp
    refine ⟨best, ?_, fun _ => rfl, ?_⟩
    · cases fuel <;> rfl
    · rintro ⟨a, ha, _⟩
      simp at ha
  | cons c as ih =>
    intro fuel p best bsize hl hfuel
    have hp : p = some c := hl.1
    subst hp
    obtain ⟨f, rfl⟩ : ∃ f, fuel = f + 1 := ⟨fuel - 1, by simp at hfuel; omega⟩
    simp only [List.length_cons] at hfuel
    by_cases hc : fits mem s c ∧ (mem c).size - s < bsize
    · obtain ⟨r, h1, h2, h3⟩ := ih f (mem c).next (some c) ((mem c).size - s) hl.2 (by omega)
      have hfit : (mem c).status = STATUS_FREE ∧ (mem c).size ≥ s := hc.1
      refine ⟨r, ?_, ?_, ?_⟩
      · rw [find_best_block_loop]
        simp only [hfit, hc.2, and_self, if_true]
        exact h1
      · intro hall
        have := hall c (List.mem_cons_self _ _) hc.1
        omega
      · intro _
        by_cases hex : ∃ a ∈ as, fits mem s a ∧ (mem a).size - s < (mem c).size - s
        · obtain ⟨l1, b, l2, e1, e2, e3, e4, e5, e6⟩ := h3 hex
          refine ⟨c :: l1, b, l2, by rw [e1]; rfl, e2, e3, by omega, ?_, e6⟩
          intro a ha hfa
          rcases List.mem_cons.mp ha with h | h
          · rw [h]
            have := hc.1.2
            have := e3.2
            omega
          · exact e5 a h hfa
        · have hr : r = some c := h2 (fun a ha hfa => by
            by_contra hlt
            exact hex ⟨a, ha, hfa, by omega⟩)
          refine ⟨[], c, as, rfl, hr, hc.1, hc.2, fun a ha => by simp at ha, ?_⟩
          intro a ha hfa
          by_contra hlt
          have := hc.1.2
          have := hfa.2
          exact hex ⟨a, ha, hfa, by omega⟩
    · obtain ⟨r, h1, h2, h3⟩ := ih f (mem c).next best bsize hl.2 (by omega)
      refine ⟨r, ?_, ?_, ?_⟩
      · rw [find_best_block_loop]
        by_cases hfit : (mem c).status = STATUS_FREE ∧ (mem c).size ≥ s
        · have hge : ¬ (mem c).size - s < bsize := fun h => hc ⟨hfit, h⟩
          simp only [hfit, and_self, if_true, hge, if_false]
          exact h1
        · simp only [hfit, if_false]
          exact h1
      · intro hall
        exact h2 (fun a ha hfa => hall a (List.mem_cons_of_mem _ ha) hfa)
      · rintro ⟨a, ha, hfa, hlt⟩
        have hac : a ∈ as := by
          rcases List.mem_cons.mp ha with h | h
          · rw [h] at hfa hlt
            exact absurd ⟨hfa, hlt⟩ hc
          · exact h
        obtain ⟨l1, b, l2, e1, e2, e3, e4, e5, e6⟩ := h3 ⟨a, hac, hfa, hlt⟩
        refine ⟨c :: l1, b, l2, by rw [e1]; rfl, e2, e3, e4, ?_, e6⟩
        intro x hx hfx
        rcases List.mem_cons.mp hx with h | h
        · rw [h] at hfx ⊢
          have hge : ¬ (mem c).size - s < bsize := fun h => hc ⟨hfx, h⟩
          have := hfx.2
          have := e3.2
          omega
        · exact e5 x h hfx

/-- What `find_best_block` returns on a list that ends with NULL. It returns NULL exactly
when no block is free with `s <= size` and `size - s < N_MAX`; otherwise it returns the
first of the smallest such blocks. When every free block that can hold `s` bytes is
smaller than `s + N_MAX`, this is the block of the claim. -/
theorem find_best_block_spec (fuel : Nat) (h : Heap) (s : Nat) (blocks : List Nat)
    (hlist : is_list h.mem h.list_head blocks) (hfuel : blocks.length ≤ fuel) :
    ∃ r, find_best_block fuel h s = some r
      ∧ (r = none ↔ ∀ a ∈ blocks, fits h.mem s a → N_MAX ≤ (h.mem a).size - s)
      ∧ (∀ b, r = some b →
          ∃ l1 l2, blocks = l1 ++ b :: l2 ∧ fits h.mem s b ∧ (h.mem b).size - s < N_MAX
            ∧ (∀ a ∈ l1, fits h.mem s a → (h.mem b).size < (h.mem a).size)
            ∧ (∀ a ∈ l2, fits h.mem s a → (h.mem b).size ≤ (h.mem a).size)) := by
  obtain ⟨r, h1, h2, h3⟩ :=
    find_best_block_loop_spec h.mem s blocks fuel h.list_head none N_MAX hlist hfuel
  refine ⟨r, h1, ⟨?_, h2⟩, ?_⟩
  · intro hr a ha hfa
    by_contra hlt
    obtain ⟨_, b, _, _, e2, _⟩ := h3 ⟨a, ha, hfa, by omega⟩
    rw [hr] at e2
    cases e2
  · intro b hb
    by_cases hex : ∃ a ∈ blocks, fits h.mem s a ∧ (h.mem a).size - s < N_MAX
    · obtain ⟨l1, b1, l2, e1, e2, e3, e4, e5, e6⟩ := h3 hex
      rw [hb] at e2
      cases e2
      exact ⟨l1, l2, e1, e3, e4, e5, e6⟩
    · have hr : r = none := h2 (fun a ha hfa => by
        by_contra hlt
        exact hex ⟨a, ha, hfa, by omega⟩)
      rw [hr] at hb
      cases hb

/-- Claim C25, evaluated on the code, which starts the search with `best_size = N_MAX`
(2147483647) and takes a block only when `size - s` is below it. A list whose only block
is free and has 3 GiB gives NULL for a request of 8 bytes, although the block is free and
large enough; the same with 2147483655 bytes, the least such size, and with two such
blocks. With 2147483654 bytes the block is found, and among smaller blocks the first of
the smallest that fit is returned, as claimed. -/
theorem C25_find_best_block_misses_large_block :
    find_best_block 1 (sample_heap [(0, 3221225472, STATUS_FREE)]) 8 = some none
    ∧ find_best_block 1 (sample_heap [(0, 2147483655, STATUS_FREE)]) 8 = some none
    ∧ find_best_block 1 (sample_heap [(0, 2147483654, STATUS_FREE)]) 8 = some (some 0)
    ∧ find_best_block 2
        (sample_heap [(0, 3221225472, STATUS_FREE), (3221225504, 16, STATUS_ALLOC)]) 8
      = some none
    ∧ find_best_block 4
        (sample_heap [(0, 64, STATUS_FREE), (96, 16, STATUS_ALLOC), (144, 32, STATUS_FREE),
          (208, 32, STATUS_FREE)]) 24
      = some (some 144)
    ∧ find_best_block 4
        (sample_heap [(0, 64, STATUS_FREE), (96, 16, STATUS_ALLOC), (144, 32, STATUS_FREE),
          (208, 32, STATUS_FREE)]) 128
      = some none := by
  refine ⟨?_, ?_, ?_, ?_, ?_, ?_⟩ <;> decide

/-! ## Alignment -/

/-- Claim C29. For every size `s`, `padding s` is below 8, `s + padding s` is a multiple
of 8, also after reduction modulo `2 ^ 64`, `padding s` is 0 exactly when `s` is a multiple
of 8, and no smaller amount aligns `s`. -/
theorem C29_padding_aligns (s : Nat) :
    padding s < 8
    ∧ (s + padding s) % 8 = 0
    ∧ ((s + padding s) % SIZE_MOD) % 8 = 0
    ∧ (padding s = 0 ↔ s % 8 = 0)
    ∧ (∀ p, (s + p) % 8 = 0 → padding s ≤ p) := by
  have hmod : ∀ x : Nat, (x % SIZE_MOD) % 8 = x % 8 := fun x =>
    Nat.mod_mod_of_dvd x (by decide : 8 ∣ SIZE_MOD)
  rw [hmod]
  unfold padding
  split_ifs with h
  · refine ⟨by omega, by omega, by omega, by simp [h], fun p _ => by omega⟩
  · refine ⟨by omega, by omega, by omega, by omega, fun p hp => by omega⟩

end OsMem

/-! # Properties of the dispatch of `parse_command` -/

namespace MiniShell

open operator_t

/-- When `cmd1` ends the shell process, nothing of `cmd2` is executed, under each of the
three operators. -/
theorem parse_command_exit (env : Env) (SHELL_EXIT : Int) (cmd1 cmd2 : command_t)
    (t t1 : List Event) (code : Int)
    (h1 : parse_command env SHELL_EXIT cmd1 t = (Outcome.exited code, t1)) :
    parse_command env SHELL_EXIT (command_t.compound OP_SEQUENTIAL cmd1 cmd2) t
        = (Outcome.exited code, t1)
    ∧ parse_command env SHELL_EXIT (command_t.compound OP_CONDITIONAL_ZERO cmd1 cmd2) t
        = (Outcome.exited code, t1)
    ∧ parse_command env SHELL_EXIT (command_t.compound OP_CONDITIONAL_NZERO cmd1 cmd2) t
        = (Outcome.exited code, t1) := by
  refine ⟨?_, ?_, ?_⟩ <;> simp [parse_command, h1]

end MiniShell
